import Mathlib

/-!
LumixEngine reflection core (src/engine/reflection.h), with the stream,
heightmap and controller code of src/physics/physics_scene.cpp and the
bone and LOD code of src/graphics/model.cpp.

A shallow embedding of the reflection and component-property system:
the Variant tagged union and its value adaptation layer, the type-erased
Function wrapper, typed / array properties with their visitor, and the
registration builder; and of InputStream::read, heightmapLoaded,
deserializeControllers, parseBones, getBoneIdx, parseLODs and
getLODMeshIndices.

Conventions of the embedding

* Objects created with LUMIX_NEW live in an Allocator; a pointer is the
  position of the object in the allocator, a null pointer is none.
* Undefined behaviour of the C++ code (null dereference, out-of-range
  indexing, back() of an empty array, reading an inactive union member)
  is the result none.
* Floats are only stored and copied by this header, never computed with;
  they are carried as rationals. model.cpp reads floats raw from a file
  and compares them: there a float is an ieee_float, which has
  not-a-number and the infinities.
* An int of physics_scene.cpp and model.cpp is an integer; the result of
  an int operation is stored through to_int, which wraps at 32 bits.
-/

namespace Lumix
namespace reflection

/-! ## Engine value types used by the header -/

/-- A 32-bit float as carried (stored and copied, never computed with) by the header. -/
abbrev float := ℚ

/-- A double, as carried by `DVec3`. -/
abbrev double := ℚ

/-- An address held by a raw pointer (`void*`, `const char*`, `T*`). -/
abbrev Addr := Nat

/-- Modelled from the spec: `EntityPtr` (engine/lumix.h is not among the sources), an
entity reference that may be invalid; it is identified by its index. -/
structure EntityPtr where
  index : Int
deriving DecidableEq

/-- Modelled from the spec: `EntityRef` (engine/lumix.h is not among the sources), a
reference to an existing entity; it is identified by its index. -/
structure EntityRef where
  index : Int
deriving DecidableEq

/-- The cast `(EntityRef)e` used throughout the header: it keeps the index. -/
def EntityPtr.toRef (e : EntityPtr) : EntityRef := ⟨e.index⟩

/-- The implicit conversion of an `EntityRef` to an `EntityPtr` (as in
`visitor.cmp.entity = e`): it keeps the index. -/
def EntityRef.toPtr (e : EntityRef) : EntityPtr := ⟨e.index⟩

/-- The forward-declared `Vec2`. -/
structure Vec2 where
  x : float
  y : float
deriving DecidableEq

/-- The forward-declared `Vec3`. -/
structure Vec3 where
  x : float
  y : float
  z : float
deriving DecidableEq

/-- The forward-declared `Vec4`. -/
structure Vec4 where
  x : float
  y : float
  z : float
  w : float
deriving DecidableEq

/-- The forward-declared `IVec3`. -/
structure IVec3 where
  x : Int
  y : Int
  z : Int
deriving DecidableEq

/-- The engine type `DVec3` (three doubles). -/
structure DVec3 where
  x : double
  y : double
  z : double
deriving DecidableEq

/-- Modelled from the spec: `Path` (its definition is not among the sources), a
path-like string. The header only builds a `Path` from a C string (`Path(args[i].s)`), so
a path is represented by the C string it was built from. -/
structure Path where
  c_str : Addr
deriving DecidableEq

/-- The identifier `ComponentType` (a 32-bit hash or table index; declared outside the header). -/
abbrev ComponentType := Nat

/-- The identifier `ResourceType` (declared in engine/resource.h, outside the sources). -/
abbrev ResourceType := Nat

/-! ## Native C++ types seen by the value adaptation layer -/

/-- What a raw pointer points to: `void`, `char`, or some other object type (numbered). -/
inductive Pointee
  | void
  | char
  | object (id : Nat)
deriving DecidableEq

/-- The unqualified native types that occur as parameter or return types of wrapped
functions: the types named by the `_getVariantType` overloads, where the generic `T*`
overload is spelled out as `ptr pointee pointee_const` (`const char*` is
`ptr .char true`, `void*` is `ptr .void false`). -/
inductive NativeType
  | void
  | bool
  | i32
  | u32
  | float
  | entityPtr
  | entityRef
  | vec2
  | vec3
  | dvec3
  | path
  | ptr (pointee : Pointee) (pointee_const : Bool)
deriving DecidableEq

/-- The C++ type `const char*`. -/
abbrev NativeType.cstr : NativeType := .ptr .char true

/-- The values of a native type. -/
@[reducible]
def NativeType.Val : NativeType → Type
  | .void => Unit
  | .bool => Bool
  | .i32 => Int
  | .u32 => Nat
  | .float => reflection.float
  | .entityPtr => EntityPtr
  | .entityRef => EntityRef
  | .vec2 => Vec2
  | .vec3 => Vec3
  | .dvec3 => DVec3
  | .path => Path
  | .ptr _ _ => Addr

instance NativeType.decEqVal : (T : NativeType) → DecidableEq T.Val
  | .void => inferInstanceAs (DecidableEq Unit)
  | .bool => inferInstanceAs (DecidableEq Bool)
  | .i32 => inferInstanceAs (DecidableEq Int)
  | .u32 => inferInstanceAs (DecidableEq Nat)
  | .float => inferInstanceAs (DecidableEq ℚ)
  | .entityPtr => inferInstanceAs (DecidableEq EntityPtr)
  | .entityRef => inferInstanceAs (DecidableEq EntityRef)
  | .vec2 => inferInstanceAs (DecidableEq Vec2)
  | .vec3 => inferInstanceAs (DecidableEq Vec3)
  | .dvec3 => inferInstanceAs (DecidableEq DVec3)
  | .path => inferInstanceAs (DecidableEq Path)
  | .ptr _ _ => inferInstanceAs (DecidableEq Nat)

/-- A possibly cv- or reference-qualified type as written in a signature
(`const Path&`, `float`, `const char*`). -/
structure QualType where
  base : NativeType
  is_const : Bool
  is_volatile : Bool
  is_reference : Bool
deriving DecidableEq

/-- An unqualified type used as is. -/
def QualType.plain (T : NativeType) : QualType := ⟨T, false, false, false⟩

/-- Modelled from the spec: `RemoveCVR` (engine/metaprogramming.h is not among the
sources): strips top-level const, volatile and reference qualifiers. -/
def RemoveCVR (T : QualType) : NativeType := T.base

/-- A value together with its native type (one element of an argument pack). -/
abbrev NativeVal := (T : NativeType) × T.Val

/-! ## Variant -/

/-- The discriminant `Variant::Type`. -/
inductive VariantType
  | VOID
  | PTR
  | BOOL
  | I32
  | U32
  | FLOAT
  | CSTR
  | ENTITY
  | VEC2
  | VEC3
  | DVEC3
deriving DecidableEq

/-- The anonymous union of `Variant`: the constructor is the member written last. -/
inductive VariantUnion
  | b (v : Bool)
  | i (v : Int)
  | u (v : Nat)
  | f (v : float)
  | s (v : Addr)
  | e (v : EntityPtr)
  | v2 (v : Vec2)
  | v3 (v : Vec3)
  | dv3 (v : DVec3)
  | ptr (v : Addr)
deriving DecidableEq

/-- The struct `Variant`: a discriminant and the union, stored independently. -/
structure Variant where
  type : VariantType
  payload : VariantUnion
deriving DecidableEq

namespace Variant

/-- The constructor `Variant() { type = I32; i = 0; }`. -/
def ctor : Variant := { type := .I32, payload := .i 0 }

/-- Reading union member `b`; reading an inactive member is undefined. -/
def b (v : Variant) : Option Bool :=
  match v.payload with
  | .b x => some x
  | _ => none

/-- Reading union member `i`. -/
def i (v : Variant) : Option Int :=
  match v.payload with
  | .i x => some x
  | _ => none

/-- Reading union member `u`. -/
def u (v : Variant) : Option Nat :=
  match v.payload with
  | .u x => some x
  | _ => none

/-- Reading union member `f`. -/
def f (v : Variant) : Option float :=
  match v.payload with
  | .f x => some x
  | _ => none

/-- Reading union member `s`. -/
def s (v : Variant) : Option Addr :=
  match v.payload with
  | .s x => some x
  | _ => none

/-- Reading union member `e`. -/
def e (v : Variant) : Option EntityPtr :=
  match v.payload with
  | .e x => some x
  | _ => none

/-- Reading union member `v2`. -/
def v2 (v : Variant) : Option Vec2 :=
  match v.payload with
  | .v2 x => some x
  | _ => none

/-- Reading union member `v3`. -/
def v3 (v : Variant) : Option Vec3 :=
  match v.payload with
  | .v3 x => some x
  | _ => none

/-- Reading union member `dv3`. -/
def dv3 (v : Variant) : Option DVec3 :=
  match v.payload with
  | .dv3 x => some x
  | _ => none

/-- Reading union member `ptr`. -/
def ptr (v : Variant) : Option Addr :=
  match v.payload with
  | .ptr x => some x
  | _ => none

/-- The operator `void operator =(bool v) { b = v; type = BOOL; }`. -/
def assign_bool (self : Variant) (v : Bool) : Variant :=
  { { self with payload := .b v } with type := .BOOL }

/-- The operator `void operator =(i32 v) { i = v; type = I32; }`. -/
def assign_i32 (self : Variant) (v : Int) : Variant :=
  { { self with payload := .i v } with type := .I32 }

/-- The operator `void operator =(u32 v) { u = v; type = U32; }`. -/
def assign_u32 (self : Variant) (v : Nat) : Variant :=
  { { self with payload := .u v } with type := .U32 }

/-- The operator `void operator =(float v) { f = v; type = FLOAT; }`. -/
def assign_float (self : Variant) (v : float) : Variant :=
  { { self with payload := .f v } with type := .FLOAT }

/-- The operator `void operator =(const char* v) { s = v; type = CSTR; }`. -/
def assign_cstr (self : Variant) (v : Addr) : Variant :=
  { { self with payload := .s v } with type := .CSTR }

/-- The operator `void operator =(EntityPtr v) { e = v; type = ENTITY; }`. -/
def assign_entity (self : Variant) (v : EntityPtr) : Variant :=
  { { self with payload := .e v } with type := .ENTITY }

/-- The operator `void operator =(Vec2 v) { v2 = v; type = VEC2; }`. -/
def assign_vec2 (self : Variant) (v : Vec2) : Variant :=
  { { self with payload := .v2 v } with type := .VEC2 }

/-- The operator `void operator =(Vec3 v) { v3 = v; type = VEC3; }`. -/
def assign_vec3 (self : Variant) (v : Vec3) : Variant :=
  { { self with payload := .v3 v } with type := .VEC3 }

/-- The operator `void operator =(const DVec3& v) { dv3 = v; type = DVEC3; }`. -/
def assign_dvec3 (self : Variant) (v : DVec3) : Variant :=
  { { self with payload := .dv3 v } with type := .DVEC3 }

/-- The operator `void operator =(void* v) { ptr = v; type = PTR; }`. -/
def assign_ptr (self : Variant) (v : Addr) : Variant :=
  { { self with payload := .ptr v } with type := .PTR }

/-- The statement `v = x` for an expression `x` of native type `T`: the assignment
operator that C++ overload resolution selects among the ten operators of `Variant`.

* the eight value types and `const char*`, `void*` match their own operator exactly;
* `char*` converts to `const char*` by a qualification conversion (an exact match), which
  beats the pointer conversion to `void*`;
* any other pointer to a non-const object converts to `void*`;
* a pointer to a const object (other than `const char*`) converts to none of the pointer
  parameters; the only viable operator is `operator =(bool)` (boolean conversion);
* an `EntityRef` converts to `EntityPtr`;
* no operator accepts a `Path`, and there is no `void` expression to assign (`none`:
  the statement does not compile). -/
def assign (self : Variant) : (T : NativeType) → T.Val → Option Variant
  | .void, _ => none
  | .bool, x => some (self.assign_bool x)
  | .i32, x => some (self.assign_i32 x)
  | .u32, x => some (self.assign_u32 x)
  | .float, x => some (self.assign_float x)
  | .entityPtr, x => some (self.assign_entity x)
  | .entityRef, x => some (self.assign_entity (EntityRef.toPtr x))
  | .vec2, x => some (self.assign_vec2 x)
  | .vec3, x => some (self.assign_vec3 x)
  | .dvec3, x => some (self.assign_dvec3 x)
  | .path, _ => none
  | .ptr .char _, x => some (self.assign_cstr x)
  | .ptr .void false, x => some (self.assign_ptr x)
  | .ptr (.object _) false, x => some (self.assign_ptr x)
  | .ptr .void true, x => some (self.assign_bool (decide (x ≠ (0 : Nat))))
  | .ptr (.object _) true, x => some (self.assign_bool (decide (x ≠ (0 : Nat))))

end Variant

/-- The element `args[i]` of a `Span` indexed by an `int`; out of range is undefined. -/
def Span.at {α : Type} (args : List α) (i : Int) : Option α :=
  if i < 0 then none else args[i.toNat]?

/-- The overload set `_getVariantType(VariantTag<T>)`: `const char*` has its own overload,
every other pointer type takes the template overload for `T*`. -/
def _getVariantType : NativeType → VariantType
  | .ptr .char true => .CSTR
  | .ptr _ _ => .PTR
  | .void => .VOID
  | .bool => .BOOL
  | .i32 => .I32
  | .u32 => .U32
  | .float => .FLOAT
  | .entityPtr => .ENTITY
  | .entityRef => .ENTITY
  | .vec2 => .VEC2
  | .vec3 => .VEC3
  | .path => .CSTR
  | .dvec3 => .DVEC3

/-- The template `getVariantType<T>()`. -/
def getVariantType (T : QualType) : VariantType := _getVariantType (RemoveCVR T)

/-- The overload set `fromVariant(i, args, VariantTag<T>)`: `const char*` and `void*` have
their own overloads, every other pointer type takes the template overload for `T*`, and no
overload exists for `void` (it is never a parameter type). -/
def fromVariant (i : Int) (args : List Variant) : (T : NativeType) → Option T.Val
  | .bool => (Span.at args i).bind Variant.b
  | .float => (Span.at args i).bind Variant.f
  | .ptr .char true => (Span.at args i).bind Variant.s
  | .path => ((Span.at args i).bind Variant.s).map Path.mk
  | .i32 => (Span.at args i).bind Variant.i
  | .u32 => (Span.at args i).bind Variant.u
  | .vec2 => (Span.at args i).bind Variant.v2
  | .vec3 => (Span.at args i).bind Variant.v3
  | .dvec3 => (Span.at args i).bind Variant.dv3
  | .entityPtr => (Span.at args i).bind Variant.e
  | .entityRef => ((Span.at args i).bind Variant.e).map EntityPtr.toRef
  | .ptr .void false => (Span.at args i).bind Variant.ptr
  | .ptr .void true => (Span.at args i).bind Variant.ptr
  | .ptr .char false => (Span.at args i).bind Variant.ptr
  | .ptr (.object _) _ => (Span.at args i).bind Variant.ptr
  | .void => none

/-! ## Function wrapper -/

/-- The struct `FunctionBase` (data members). -/
structure FunctionBase where
  decl_code : String
  name : String

/-- A bound member-function pointer of class `C` returning `R`: either
`R (C::*)(Args...)`, which may modify the object it is called on, or
`R (C::*)(Args...) const`, which may not. It receives the unpacked argument pack. -/
inductive MemberFn (C : Type) (R : NativeType)
  | nonconst_ (f : C → List NativeVal → C × R.Val)
  | const_ (f : C → List NativeVal → R.Val)

/-- The call `(inst->*f)(args...)`: the object after the call and the returned value. -/
def MemberFn.invoke {C : Type} {R : NativeType} : MemberFn C R → C → List NativeVal → C × R.Val
  | .nonconst_ f, inst, xs => f inst xs
  | .const_ f, inst, xs => (inst, f inst xs)

/-- Modelled from the spec: `BuildIndices<offset, size>::result`
(engine/metaprogramming.h is not among the sources): the index pack
`offset + 1, ..., offset + size`, so that `BuildIndices<-1, n>` is `0, ..., n - 1` and
arguments are unpacked positionally. -/
def BuildIndices (offset : Int) (size : Nat) : List Int :=
  (List.range size).map (fun (k : Nat) => offset + 1 + (k : Int))

namespace VariantCaller

/-- The pack expansion `fromVariant(I, args, VariantTag<RemoveCVR<Args>>{})...`: both packs
are expanded in lockstep (packs of different lengths do not compile). -/
def unpack (args : List Variant) : List QualType → List Int → Option (List NativeVal)
  | [], [] => some []
  | A :: As, I :: Is =>
    match fromVariant I args (RemoveCVR A) with
    | none => none
    | some x =>
      match unpack args As Is with
      | none => none
      | some xs => some (⟨RemoveCVR A, x⟩ :: xs)
  | _, _ => none

/-- The function `VariantCaller<Args...>::call(inst, f, args, indices)`. The result is the
object after the call together with the returned `Variant`. -/
def call {C : Type} (Args : List QualType) (R : QualType) (inst : C) (f : MemberFn C R.base)
    (args : List Variant) (indices : List Int) : Option (C × Variant) :=
  if R = QualType.plain .void then
    let v := Variant.ctor
    let v := { v with type := VariantType.VOID }
    match unpack args Args indices with
    | none => none
    | some xs => some ((f.invoke inst xs).1, v)
  else
    let v := Variant.ctor
    match unpack args Args indices with
    | none => none
    | some xs =>
      let r := f.invoke inst xs
      match v.assign R.base r.2 with
      | none => none
      | some v => some (r.1, v)

end VariantCaller

/-- The struct `Function<F>`: both partial specialisations, `Function<R (C::*)(Args...)>`
(`function` is a `nonconst_` pointer) and `Function<R (C::*)(Args...) const>` (`function`
is a `const_` pointer). -/
structure Function (C : Type) extends FunctionBase where
  R : QualType
  Args : List QualType
  function : MemberFn C R.base

namespace Function

/-- The method `getArgCount`: `sizeof...(Args)` in both specialisations. -/
def getArgCount {C : Type} (self : Function C) : Nat :=
  match self.function with
  | .nonconst_ _ => self.Args.length
  | .const_ _ => self.Args.length

/-- The method `getReturnType`: `getVariantType<R>()` in both specialisations. -/
def getReturnType {C : Type} (self : Function C) : VariantType :=
  match self.function with
  | .nonconst_ _ => getVariantType self.R
  | .const_ _ => getVariantType self.R

/-- The method `getArgType(i)`: element `i` of
`expand[] = { getVariantType<Args>()..., Variant::Type::VOID }` in both specialisations. -/
def getArgType {C : Type} (self : Function C) (i : Int) : Option VariantType :=
  match self.function with
  | .nonconst_ _ => Span.at (self.Args.map getVariantType ++ [VariantType.VOID]) i
  | .const_ _ => Span.at (self.Args.map getVariantType ++ [VariantType.VOID]) i

/-- The method `invoke(obj, args)` of both specialisations. -/
def invoke {C : Type} (self : Function C) (obj : C) (args : List Variant) :
    Option (C × Variant) :=
  match self.function with
  | .nonconst_ f =>
    let indices := BuildIndices (-1) self.Args.length
    VariantCaller.call self.Args self.R obj (.nonconst_ f) args indices
  | .const_ f =>
    let indices := BuildIndices (-1) self.Args.length
    VariantCaller.call self.Args self.R obj (.const_ f) args indices

end Function

/-! ## Attributes -/

/-- Modelled from the spec: `ComponentUID` (engine/universe.h is not among the sources):
the entity, the component type and the scene a component lives in. `scene` holds the
current state of the scene object that `cmp.scene` points to. -/
structure ComponentUID (S : Type) where
  entity : EntityPtr
  type : ComponentType
  scene : S

/-- The enumeration `IAttribute::Type`. -/
inductive AttributeType
  | MIN
  | CLAMP
  | RADIANS
  | COLOR
  | RESOURCE
  | ENUM
  | MULTILINE
  | STRING_ENUM
  | NO_UI
deriving DecidableEq

/-- The attribute classes derived from `IAttribute`; the two enumeration attributes carry
the implementations of their pure virtual `count` and `name`. -/
inductive IAttribute (S : Type)
  | ResourceAttribute (resource_type : ResourceType)
  | MinAttribute (min : float)
  | ClampAttribute (min : float) (max : float)
  | EnumAttribute (count : ComponentUID S → Nat) (name : ComponentUID S → Nat → String)
  | StringEnumAttribute (count : ComponentUID S → Nat) (name : ComponentUID S → Nat → String)
  | RadiansAttribute
  | MultilineAttribute
  | ColorAttribute
  | NoUIAttribute

/-- The virtual `getType` of each attribute class. -/
def IAttribute.getType {S : Type} : IAttribute S → AttributeType
  | .ResourceAttribute _ => .RESOURCE
  | .MinAttribute _ => .MIN
  | .ClampAttribute _ _ => .CLAMP
  | .EnumAttribute _ _ => .ENUM
  | .StringEnumAttribute _ _ => .STRING_ENUM
  | .RadiansAttribute => .RADIANS
  | .MultilineAttribute => .MULTILINE
  | .ColorAttribute => .COLOR
  | .NoUIAttribute => .NO_UI

/-! ## Typed and array properties -/

/-- The value types `T` for which `IReflPropertyVisitor` has a `refl_typed_prop<T>`
overload, in the order of the overloads. -/
inductive PropType
  | float
  | int
  | u32
  | EntityPtr
  | Vec2
  | Vec3
  | IVec3
  | Vec4
  | Path
  | bool
  | cstr
deriving DecidableEq

/-- The values of a property value type. -/
@[reducible]
def PropType.Val : PropType → Type
  | .float => reflection.float
  | .int => Int
  | .u32 => Nat
  | .EntityPtr => reflection.EntityPtr
  | .Vec2 => reflection.Vec2
  | .Vec3 => reflection.Vec3
  | .IVec3 => reflection.IVec3
  | .Vec4 => reflection.Vec4
  | .Path => reflection.Path
  | .bool => Bool
  | .cstr => Addr

/-- The value-initialised `T value = {}`. -/
def PropType.zero : (T : PropType) → T.Val
  | .float => (0 : ℚ)
  | .int => (0 : Int)
  | .u32 => (0 : Nat)
  | .EntityPtr => reflection.EntityPtr.mk (-1)
  | .Vec2 => reflection.Vec2.mk 0 0
  | .Vec3 => reflection.Vec3.mk 0 0 0
  | .IVec3 => reflection.IVec3.mk 0 0 0
  | .Vec4 => reflection.Vec4.mk 0 0 0 0
  | .Path => reflection.Path.mk 0
  | .bool => false
  | .cstr => (0 : Nat)

/-- A pointer to an object created with `LUMIX_NEW`: its position in the allocator. -/
abbrev Ptr := Nat

/-- The struct `refl_typed_prop<T>` with the members of its base `reflprop`. The accessors
take the state of the scene object; the setter returns the state after the call. -/
structure refl_typed_prop (S : Type) (T : PropType) where
  attributes : List (IAttribute S)
  name : String
  setter : S → EntityRef → Nat → T.Val → S
  getter : S → EntityRef → Nat → T.Val

/-- A bound getter member function: `T (C::*)(EntityRef)` (`ArgsCount == 1`) or
`T (C::*)(EntityRef, u32)`. -/
inductive GetterFn (S : Type) (V : Type)
  | args1 (f : S → EntityRef → V)
  | args2 (f : S → EntityRef → Nat → V)

/-- A bound setter member function: `void (C::*)(EntityRef, T)` (`ArgsCount == 2`) or
`void (C::*)(EntityRef, u32, T)`. -/
inductive SetterFn (S : Type) (V : Type)
  | args2 (f : S → EntityRef → V → S)
  | args3 (f : S → EntityRef → Nat → V → S)

/-- A member function returning a reference to a sub-object owned by the scene:
`read` is the referenced object, `write` stores through the reference. -/
structure RefGetterFn (S : Type) (Obj : Type) where
  read : S → EntityRef → Obj
  write : S → EntityRef → Obj → S

/-- A pointer to data member `V Obj::*`. -/
structure MemberPtr (Obj : Type) (V : Type) where
  read : Obj → V
  write : Obj → V → Obj

namespace refl_typed_prop

/-- The static `setterHelper<F>`. -/
def setterHelper {S V : Type} (F : SetterFn S V) (scene : S) (e : EntityRef) (idx : Nat)
    (value : V) : S :=
  match F with
  | .args2 f => f scene e value
  | .args3 f => f scene e idx value

/-- The static `getterHelper<F>`. -/
def getterHelper {S V : Type} (F : GetterFn S V) (scene : S) (e : EntityRef) (idx : Nat) : V :=
  match F with
  | .args1 f => f scene e
  | .args2 f => f scene e idx

/-- The static `setterVarHelper<Getter, PropGetter>`. -/
def setterVarHelper {S Obj V : Type} (Getter : RefGetterFn S Obj) (PropGetter : MemberPtr Obj V)
    (scene : S) (e : EntityRef) (_idx : Nat) (value : V) : S :=
  let c := Getter.read scene e
  Getter.write scene e (PropGetter.write c value)

/-- The static `getterVarHelper<Getter, PropGetter>`. -/
def getterVarHelper {S Obj V : Type} (Getter : RefGetterFn S Obj) (PropGetter : MemberPtr Obj V)
    (scene : S) (e : EntityRef) (_idx : Nat) : V :=
  let c := Getter.read scene e
  PropGetter.read c

/-- The method `get(cmp, idx)`. -/
def get {S : Type} {T : PropType} (self : refl_typed_prop S T) (cmp : ComponentUID S)
    (idx : Nat) : T.Val :=
  self.getter cmp.scene cmp.entity.toRef idx

/-- The method `set(cmp, idx, val)`: the state of the scene after the call. -/
def set {S : Type} {T : PropType} (self : refl_typed_prop S T) (cmp : ComponentUID S)
    (idx : Nat) (val : T.Val) : S :=
  self.setter cmp.scene cmp.entity.toRef idx val

end refl_typed_prop

/-- The struct `reflarrayprop` with the members of its base `reflprop`. -/
structure reflarrayprop (S : Type) where
  attributes : List (IAttribute S)
  name : String
  children : List Ptr
  counter : S → EntityRef → Nat
  adder : S → EntityRef → Nat → S
  remover : S → EntityRef → Nat → S

namespace reflarrayprop

/-- The method `getCount(cmp)`. -/
def getCount {S : Type} (self : reflarrayprop S) (cmp : ComponentUID S) : Nat :=
  self.counter cmp.scene cmp.entity.toRef

/-- The method `addItem(cmp, idx)`: the state of the scene after the call. -/
def addItem {S : Type} (self : reflarrayprop S) (cmp : ComponentUID S) (idx : Nat) : S :=
  self.adder cmp.scene cmp.entity.toRef idx

/-- The method `removeItem(cmp, idx)`: the state of the scene after the call. -/
def removeItem {S : Type} (self : reflarrayprop S) (cmp : ComponentUID S) (idx : Nat) : S :=
  self.remover cmp.scene cmp.entity.toRef idx

end reflarrayprop

/-- An object of a class derived from `reflprop`: the dynamic type behind a `reflprop*`. -/
inductive reflprop (S : Type)
  | typed (T : PropType) (p : refl_typed_prop S T)
  | array (p : reflarrayprop S)

namespace reflprop

/-- The base member `name`. -/
def name {S : Type} : reflprop S → String
  | .typed _ p => p.name
  | .array p => p.name

/-- The base member `attributes`. -/
def attributes {S : Type} : reflprop S → List (IAttribute S)
  | .typed _ p => p.attributes
  | .array p => p.attributes

/-- The call `attributes.push(a)` on the base member. -/
def push_attribute {S : Type} (a : IAttribute S) : reflprop S → reflprop S
  | .typed T p => .typed T { p with attributes := p.attributes ++ [a] }
  | .array p => .array { p with attributes := p.attributes ++ [a] }

/-- The children of an array property; a typed property has none. -/
def children {S : Type} : reflprop S → List Ptr
  | .typed _ _ => []
  | .array p => p.children

end reflprop

/-! ## Property visitor -/

/-- The interface `IReflPropertyVisitor`: one overload of `visit` per field, in the order of
declaration. A visitor object with state `V` is changed by each call. -/
structure IReflPropertyVisitor (S : Type) (V : Type) where
  visit_float : refl_typed_prop S .float → V → V
  visit_int : refl_typed_prop S .int → V → V
  visit_u32 : refl_typed_prop S .u32 → V → V
  visit_EntityPtr : refl_typed_prop S .EntityPtr → V → V
  visit_Vec2 : refl_typed_prop S .Vec2 → V → V
  visit_Vec3 : refl_typed_prop S .Vec3 → V → V
  visit_IVec3 : refl_typed_prop S .IVec3 → V → V
  visit_Vec4 : refl_typed_prop S .Vec4 → V → V
  visit_Path : refl_typed_prop S .Path → V → V
  visit_bool : refl_typed_prop S .bool → V → V
  visit_cstr : refl_typed_prop S .cstr → V → V
  visit_array : reflarrayprop S → V → V

/-- The struct `IReflEmptyPropertyVisitor`: every overload does nothing. -/
def IReflEmptyPropertyVisitor (S : Type) (V : Type) : IReflPropertyVisitor S V where
  visit_float := fun _ v => v
  visit_int := fun _ v => v
  visit_u32 := fun _ v => v
  visit_EntityPtr := fun _ v => v
  visit_Vec2 := fun _ v => v
  visit_Vec3 := fun _ v => v
  visit_IVec3 := fun _ v => v
  visit_Vec4 := fun _ v => v
  visit_Path := fun _ v => v
  visit_bool := fun _ v => v
  visit_cstr := fun _ v => v
  visit_array := fun _ v => v

/-- The method `refl_typed_prop<T>::visit`, `visitor.visit(*this)`: the overload is
selected by the static type `refl_typed_prop<T>` of `*this`. -/
def refl_typed_prop.visit {S V : Type} : {T : PropType} → refl_typed_prop S T →
    IReflPropertyVisitor S V → V → V
  | .float, self, visitor => visitor.visit_float self
  | .int, self, visitor => visitor.visit_int self
  | .u32, self, visitor => visitor.visit_u32 self
  | .EntityPtr, self, visitor => visitor.visit_EntityPtr self
  | .Vec2, self, visitor => visitor.visit_Vec2 self
  | .Vec3, self, visitor => visitor.visit_Vec3 self
  | .IVec3, self, visitor => visitor.visit_IVec3 self
  | .Vec4, self, visitor => visitor.visit_Vec4 self
  | .Path, self, visitor => visitor.visit_Path self
  | .bool, self, visitor => visitor.visit_bool self
  | .cstr, self, visitor => visitor.visit_cstr self

/-- The method `reflarrayprop::visit`, `visitor.visit(*this)`. -/
def reflarrayprop.visit {S V : Type} (self : reflarrayprop S)
    (visitor : IReflPropertyVisitor S V) : V → V :=
  visitor.visit_array self

/-- The virtual call `prop->visit(visitor)` through a `reflprop*`. -/
def reflprop.visit {S V : Type} : reflprop S → IReflPropertyVisitor S V → V → V
  | .typed _ p, visitor => p.visit visitor
  | .array p, visitor => p.visit visitor

/-- The loop `for (prop : props) prop->visit(visitor)` over an array of pointers into the
allocated property objects; a dangling pointer is undefined. -/
def visit_each {S V : Type} (heap : List (reflprop S)) (visitor : IReflPropertyVisitor S V) :
    List Ptr → V → Option V
  | [], v => some v
  | p :: ps, v =>
    match heap[p]? with
    | none => none
    | some prop => visit_each heap visitor ps (prop.visit visitor v)

/-- The method `reflarrayprop::visitChildren`. -/
def reflarrayprop.visitChildren {S V : Type} (heap : List (reflprop S)) (self : reflarrayprop S)
    (visitor : IReflPropertyVisitor S V) (v : V) : Option V :=
  visit_each heap visitor self.children v

/-! ## Component and scene descriptors -/

/-- The struct `reflcmp`. -/
structure reflcmp (S : Type) where
  icon : String
  name : String
  label : String
  scene : Nat
  creator : S → EntityRef → S
  destroyer : S → EntityRef → S
  component_type : ComponentType
  props : List Ptr
  functions : List (Function S)

/-- The method `reflcmp::visit`. -/
def reflcmp.visit {S V : Type} (heap : List (reflprop S)) (self : reflcmp S)
    (visitor : IReflPropertyVisitor S V) (v : V) : Option V :=
  visit_each heap visitor self.props v

/-- The struct `reflscene`. -/
structure reflscene (S : Type) where
  functions : List (Function S)
  cmps : List Ptr
  name : String
  next : Option Ptr

/-! ## Allocator -/

/-- The objects created with `LUMIX_NEW(allocator, ...)`: property objects and component
descriptors, each addressed by its position. -/
structure Allocator (S : Type) where
  props : List (reflprop S)
  cmps : List (reflcmp S)

namespace Allocator

/-- The expression `LUMIX_NEW(allocator, refl_typed_prop<T> / reflarrayprop)`: the new
object is placed behind the existing ones and its address is returned. -/
def new_prop {S : Type} (self : Allocator S) (p : reflprop S) : Allocator S × Ptr :=
  ({ self with props := self.props ++ [p] }, self.props.length)

/-- The expression `LUMIX_NEW(allocator, reflcmp)`. -/
def new_cmp {S : Type} (self : Allocator S) (c : reflcmp S) : Allocator S × Ptr :=
  ({ self with cmps := self.cmps ++ [c] }, self.cmps.length)

/-- The call `array->children.push(p)` through a `reflarrayprop*`. -/
def push_child {S : Type} (self : Allocator S) (array : Ptr) (p : Ptr) : Option (Allocator S) :=
  match self.props[array]? with
  | some (.array a) =>
    some { self with props := self.props.set array (.array { a with children := a.children ++ [p] }) }
  | _ => none

/-- The call `cmp->props.push(p)` through a `reflcmp*`. -/
def push_prop {S : Type} (self : Allocator S) (cmp : Ptr) (p : Ptr) : Option (Allocator S) :=
  match self.cmps[cmp]? with
  | some c => some { self with cmps := self.cmps.set cmp { c with props := c.props ++ [p] } }
  | none => none

/-- The call `prop->attributes.push(a)` through a `reflprop*`. -/
def push_attribute {S : Type} (self : Allocator S) (prop : Ptr) (a : IAttribute S) :
    Option (Allocator S) :=
  match self.props[prop]? with
  | some q => some { self with props := self.props.set prop (q.push_attribute a) }
  | none => none

/-- The call `cmp->functions.push(f)` through a `reflcmp*`. -/
def push_function {S : Type} (self : Allocator S) (cmp : Ptr) (f : Function S) :
    Option (Allocator S) :=
  match self.cmps[cmp]? with
  | some c => some { self with cmps := self.cmps.set cmp { c with functions := c.functions ++ [f] } }
  | none => none

end Allocator

/-! ## getPropertyValue -/

/-- The state of the anonymous visitor struct declared inside `getPropertyValue<T>`. -/
structure PropertyValueVisitor (S : Type) (T : PropType) where
  cmp : ComponentUID S
  prop_name : String
  value : T.Val
  found : Bool

/-- The single overload `visit(const refl_typed_prop<T>& prop)` that the anonymous visitor
of `getPropertyValue<T>` overrides; `-1` passed as `u32` is `4294967295`. -/
def PropertyValueVisitor.visit {S : Type} {T : PropType} (prop : refl_typed_prop S T)
    (self : PropertyValueVisitor S T) : PropertyValueVisitor S T :=
  if prop.name = self.prop_name then
    { { self with found := true } with value := prop.get self.cmp 4294967295 }
  else self

/-- The anonymous visitor of `getPropertyValue<T>`: `IReflEmptyPropertyVisitor` with the
overload for `refl_typed_prop<T>` overridden. -/
def PropertyValueVisitor.vtable (S : Type) :
    (T : PropType) → IReflPropertyVisitor S (PropertyValueVisitor S T)
  | .float => { IReflEmptyPropertyVisitor S _ with visit_float := PropertyValueVisitor.visit }
  | .int => { IReflEmptyPropertyVisitor S _ with visit_int := PropertyValueVisitor.visit }
  | .u32 => { IReflEmptyPropertyVisitor S _ with visit_u32 := PropertyValueVisitor.visit }
  | .EntityPtr => { IReflEmptyPropertyVisitor S _ with visit_EntityPtr := PropertyValueVisitor.visit }
  | .Vec2 => { IReflEmptyPropertyVisitor S _ with visit_Vec2 := PropertyValueVisitor.visit }
  | .Vec3 => { IReflEmptyPropertyVisitor S _ with visit_Vec3 := PropertyValueVisitor.visit }
  | .IVec3 => { IReflEmptyPropertyVisitor S _ with visit_IVec3 := PropertyValueVisitor.visit }
  | .Vec4 => { IReflEmptyPropertyVisitor S _ with visit_Vec4 := PropertyValueVisitor.visit }
  | .Path => { IReflEmptyPropertyVisitor S _ with visit_Path := PropertyValueVisitor.visit }
  | .bool => { IReflEmptyPropertyVisitor S _ with visit_bool := PropertyValueVisitor.visit }
  | .cstr => { IReflEmptyPropertyVisitor S _ with visit_cstr := PropertyValueVisitor.visit }

/-- The function template `getPropertyValue<T>(scene, e, cmp_type, prop_name, out)`. The
lookup `getReflComponent` (declared in the header, defined elsewhere) is a parameter: it
gives the address of the registered descriptor, or null (`none`). The result is the
returned `bool` together with the value written to `out`; `none` is undefined behaviour. -/
def getPropertyValue {S : Type} (getReflComponent : ComponentType → Option Ptr)
    (allocator : Allocator S) (T : PropType) (scene : S) (e : EntityRef)
    (cmp_type : ComponentType) (prop_name : String) : Option (Bool × T.Val) :=
  let visitor : PropertyValueVisitor S T :=
    { cmp := { scene := scene, type := cmp_type, entity := e.toPtr }
      prop_name := prop_name
      value := T.zero
      found := false }
  let cmp_desc := getReflComponent cmp_type
  match cmp_desc.bind (fun c => allocator.cmps[c]?) with
  | none => none
  | some desc =>
    match desc.visit allocator.props (PropertyValueVisitor.vtable S T) visitor with
    | none => none
    | some visitor => some (visitor.found, visitor.value)

/-! ## Builder -/

/-- The functions `getComponentType` and `crc32` used by `builder::cmp` (declared in the
header or included from elsewhere, defined outside the sources). -/
structure Externals where
  getComponentType : String → ComponentType
  crc32 : String → Nat

/-- The struct `builder`. `registered` is the process-wide registry that `registerCmp`
writes to (a global in the C++ code): component-type identifier and descriptor address,
latest registration first. -/
structure builder (S : Type) where
  allocator : Allocator S
  scene : reflscene S
  array : Option Ptr
  last_prop : Option Ptr
  registered : List (ComponentType × Ptr)

namespace builder

/-- The constructor `builder(allocator)`: a new, empty scene descriptor. -/
def ctor {S : Type} (allocator : Allocator S) (registered : List (ComponentType × Ptr)) :
    builder S :=
  { allocator := allocator
    scene := { functions := [], cmps := [], name := "", next := none }
    array := none
    last_prop := none
    registered := registered }

/-- Modelled from the spec: `builder::registerCmp` (declared in the header, defined outside
the sources) publishes the descriptor into the process-wide registry keyed by its
component-type identifier. -/
def registerCmp {S : Type} (self : builder S) (cmp : Ptr) : Option (builder S) :=
  match self.allocator.cmps[cmp]? with
  | none => none
  | some c => some { self with registered := (c.component_type, cmp) :: self.registered }

/-- The method `builder::cmp<Creator, Destroyer>(name, label)`. -/
def cmp {S : Type} (ext : Externals) (Creator Destroyer : S → EntityRef → S)
    (name label : String) (self : builder S) : Option (builder S) :=
  let creator := fun (scene : S) (e : EntityRef) => Creator scene e
  let destroyer := fun (scene : S) (e : EntityRef) => Destroyer scene e
  let c : reflcmp S :=
    { icon := ""
      name := name
      label := label
      component_type := ext.getComponentType name
      creator := creator
      destroyer := destroyer
      scene := ext.crc32 self.scene.name
      props := []
      functions := [] }
  let (allocator, cmp) := self.allocator.new_cmp c
  match registerCmp { self with allocator := allocator } cmp with
  | none => none
  | some self => some { self with scene := { self.scene with cmps := self.scene.cmps ++ [cmp] } }

/-- The common tail of `enum_prop`, `prop` and `var_prop`: the new object `p` is pushed to
`array->children` if `array` is set, else to `scene->cmps.back()->props`, and becomes
`last_prop`. -/
def push_typed {S : Type} (T : PropType) (p : refl_typed_prop S T) (self : builder S) :
    Option (builder S) :=
  let (allocator, p) := self.allocator.new_prop (.typed T p)
  match self.array with
  | some array =>
    match allocator.push_child array p with
    | none => none
    | some allocator => some { { self with allocator := allocator } with last_prop := some p }
  | none =>
    match self.scene.cmps.getLast? with
    | none => none
    | some back =>
      match allocator.push_prop back p with
      | none => none
      | some allocator => some { { self with allocator := allocator } with last_prop := some p }

/-- An enumeration type with its conversions from and to `i32` (`static_cast`). -/
structure EnumType where
  E : Type
  of_i32 : Int → E
  to_i32 : E → Int

/-- The method `builder::enum_prop<Getter, Setter>(name)`. -/
def enum_prop {S : Type} (E : EnumType) (Getter : GetterFn S E.E) (Setter : SetterFn S E.E)
    (name : String) (self : builder S) : Option (builder S) :=
  let p : refl_typed_prop S .int :=
    { attributes := []
      setter := fun scene e idx value =>
        match Setter with
        | .args2 f => f scene e (E.of_i32 value)
        | .args3 f => f scene e idx (E.of_i32 value)
      getter := fun scene e idx =>
        match Getter with
        | .args1 f => E.to_i32 (f scene e)
        | .args2 f => E.to_i32 (f scene e idx)
      name := name }
  push_typed .int p self

/-- The method `builder::prop<Getter, Setter>(name)`; `T` is the result type of `Getter`. -/
def prop {S : Type} (T : PropType) (Getter : GetterFn S T.Val) (Setter : SetterFn S T.Val)
    (name : String) (self : builder S) : Option (builder S) :=
  let p : refl_typed_prop S T :=
    { attributes := []
      setter := refl_typed_prop.setterHelper Setter
      getter := refl_typed_prop.getterHelper Getter
      name := name }
  push_typed T p self

/-- The method `builder::var_prop<Getter, PropGetter>(name)`; `T` is the type of the
projected data member. -/
def var_prop {S Obj : Type} (T : PropType) (Getter : RefGetterFn S Obj)
    (PropGetter : MemberPtr Obj T.Val) (name : String) (self : builder S) :
    Option (builder S) :=
  let p : refl_typed_prop S T :=
    { attributes := []
      setter := refl_typed_prop.setterVarHelper Getter PropGetter
      getter := refl_typed_prop.getterVarHelper Getter PropGetter
      name := name }
  push_typed T p self

/-- The common body of the attribute methods: `last_prop->attributes.push(a)`. -/
def push_attribute {S : Type} (a : IAttribute S) (self : builder S) : Option (builder S) :=
  match self.last_prop with
  | none => none
  | some last_prop =>
    match self.allocator.push_attribute last_prop a with
    | none => none
    | some allocator => some { self with allocator := allocator }

/-- The method `builder::minAttribute(value)`. -/
def minAttribute {S : Type} (value : float) (self : builder S) : Option (builder S) :=
  let a : IAttribute S := .MinAttribute value
  push_attribute a self

/-- The method `builder::clampAttribute(min, max)`. -/
def clampAttribute {S : Type} (min max : float) (self : builder S) : Option (builder S) :=
  let a : IAttribute S := .ClampAttribute min max
  push_attribute a self

/-- The method `builder::resourceAttribute(type)`. -/
def resourceAttribute {S : Type} (type : ResourceType) (self : builder S) :
    Option (builder S) :=
  let a : IAttribute S := .ResourceAttribute type
  push_attribute a self

/-- The method `builder::begin_array<Counter, Adder, Remover>(name)`. -/
def begin_array {S : Type} (Counter : S → EntityRef → Nat) (Adder Remover : S → EntityRef → Nat → S)
    (name : String) (self : builder S) : Option (builder S) :=
  let prop : reflarrayprop S :=
    { attributes := []
      children := []
      counter := fun scene e => Counter scene e
      adder := fun scene e idx => Adder scene e idx
      remover := fun scene e idx => Remover scene e idx
      name := name }
  let (allocator, prop) := self.allocator.new_prop (.array prop)
  match self.scene.cmps.getLast? with
  | none => none
  | some back =>
    match allocator.push_prop back prop with
    | none => none
    | some allocator =>
      some { { { self with allocator := allocator } with array := some prop } with
             last_prop := some prop }

/-- The method `builder::end_array()`. -/
def end_array {S : Type} (self : builder S) : Option (builder S) :=
  some { { self with array := none } with last_prop := none }

/-- The method `builder::enumAttribute<T>()`; `T` is given by its default-constructed
object. -/
def enumAttribute {S : Type} (T : IAttribute S) (self : builder S) : Option (builder S) :=
  let a : IAttribute S := T
  push_attribute a self

/-- The method `builder::radiansAttribute()`. -/
def radiansAttribute {S : Type} (self : builder S) : Option (builder S) :=
  let a : IAttribute S := .RadiansAttribute
  push_attribute a self

/-- The method `builder::colorAttribute()`. -/
def colorAttribute {S : Type} (self : builder S) : Option (builder S) :=
  let a : IAttribute S := .ColorAttribute
  push_attribute a self

/-- The method `builder::noUIAttribute()`. -/
def noUIAttribute {S : Type} (self : builder S) : Option (builder S) :=
  let a : IAttribute S := .NoUIAttribute
  push_attribute a self

/-- The method `builder::multilineAttribute()`. -/
def multilineAttribute {S : Type} (self : builder S) : Option (builder S) :=
  let a : IAttribute S := .MultilineAttribute
  push_attribute a self

/-- The method `builder::icon(icon)`. -/
def icon {S : Type} (icon : String) (self : builder S) : Option (builder S) :=
  match self.scene.cmps.getLast? with
  | none => none
  | some back =>
    match self.allocator.cmps[back]? with
    | none => none
    | some c =>
      some { self with allocator :=
        { self.allocator with cmps := self.allocator.cmps.set back { c with icon := icon } } }

/-- The method `builder::function<F>(name, decl_code)`; the wrapped member function `F` is
given by its signature and bound pointer. -/
def function {S : Type} (R : QualType) (Args : List QualType) (F : MemberFn S R.base)
    (name decl_code : String) (self : builder S) : Option (builder S) :=
  let f : Function S :=
    { function := F, name := name, decl_code := decl_code, R := R, Args := Args }
  if self.scene.cmps.isEmpty then
    some { self with scene := { self.scene with functions := self.scene.functions ++ [f] } }
  else
    match self.scene.cmps.getLast? with
    | none => none
    | some back =>
      match self.allocator.push_function back f with
      | none => none
      | some allocator => some { self with allocator := allocator }

end builder

/-! ## Example inputs -/

/-- A wrapped `char* C::buffer() const` returning the address 4096, on a class without
state. -/
def example_char_ptr_fn : Function Unit :=
  { decl_code := "buffer"
    name := "buffer"
    R := QualType.plain (.ptr .char false)
    Args := []
    function := .const_ (fun _ _ => (4096 : Nat)) }

/-- A wrapped `const Pose* C::pose() const` returning the non-null address 4096. -/
def example_const_ptr_fn : Function Unit :=
  { decl_code := "pose"
    name := "pose"
    R := QualType.plain (.ptr (.object 0) true)
    Args := []
    function := .const_ (fun _ _ => (4096 : Nat)) }

/-- The member function `float Add(float, float)` applied to its unpacked arguments. -/
def Add (_self : Unit) : List NativeVal → reflection.float
  | [⟨.float, a⟩, ⟨.float, b⟩] => a + b
  | _ => 0

/-- The wrapper `Function<float (C::*)(float, float)>` bound to `Add`. -/
def example_add_fn : Function Unit :=
  { decl_code := "Add"
    name := "Add"
    R := QualType.plain .float
    Args := [QualType.plain .float, QualType.plain .float]
    function := .nonconst_ (fun self xs => (self, Add self xs)) }

/-- Modelled from the spec: `build_scene(scene_name)` (declared in the header, defined
outside the sources) starts a builder for a new scene descriptor of that name. -/
def build_scene {S : Type} (scene_name : String) : builder S :=
  let b : builder S := builder.ctor { props := [], cmps := [] } []
  { b with scene := { b.scene with name := scene_name } }

/-- The overloads of `IReflPropertyVisitor::visit`. -/
inductive Overload
  | typed (T : PropType)
  | array
deriving DecidableEq

/-- The overload that matches the concrete kind of a property object. -/
def reflprop.overload {S : Type} : reflprop S → Overload
  | .typed T _ => .typed T
  | .array _ => .array

/-- One call received by a visitor: the overload entered and the property passed. -/
structure VisitCall (S : Type) where
  overload : Overload
  prop : reflprop S

/-- A visitor that writes down every call it receives, in order. -/
def recorder (S : Type) : IReflPropertyVisitor S (List (VisitCall S)) where
  visit_float := fun p log => log ++ [⟨.typed .float, .typed .float p⟩]
  visit_int := fun p log => log ++ [⟨.typed .int, .typed .int p⟩]
  visit_u32 := fun p log => log ++ [⟨.typed .u32, .typed .u32 p⟩]
  visit_EntityPtr := fun p log => log ++ [⟨.typed .EntityPtr, .typed .EntityPtr p⟩]
  visit_Vec2 := fun p log => log ++ [⟨.typed .Vec2, .typed .Vec2 p⟩]
  visit_Vec3 := fun p log => log ++ [⟨.typed .Vec3, .typed .Vec3 p⟩]
  visit_IVec3 := fun p log => log ++ [⟨.typed .IVec3, .typed .IVec3 p⟩]
  visit_Vec4 := fun p log => log ++ [⟨.typed .Vec4, .typed .Vec4 p⟩]
  visit_Path := fun p log => log ++ [⟨.typed .Path, .typed .Path p⟩]
  visit_bool := fun p log => log ++ [⟨.typed .bool, .typed .bool p⟩]
  visit_cstr := fun p log => log ++ [⟨.typed .cstr, .typed .cstr p⟩]
  visit_array := fun p log => log ++ [⟨.array, .array p⟩]

/-- A stand-in for the hash functions defined outside the sources. -/
def example_ext : Externals :=
  { getComponentType := fun id => id.length + 1
    crc32 := fun s => s.length }

/-- A typed float property object named `size` on a scene that is a single float. -/
def example_size_prop : reflprop ℚ :=
  .typed .float
    { attributes := [], name := "size", setter := fun _ _ _ v => v, getter := fun s _ _ => s }

/-- An array property object named `items` with one child at address 2. -/
def example_items_prop : reflprop ℚ :=
  .array
    { attributes := [], name := "items", children := [2], counter := fun _ _ => 0,
      adder := fun s _ _ => s, remover := fun s _ _ => s }

/-- A typed int property object named `weight`. -/
def example_weight_prop : reflprop ℚ :=
  .typed .int
    { attributes := [], name := "weight", setter := fun s _ _ _ => s, getter := fun _ _ _ => 0 }

/-- A component descriptor whose props are the objects at addresses 0 and 1. -/
def example_cmp : reflcmp ℚ :=
  { icon := "", name := "box", label := "Box", scene := 0, creator := fun s _ => s,
    destroyer := fun s _ => s, component_type := 4, props := [0, 1], functions := [] }

/-- The getter `float getSize(EntityRef)` of a scene that stores a single size. -/
def example_getSize : GetterFn ℚ ℚ := .args1 (fun scene _ => scene)

/-- The setter `void setSize(EntityRef, float)` that stores the value. -/
def example_setSize : SetterFn ℚ ℚ := .args2 (fun _ _ v => v)

/-- The setter `void setSize(EntityRef, float)` that stores the value but never
a size below zero: `m_size = v < 0 ? 0 : v`. -/
def example_setSizeClamped : SetterFn ℚ ℚ := .args2 (fun _ _ v => if v < 0 then 0 else v)

/-- The registration `build_scene("test_scene").cmp<...>("box", "Box")`. -/
def example_box : Option (builder ℚ) :=
  (build_scene "test_scene").cmp example_ext (fun s _ => s) (fun s _ => s) "box" "Box"

/-- The builder state reached by `example_box`, written out. -/
def example_box_state : builder ℚ :=
  { allocator :=
      { props := []
        cmps := [{ icon := "", name := "box", label := "Box", scene := 10,
                   creator := fun s _ => s, destroyer := fun s _ => s, component_type := 4,
                   props := [], functions := [] }] }
    scene := { functions := [], cmps := [0], name := "test_scene", next := none }
    array := none
    last_prop := none
    registered := [(4, 0)] }

/-- The object behind a `reflprop*` seen as a `refl_typed_prop<float>`, if it is one. -/
def reflprop.as_float {S : Type} : reflprop S → Option (refl_typed_prop S .float)
  | .typed .float q => some q
  | _ => none

/-- The effect on state `b`, giving `b1`, of declaring a typed property `name` while no
array bracket is open, `c` being the most recently declared component: exactly one new
typed property object exists (all earlier objects, so every array and its children, are
as before), its address is appended at the end of the props of `c`, and no other
descriptor changes. -/
def builder.AppendedToComponent {S : Type} (b b1 : builder S) (c : Nat) (name : String) : Prop :=
  (∃ (T : PropType) (q : refl_typed_prop S T), q.name = name ∧ q.attributes = [] ∧
    b1.allocator.props = b.allocator.props ++ [reflprop.typed T q]) ∧
  (∀ (a : Nat) (arr : reflarrayprop S), b.allocator.props[a]? = some (reflprop.array arr) →
    b1.allocator.props[a]? = some (reflprop.array arr)) ∧
  b1.allocator.cmps[c]? =
    (b.allocator.cmps[c]?).map
      (fun d => { d with props := d.props ++ [b.allocator.props.length] }) ∧
  (∀ c2 : Nat, c2 ≠ c → b1.allocator.cmps[c2]? = b.allocator.cmps[c2]?) ∧
  b1.scene.cmps = b.scene.cmps ∧
  b1.array = b.array ∧
  b1.last_prop = some b.allocator.props.length

/-- The effect on state `b`, giving `b1`, of declaring a typed property `name` while the
bracket of the array at address `a` is open: exactly one new typed property object exists,
its address is appended at the end of the children of that array, every other object and
every component descriptor (so every props list) is as before. -/
def builder.AppendedToArray {S : Type} (b b1 : builder S) (a : Nat) (name : String) : Prop :=
  (∃ (T : PropType) (q : refl_typed_prop S T), q.name = name ∧ q.attributes = [] ∧
    b1.allocator.props[b.allocator.props.length]? = some (reflprop.typed T q)) ∧
  b1.allocator.props.length = b.allocator.props.length + 1 ∧
  (b1.allocator.props[a]?).map reflprop.children =
    (b.allocator.props[a]?).map (fun o => o.children ++ [b.allocator.props.length]) ∧
  (∀ a2 : Nat, a2 ≠ a → a2 < b.allocator.props.length →
    b1.allocator.props[a2]? = b.allocator.props[a2]?) ∧
  b1.allocator.cmps = b.allocator.cmps ∧
  b1.scene.cmps = b.scene.cmps ∧
  b1.array = b.array ∧
  b1.last_prop = some b.allocator.props.length

/-- The effect on state `b`, giving `b1`, of an attribute call that attaches `a` to the
property at address `p`: `a` is appended at the end of the attribute list of that property,
whose name and children are as before; every other property object, every component
descriptor, the scene descriptor and both cursors are unchanged. -/
def builder.AttributeAppended {S : Type} (b b1 : builder S) (p : Nat) (a : IAttribute S) :
    Prop :=
  (b1.allocator.props[p]?).map reflprop.attributes =
    (b.allocator.props[p]?).map (fun o => o.attributes ++ [a]) ∧
  (b1.allocator.props[p]?).map reflprop.children =
    (b.allocator.props[p]?).map reflprop.children ∧
  (b1.allocator.props[p]?).map reflprop.name = (b.allocator.props[p]?).map reflprop.name ∧
  (b1.allocator.props[p]?).map reflprop.overload =
    (b.allocator.props[p]?).map reflprop.overload ∧
  (∀ p2 : Nat, p2 ≠ p → b1.allocator.props[p2]? = b.allocator.props[p2]?) ∧
  b1.allocator.props.length = b.allocator.props.length ∧
  b1.allocator.cmps = b.allocator.cmps ∧
  b1.scene = b.scene ∧
  b1.array = b.array ∧
  b1.last_prop = b.last_prop

/-- A sub-object with one float field, returned by reference. -/
def example_ref_getter : RefGetterFn ℚ ℚ :=
  { read := fun scene _ => scene, write := fun _ _ obj => obj }

/-- The pointer to the float data member of that sub-object. -/
def example_member_ptr : MemberPtr ℚ ℚ :=
  { read := fun obj => obj, write := fun _ v => v }

/-- An enumeration with two values, converted from and to `i32`. -/
def example_enum : builder.EnumType :=
  { E := Bool, of_i32 := fun i => decide (i ≠ 0), to_i32 := fun e => if e then 1 else 0 }

/-- The native types on which `Variant::operator=` and `_getVariantType` select
corresponding overloads: every type except `char*` and the pointers to const objects other
than `const char*`. -/
def NativeType.tag_agrees : NativeType → Bool
  | .ptr .char false => false
  | .ptr .void true => false
  | .ptr (.object _) true => false
  | _ => true

/-- A wrapped `void C::reset()` on the scene that stores a single size. -/
def example_reset_fn : MemberFn ℚ NativeType.void := .nonconst_ (fun _ _ => (0, ()))

/-- One call of the fluent registration chain: a method of `builder` with its template
and function arguments. -/
inductive BuilderCall (S : Type) : Type 1
  | cmp (ext : Externals) (Creator Destroyer : S → EntityRef → S) (name label : String)
  | enum_prop (E : builder.EnumType) (Getter : GetterFn S E.E) (Setter : SetterFn S E.E)
      (name : String)
  | prop (T : PropType) (Getter : GetterFn S T.Val) (Setter : SetterFn S T.Val) (name : String)
  | var_prop (Obj : Type) (T : PropType) (Getter : RefGetterFn S Obj)
      (PropGetter : MemberPtr Obj T.Val) (name : String)
  | minAttribute (value : float)
  | clampAttribute (min max : float)
  | resourceAttribute (type : ResourceType)
  | begin_array (Counter : S → EntityRef → Nat) (Adder Remover : S → EntityRef → Nat → S)
      (name : String)
  | end_array
  | enumAttribute (T : IAttribute S)
  | radiansAttribute
  | colorAttribute
  | noUIAttribute
  | multilineAttribute
  | icon (icon : String)
  | function (R : QualType) (Args : List QualType) (F : MemberFn S R.base)
      (name decl_code : String)

/-- The effect of one call of the chain on the builder. -/
def BuilderCall.apply {S : Type} : BuilderCall S → builder S → Option (builder S)
  | .cmp ext Creator Destroyer name label => builder.cmp ext Creator Destroyer name label
  | .enum_prop E Getter Setter name => builder.enum_prop E Getter Setter name
  | .prop T Getter Setter name => builder.prop T Getter Setter name
  | .var_prop _ T Getter PropGetter name => builder.var_prop T Getter PropGetter name
  | .minAttribute value => builder.minAttribute value
  | .clampAttribute min max => builder.clampAttribute min max
  | .resourceAttribute type => builder.resourceAttribute type
  | .begin_array Counter Adder Remover name => builder.begin_array Counter Adder Remover name
  | .end_array => builder.end_array
  | .enumAttribute T => builder.enumAttribute T
  | .radiansAttribute => builder.radiansAttribute
  | .colorAttribute => builder.colorAttribute
  | .noUIAttribute => builder.noUIAttribute
  | .multilineAttribute => builder.multilineAttribute
  | .icon name => builder.icon name
  | .function R Args F name decl_code => builder.function R Args F name decl_code

/-- A chain of calls, applied from left to right; it is undefined as soon as one call is. -/
def builder.run {S : Type} : List (BuilderCall S) → builder S → Option (builder S)
  | [], b => some b
  | call :: calls, b =>
    match call.apply b with
    | none => none
    | some b1 => builder.run calls b1

/-- Array nesting is one level deep in a collection of property objects: every child of
every array property is a typed property, never an array property. -/
def ArraysHoldTypedOnly {S : Type} (props : List (reflprop S)) : Prop :=
  ∀ (p : Nat) (arr : reflarrayprop S), props[p]? = some (reflprop.array arr) →
    ∀ ch ∈ arr.children, ∃ (T : PropType) (q : refl_typed_prop S T),
      props[ch]? = some (reflprop.typed T q)

/-- The chain `cmp("box")`, `begin_array("items")`, `prop("weight")`, `minAttribute(0)`,
`begin_array("more")`, `prop("size")`, `end_array()`: a second bracket is opened while the
first is still open. -/
def example_chain : List (BuilderCall ℚ) :=
  [ .cmp example_ext (fun s _ => s) (fun s _ => s) "box" "Box",
    .begin_array (fun _ _ => 0) (fun s _ _ => s) (fun s _ _ => s) "items",
    .prop .float example_getSize example_setSize "weight",
    .minAttribute 0,
    .begin_array (fun _ _ => 0) (fun s _ _ => s) (fun s _ _ => s) "more",
    .prop .float example_getSize example_setSize "size",
    .end_array ]

/-- The state the chain `example_chain` reaches from the fresh scene `test_scene`. -/
def example_chain_state : builder ℚ :=
  (builder.run example_chain (build_scene "test_scene")).getD (build_scene "test_scene")

/-- Modelled from the spec: `getReflComponent(cmp_type)` (declared in the header, defined
outside the sources) looks the component-type identifier up in the process-wide registry
and returns the descriptor registered under it, or null when there is none. -/
def getReflComponent {S : Type} (b : builder S) (cmp_type : ComponentType) : Option Ptr :=
  b.registered.lookup cmp_type

/-- The round trip of the lookup key: every descriptor the registry returns for a
component-type identifier carries that identifier as its `component_type`. -/
def RegistryRoundTrip {S : Type} (b : builder S) : Prop :=
  ∀ (type : ComponentType) (ptr : Nat), getReflComponent b type = some ptr →
    (b.allocator.cmps[ptr]?).map (fun d => d.component_type) = some type

/-- The counter hook `u32 getItemCount(EntityRef)` of a scene that is the number of items
of its only array. -/
def example_counter : ℕ → EntityRef → ℕ := fun scene _ => scene

/-- The adder hook `void addItem(EntityRef, u32)` of an array with two slots: a full array
stays as it is. -/
def example_adder_capped : ℕ → EntityRef → ℕ → ℕ :=
  fun scene _ _ => if scene < 2 then scene + 1 else scene

/-- The adder hook `void addItem(EntityRef, u32)` of an array without limit. -/
def example_adder : ℕ → EntityRef → ℕ → ℕ := fun scene _ _ => scene + 1

/-- The remover hook `void removeItem(EntityRef, u32)`: an empty array stays as it is. -/
def example_remover : ℕ → EntityRef → ℕ → ℕ := fun scene _ _ => scene - 1

/-- The state after `build_scene("test_scene").cmp<...>("box", "Box")`, for any scene
type. -/
def example_state (S : Type) : builder S :=
  ((build_scene "test_scene").cmp example_ext (fun s _ => s) (fun s _ => s) "box" "Box").getD
    (build_scene "test_scene")

/-- The object behind a `reflprop*` seen as a `reflarrayprop`, if it is one. -/
def reflprop.as_array {S : Type} : reflprop S → Option (reflarrayprop S)
  | .array p => some p
  | _ => none

/-- A scene whose sub-objects live in a store. `objs l` is the sub-object at storage
location `l`, seen as the projected data member together with all its other members;
`rest` is the remaining state of the scene. -/
structure SubObjectScene (Loc V Others Rest : Type) where
  objs : Loc → V × Others
  rest : Rest

/-- A member function `Obj& (C::*)(EntityRef)` that returns a reference to the sub-object
of an entity and leaves the scene as it is. The reference is the storage location
`locate scene e`: a read goes to the sub-object stored there, a store through the reference
replaces the sub-object stored there and nothing else. -/
def SubObjectScene.ref {Loc V Others Rest : Type} [DecidableEq Loc]
    (locate : SubObjectScene Loc V Others Rest → EntityRef → Loc) :
    RefGetterFn (SubObjectScene Loc V Others Rest) (V × Others) :=
  { read := fun scene e => scene.objs (locate scene e)
    write := fun scene e obj =>
      { scene with objs := Function.update scene.objs (locate scene e) obj } }

/-- The pointer to the projected data member of a sub-object: a store to the member keeps
all other members. -/
def MemberPtr.projected {V Others : Type} : MemberPtr (V × Others) V :=
  { read := fun obj => obj.1, write := fun obj v => (v, obj.2) }

/-- A scene with one sub-object per entity index, each a `float` member `radius` and an
`int` member `layer`; every sub-object starts as `(1.0, 7)`. -/
def example_sub_scene : SubObjectScene Int ℚ Int Unit :=
  { objs := fun _ => (1, 7), rest := () }

/-- The concrete property kinds of the reflection system: the scalar value types, array
properties, blob properties and dynamic properties. -/
inductive PropertyKind
  | scalar (T : PropType)
  | array
  | blob
  | dynamic
deriving DecidableEq

/-- The overloads of `visit` declared by `IReflPropertyVisitor`, the interface
`reflcmp::visit` takes, by the kind of their parameter, in the order of declaration. -/
def IReflPropertyVisitor.overloads : List PropertyKind :=
  [ .scalar .float, .scalar .int, .scalar .u32, .scalar .EntityPtr, .scalar .Vec2,
    .scalar .Vec3, .scalar .IVec3, .scalar .Vec4, .scalar .Path, .scalar .bool,
    .scalar .cstr, .array ]

/-- The overloads of `visit` declared by `IPropertyVisitor`, the interface
`ComponentBase::visit` takes, by the kind of their parameter (`Property<T>`,
`IDynamicProperties`, `IArrayProperty`, `IBlobProperty`), in the order of declaration. -/
def IPropertyVisitor.overloads : List PropertyKind :=
  [ .scalar .float, .scalar .int, .scalar .u32, .scalar .EntityPtr, .scalar .Vec2,
    .scalar .Vec3, .scalar .IVec3, .scalar .Vec4, .scalar .Path, .scalar .bool,
    .scalar .cstr, .dynamic, .array, .blob ]

/-- The kind of the parameter of an overload of `IReflPropertyVisitor`. -/
def Overload.kind : Overload → PropertyKind
  | .typed T => .scalar T
  | .array => .array

/-- Modelled from the spec: `ArgsCount<decltype(F)>::value` (engine/metaprogramming.h is
not among the sources) for a bound getter: the number of parameters of the member
function. -/
def GetterFn.ArgsCount {S V : Type} : GetterFn S V → Nat
  | .args1 _ => 1
  | .args2 _ => 2

/-- Modelled from the spec: `ArgsCount<decltype(F)>::value` (engine/metaprogramming.h is
not among the sources) for a bound setter: the number of parameters of the member
function. -/
def SetterFn.ArgsCount {S V : Type} : SetterFn S V → Nat
  | .args2 _ => 2
  | .args3 _ => 3

/-- An indexed getter `float getWeight(EntityRef, u32)` of a scene that is a list of
weights. -/
def example_getWeight : GetterFn (List ℚ) ℚ := .args2 (fun scene _ idx => scene.getD idx 0)

/-- An indexed setter `void setWeight(EntityRef, u32, float)` of that scene. -/
def example_setWeight : SetterFn (List ℚ) ℚ := .args3 (fun scene _ idx v => scene.set idx v)

/-- An enumeration with underlying type `u8` (`enum class Shape : u8`): a `static_cast`
from `i32` keeps the low eight bits. -/
def example_enum_u8 : builder.EnumType :=
  { E := Fin 256
    of_i32 := fun i => Fin.ofNat (i % 256).toNat
    to_i32 := fun e => (e.val : Int) }

/-- An enumeration with underlying type `i32`: both conversions keep the value. -/
def example_enum_i32 : builder.EnumType :=
  { E := Int, of_i32 := fun i => i, to_i32 := fun e => e }

/-- One invocation of a hook of an array property, as written down by a traced hook. -/
inductive HookCall
  | adder (e : EntityRef) (idx : Nat)
  | remover (e : EntityRef) (idx : Nat)
deriving DecidableEq

/-- An adder hook that also writes its invocation down in the scene. -/
def traced_adder {S : Type} (Adder : S → EntityRef → Nat → S) :
    S × List HookCall → EntityRef → Nat → S × List HookCall :=
  fun scene e idx => (Adder scene.1 e idx, scene.2 ++ [HookCall.adder e idx])

/-- A remover hook that also writes its invocation down in the scene. -/
def traced_remover {S : Type} (Remover : S → EntityRef → Nat → S) :
    S × List HookCall → EntityRef → Nat → S × List HookCall :=
  fun scene e idx => (Remover scene.1 e idx, scene.2 ++ [HookCall.remover e idx])

/-- The object behind a `reflprop*` seen as a `refl_typed_prop<T>`, if it is one. -/
def reflprop.as_typed {S : Type} (T : PropType) : reflprop S → Option (refl_typed_prop S T)
  | .typed T2 p => if h : T2 = T then some (h ▸ p) else none
  | .array _ => none

/-- The typed properties of value type `T` named `prop_name` among the property objects
`objs`, in the order of `objs`. -/
def matching_props {S : Type} (T : PropType) (prop_name : String) (objs : List (reflprop S)) :
    List (refl_typed_prop S T) :=
  objs.filterMap (fun o => (o.as_typed T).filter (fun q => decide (q.name = prop_name)))

/-- The state after `build_scene("test_scene").cmp<...>("box", "Box")` and
`begin_array<...>("items")`: the bracket of the array at address 0 is open. -/
def example_open_array_state : builder ℚ :=
  ((example_state ℚ).begin_array (fun _ _ => 0) (fun s _ _ => s) (fun s _ _ => s) "items").getD
    (example_state ℚ)

/-- Three property objects: two floats named `size` with different getters and an int of
the same name. -/
def example_same_name_props : List (reflprop ℚ) :=
  [ .typed .float
      { attributes := [], name := "size", setter := fun _ _ _ v => v, getter := fun s _ _ => s },
    .typed .int
      { attributes := [], name := "size", setter := fun s _ _ _ => s, getter := fun _ _ _ => 7 },
    .typed .float
      { attributes := [], name := "size", setter := fun _ _ _ v => v,
        getter := fun s _ _ => s + 1 },
    .array
      { attributes := [], name := "size", children := [0], counter := fun _ _ => 0,
        adder := fun s _ _ => s, remover := fun s _ _ => s } ]

/-- A registry state with one component descriptor of type 4 whose props are the four
objects of `example_same_name_props`. -/
def example_same_name_allocator : Allocator ℚ :=
  { props := example_same_name_props
    cmps := [{ example_cmp with props := [0, 1, 2, 3] }] }

end reflection

/-! ## Machine integers, arrays and loops of physics_scene.cpp and model.cpp -/

/-- The value stored in an `int` (32 bits, two's complement) for the mathematical result
`x` of an `int` operation: a result outside the range wraps around (signed overflow, which
the C++ standard leaves undefined, as the two's complement targets of the engine compute
it). -/
def to_int (x : Int) : Int := (x + 2147483648) % 4294967296 - 2147483648

/-- The conversion of an integer value to `uint32_t` (`physx::PxU32`). -/
def to_u32 (x : Int) : Int := x % 4294967296

/-- The conversion of an integer value to `physx::PxI16`. -/
def to_i16 (x : Int) : Int := (x + 32768) % 65536 - 32768

/-- The element read `a[idx]` of an `Array<T>` or a raw buffer with the elements `a`; an
index outside the elements is undefined. -/
def Array_at {α : Type} (a : List α) (idx : Int) : Option α :=
  if 0 ≤ idx then a[idx.toNat]? else none

/-- The element write `a[idx] = x`; an index outside the elements is undefined. -/
def Array_assign {α : Type} (a : List α) (idx : Int) (x : α) : Option (List α) :=
  if 0 ≤ idx ∧ idx < a.length then some (a.set idx.toNat x) else none

/-- The iterations of `for (int i = ...; i < n; ++i) body` that remain when `n - i` is
`remaining`; an undefined iteration makes the loop undefined. -/
def for_loop {σ : Type} (body : Int → σ → Option σ) : (remaining : Nat) → Int → σ → Option σ
  | 0, _, s => some s
  | remaining + 1, i, s =>
    match body i s with
    | none => none
    | some s => for_loop body remaining (i + 1) s

/-- The loop `for (int i = 0; i < n; ++i) body`. -/
def for_int {σ : Type} (n : Int) (body : Int → σ → Option σ) (s : σ) : Option σ :=
  for_loop body n.toNat 0 s

/-! ## physics_scene.cpp: InputStream -/

/-- The struct `InputStream`; `data` holds the bytes of the buffer behind the pointer. -/
structure InputStream where
  pos : Int
  size : Int
  data : List Nat
deriving DecidableEq

/-- The call `memcpy(dest, data + offset, n)` with `n` converted to `size_t`: the bytes
copied to `dest`; reading outside the buffer `data` (also with a negative `n`, which
converts to a huge size) is undefined. -/
def memcpy_from (data : List Nat) (offset : Int) (n : Int) : Option (List Nat) :=
  if 0 ≤ offset ∧ 0 ≤ n ∧ offset + n ≤ data.length then
    some ((data.drop offset.toNat).take n.toNat)
  else none

namespace InputStream

/-- The constructor `InputStream(data, size)`. -/
def ctor (data : List Nat) (size : Int) : InputStream :=
  { data := data, size := size, pos := 0 }

/-- The method `InputStream::read(dest, count)` with `count` a `PxU32`: the bytes written
to `dest`, the stream afterwards and the returned `PxU32`. `(int)count` and `pos + ...` are
`int` operations; `pos += count` is computed in `unsigned` and stored back as `int`. -/
def read (self : InputStream) (count : Nat) : Option (List Nat × InputStream × Int) :=
  if to_int (self.pos + to_int count) ≤ self.size then
    match memcpy_from self.data self.pos count with
    | none => none
    | some dest =>
      some (dest, { self with pos := to_int (to_u32 (to_u32 self.pos + count)) }, count)
  else
    match memcpy_from self.data self.pos (to_int (self.size - self.pos)) with
    | none => none
    | some dest =>
      let real_count := to_int (self.size - self.pos)
      some (dest, { self with pos := self.size }, to_u32 real_count)

end InputStream

/-! ## physics_scene.cpp: heightmapLoaded -/

/-- The PhysX struct `physx::PxHeightFieldSample`: a `PxI16` height and two material
indices. -/
structure PxHeightFieldSample where
  height : Int
  materialIndex0 : Nat
  materialIndex1 : Nat
deriving DecidableEq

namespace PhysicsSceneImpl

/-- The element `data[idx]` of the heightmap bytes seen as `const uint16_t*` (little
endian). -/
def read_u16 (data : List Nat) (idx : Int) : Option Nat :=
  if 0 ≤ idx then
    match data[2 * idx.toNat]?, data[2 * idx.toNat + 1]? with
    | some lo, some hi => some (lo + 256 * hi)
    | _, _ => none
  else none

/-- The body of the inner loop of the 2-byte branch of `heightmapLoaded`, for the row `j`
and the column `i`; the state is `heights` with the trace of assignments, and the running
index `idx`. -/
def heightmapLoaded.copy16 (data : List Nat) (height j i : Int)
    (st : (List (Option PxHeightFieldSample) × List (Int × Int)) × Int) :
    Option ((List (Option PxHeightFieldSample) × List (Int × Int)) × Int) :=
  let idx := st.2
  let idx2 := to_int (j + to_int (i * height))
  match read_u16 data idx2 with
  | none => none
  | some v =>
    match Array_assign st.1.1 idx (some ⟨to_i16 v, 0, 0⟩) with
    | none => none
    | some heights => some ((heights, st.1.2 ++ [(idx, idx2)]), to_int (idx + 1))

/-- The body of the outer loop of the 2-byte branch, for the row `j`. -/
def heightmapLoaded.row16 (data : List Nat) (width height j : Int)
    (st : List (Option PxHeightFieldSample) × List (Int × Int)) :
    Option (List (Option PxHeightFieldSample) × List (Int × Int)) :=
  let idx := to_int (j * width)
  match for_int width (heightmapLoaded.copy16 data height j) (st, idx) with
  | none => none
  | some st => some st.1

/-- The body of the inner loop of the generic branch of `heightmapLoaded`, for the row `j`
and the column `i`. -/
def heightmapLoaded.copy8 (data : List Nat) (width height bytes_per_pixel j i : Int)
    (st : List (Option PxHeightFieldSample) × List (Int × Int)) :
    Option (List (Option PxHeightFieldSample) × List (Int × Int)) :=
  let idx := to_int (i + to_int (j * width))
  let idx2 := to_int (j + to_int (i * height))
  match Array_at data (to_int (idx2 * bytes_per_pixel)) with
  | none => none
  | some v =>
    match Array_assign st.1 idx (some ⟨to_i16 v, 0, 0⟩) with
    | none => none
    | some heights => some (heights, st.2 ++ [(idx, idx2)])

/-- The body of the outer loop of the generic branch, for the row `j`. -/
def heightmapLoaded.row8 (data : List Nat) (width height bytes_per_pixel j : Int)
    (st : List (Option PxHeightFieldSample) × List (Int × Int)) :
    Option (List (Option PxHeightFieldSample) × List (Int × Int)) :=
  for_int width (heightmapLoaded.copy8 data width height bytes_per_pixel j) st

/-- The copy loops of `PhysicsSceneImpl::heightmapLoaded` (the function goes on to hand
`heights` to PhysX): `width`, `height`, `bytes_per_pixel` and `data` are what the heightmap
texture reports. The result is the array `heights`, where `none` is an element that was
never assigned, together with a trace that holds `(idx, idx2)` for every assignment
`heights[idx].height = data[...]`, in the order of execution. `heights.resize` with a
negative size and every access outside an array are undefined. -/
def heightmapLoaded (width height bytes_per_pixel : Int) (data : List Nat) :
    Option (List (Option PxHeightFieldSample) × List (Int × Int)) :=
  let size := to_int (width * height)
  if size < 0 then none
  else
    let heights : List (Option PxHeightFieldSample) := List.replicate size.toNat none
    if bytes_per_pixel = 2 then
      for_int height (heightmapLoaded.row16 data width height) (heights, [])
    else
      for_int height (heightmapLoaded.row8 data width height bytes_per_pixel) (heights, [])

end PhysicsSceneImpl

/-- The contract of `InputStream::read` in the words of the specification: the returned
count is `min(count, size - pos)`, the bytes copied are `data[pos .. pos + returned)` and
`pos` advances by the returned count. -/
def InputStream.read_spec (self : InputStream) (count : Nat) : List Nat × InputStream × Int :=
  let returned := min (count : Int) (self.size - self.pos)
  ((self.data.drop self.pos.toNat).take returned.toNat,
    { self with pos := self.pos + returned }, returned)

/-- A stream over ten bytes of which five have been read. -/
def example_stream : InputStream :=
  { data := [10, 11, 12, 13, 14, 15, 16, 17, 18, 19], size := 10, pos := 5 }

/-! ## physics_scene.cpp: deserializeControllers -/

/-- Modelled from the spec: `Entity` (core/entity.h is not among the sources), an entity of
the universe of the scene, identified by its index. -/
structure Entity where
  index : Int
deriving DecidableEq

namespace PhysicsSceneImpl

/-- The struct `PhysicsSceneImpl::Controller`. It declares no constructor: a member that
was never assigned holds no determined value (`none`). A `physx::PxController*` is the
number of the controller it points to. -/
structure Controller where
  m_controller : Option Nat
  m_entity : Option Entity
  m_is_free : Bool
deriving DecidableEq

/-- The part of the state of `PhysicsSceneImpl` and of its collaborators that the
controller functions act on: the array `m_controllers`, the number of controllers the PhysX
controller manager has created so far, the controllers released so far, and the calls
`m_universe->addComponent(entity, CONTROLLER_HASH, this, index)` made so far. -/
structure State where
  m_controllers : List Controller
  created : Nat
  released : List Nat
  components : List (Entity × Int)
deriving DecidableEq

/-- The call `m_controller_manager->createController(...)` of PhysX: a new controller,
numbered in the order of creation. -/
def State.createController (self : State) : State × Nat :=
  ({ self with created := self.created + 1 }, self.created)

/-- The method `PhysicsSceneImpl::createController(entity)`; the returned component and the
`componentCreated` callback are left out. -/
def createController (self : State) (entity : Entity) : State :=
  let c : Controller := { m_controller := none, m_entity := none, m_is_free := false }
  let (self, controller) := self.createController
  let c := { c with m_controller := some controller }
  let c := { c with m_entity := some entity }
  let c := { c with m_is_free := false }
  let self := { self with m_controllers := self.m_controllers ++ [c] }
  { self with components := self.components ++ [(entity, (self.m_controllers.length : Int) - 1)] }

/-- The loop `for (i < m_controllers.size()) m_controllers[i].m_controller->release()`; a
call through a pointer that was never assigned is undefined. -/
def release_all : List Controller → List Nat → Option (List Nat)
  | [], released => some released
  | c :: rest, released =>
    match c.m_controller with
    | none => none
    | some controller => release_all rest (released ++ [controller])

/-- The method `PhysicsSceneImpl::deserializeControllers(serializer)`. The serializer
(`ISerializer` is not among the sources) is given by what it delivers: `count` for
`deserialize("count", count)` and `items` for the pairs of `deserializeArrayItem` calls; a
read after the last item is not modelled (`none`). `c` is the local variable of the loop
body: `m_controllers.push(c)` stores a copy of it, the assignments behind the push change
the local variable only. -/
def deserializeControllers (self : State) (count : Int) (items : List (Int × Bool)) :
    Option State :=
  match release_all self.m_controllers self.released with
  | none => none
  | some released =>
    let self := { { self with released := released } with m_controllers := [] }
    match
      for_int count
        (fun i (st : State × List (Int × Bool)) =>
          match st.2 with
          | [] => none
          | (index, is_free) :: items =>
            let self := st.1
            let e : Entity := ⟨index⟩
            let c : Controller := { m_controller := none, m_entity := none, m_is_free := false }
            let c := { c with m_is_free := is_free }
            let self := { self with m_controllers := self.m_controllers ++ [c] }
            if !is_free then
              let (self, controller) := self.createController
              let c := { c with m_controller := some controller }
              let _c := { c with m_entity := some e }
              some ({ self with components := self.components ++ [(e, i)] }, items)
            else some (self, items))
        (self, items) with
    | none => none
    | some st => some st.1

/-- A scene without controllers. -/
def example_scene : State :=
  { m_controllers := [], created := 0, released := [], components := [] }

end PhysicsSceneImpl

/-! ## model.cpp -/

/-- A value of the C++ type `float` (IEEE 754) as `model.cpp` handles it. The file delivers
floats raw, so a value may be not-a-number or an infinity; a finite value is given by the
number it denotes. Values are only copied and compared: the two zeros compare equal and are
the one value `finite 0`. -/
inductive ieee_float
  | nan
  | neg_infinity
  | finite (value : ℚ)
  | infinity
deriving DecidableEq

/-- A numeric literal of type `float`. -/
instance ieee_float.instOfNat (n : Nat) : OfNat ieee_float n := ⟨ieee_float.finite n⟩

/-- The comparison `a >= b` of two floats: false as soon as one of them is
not-a-number. -/
def ieee_float.ge : ieee_float → ieee_float → Bool
  | .nan, _ => false
  | _, .nan => false
  | .infinity, _ => true
  | _, .neg_infinity => true
  | .neg_infinity, _ => false
  | _, .infinity => false
  | .finite a, .finite b => decide (a ≥ b)

/-- The comparison `a < b` of two floats: false as soon as one of them is
not-a-number. -/
def ieee_float.lt : ieee_float → ieee_float → Bool
  | .nan, _ => false
  | _, .nan => false
  | .infinity, _ => false
  | _, .neg_infinity => false
  | .neg_infinity, _ => true
  | _, .infinity => true
  | .finite a, .finite b => decide (a < b)

/-- Modelled from the spec: `Model::LOD` (the `model.h` of this version of `model.cpp` is
not among the sources); the members are those `model.cpp` uses. -/
structure Model.LOD where
  m_from_mesh : Int
  m_to_mesh : Int
  m_distance : ieee_float
deriving DecidableEq

/-- Modelled from the spec: `LODMeshIndices` (not among the sources), the pair of mesh
indices its constructor is given. -/
structure LODMeshIndices where
  from_mesh : Int
  to_mesh : Int
deriving DecidableEq

/-- Modelled from the spec: `Model::Bone` as `model.cpp` uses it (the `model.h` among the
sources is older and has no `parent_idx`). A `string` is the list of its characters; the
bind matrix is left out. `parent_idx` is `none` until it is assigned. -/
structure Model.Bone where
  name : List Nat
  parent : List Nat
  position : List ieee_float
  rotation : List ieee_float
  parent_idx : Option Int
deriving DecidableEq

/-- The members of `Model` that `parseBones`, `getBoneIdx`, `parseLODs` and
`getLODMeshIndices` act on. -/
structure Model where
  m_bones : List Model.Bone
  m_lods : List Model.LOD
  m_first_nonroot_bone_index : Int
deriving DecidableEq

/-- One `read` call on an `FS::IFile`, by what it delivers: an `int`, `len` characters or
a number of floats. -/
inductive FileItem
  | int (v : Int)
  | chars (c : List Nat)
  | floats (v : List ieee_float)
deriving DecidableEq

/-- Modelled from the spec: `FS::IFile` (core/fs/ifile.h is not among the sources). A file
is the sequence of items that the `read` calls still to come deliver. A read that asks for
something else than the next item holds is not modelled (`none`). -/
abbrev IFile := List FileItem

namespace IFile

/-- The call `file->read(&x, sizeof(x))` for an `int` or `int32_t` `x`. -/
def read_int : IFile → Option (Int × IFile)
  | .int v :: file => some (v, file)
  | _ => none

/-- The call `file->read(tmp, len)` into a character buffer of `capacity` characters; a
negative `len` converts to a huge size, and writing more than `capacity` characters
overruns the buffer: undefined. -/
def read_chars (capacity len : Int) : IFile → Option (List Nat × IFile)
  | .chars c :: file => if 0 ≤ len ∧ len ≤ capacity ∧ (c.length : Int) = len then some (c, file) else none
  | _ => none

/-- The call `file->read(&x, sizeof(float) * n)`. -/
def read_floats (n : Nat) : IFile → Option (List ieee_float × IFile)
  | .floats v :: file => if v.length = n then some (v, file) else none
  | _ => none

end IFile

/-- The assignment of a character buffer to a `string`: the characters before the first
zero. -/
def c_str (tmp : List Nat) : List Nat := tmp.takeWhile (fun c => c ≠ 0)

namespace Model

/-- The loop `while (squared_distance >= m_lods[i].m_distance) ++i;` of
`Model::getLODMeshIndices`: the list is the part of `m_lods` from index `i` to its end.
When it is empty `m_lods[i]` is read behind the last element: undefined. The result is the
final `i` with the element `m_lods[i]`. -/
def getLODMeshIndices.scan (squared_distance : ieee_float) :
    List LOD → Int → Option (Int × LOD)
  | [], _ => none
  | lod :: rest, i =>
    if squared_distance.ge lod.m_distance then
      getLODMeshIndices.scan squared_distance rest (i + 1)
    else some (i, lod)

/-- The method `Model::getLODMeshIndices(squared_distance)`. -/
def getLODMeshIndices (self : Model) (squared_distance : ieee_float) :
    Option LODMeshIndices :=
  match getLODMeshIndices.scan squared_distance self.m_lods 0 with
  | none => none
  | some (_, lod) => some ⟨lod.m_from_mesh, lod.m_to_mesh⟩

/-- The largest finite `float`, `FLT_MAX`. -/
def FLT_MAX : ieee_float := .finite 340282346638528859811704183484516925440

/-- The LOD part of `Model::create`: one LOD at distance `FLT_MAX` is pushed. -/
def create (self : Model) : Model :=
  let lod : LOD := { m_distance := FLT_MAX, m_from_mesh := 0, m_to_mesh := 0 }
  { self with m_lods := self.m_lods ++ [lod] }

/-- The loop of `Model::getBoneIdx` over the bones from index `i` on. -/
def getBoneIdx.scan (name : List Nat) : List Bone → Int → Int
  | [], _ => -1
  | b :: rest, i => if b.name = name then i else getBoneIdx.scan name rest (i + 1)

/-- The method `Model::getBoneIdx(name)`. -/
def getBoneIdx (self : Model) (name : List Nat) : Int :=
  getBoneIdx.scan name self.m_bones 0

/-- The change of the bone `b`, a reference to `m_bones[i]`. -/
def set_bone (self : Model) (i : Int) (b : Bone) : Option Model :=
  match Array_assign self.m_bones i b with
  | none => none
  | some m_bones => some { self with m_bones := m_bones }

/-- The first loop of `Model::parseBones` with `remaining` iterations to go: every
iteration emplaces a bone and reads its name, the name of its parent, its position and
its rotation. The result `false` is `return false`. The insertion into the hash map
`m_bone_map` is left out. -/
def parseBones.read (MAX_PATH_LENGTH : Int) :
    (remaining : Nat) → Model → IFile → Option (Bool × Model × IFile)
  | 0, self, file => some (true, self, file)
  | remaining + 1, self, file =>
    let b : Bone := { name := [], parent := [], position := [], rotation := [], parent_idx := none }
    let self := { self with m_bones := self.m_bones ++ [b] }
    let back : Int := (self.m_bones.length : Int) - 1
    match file.read_int with
    | none => none
    | some (len, file) =>
      if len >= MAX_PATH_LENGTH then some (false, self, file)
      else
        match file.read_chars (MAX_PATH_LENGTH - 1) len with
        | none => none
        | some (tmp, file) =>
          let b := { b with name := c_str tmp }
          match self.set_bone back b with
          | none => none
          | some self =>
            match file.read_int with
            | none => none
            | some (len, file) =>
              if len >= MAX_PATH_LENGTH then some (false, self, file)
              else
                match file.read_chars (MAX_PATH_LENGTH - 1) len with
                | none => none
                | some (tmp, file) =>
                  let b := { b with parent := c_str tmp }
                  match file.read_floats 3 with
                  | none => none
                  | some (position, file) =>
                    let b := { b with position := position }
                    match file.read_floats 4 with
                    | none => none
                    | some (rotation, file) =>
                      let b := { b with rotation := rotation }
                      match self.set_bone back b with
                      | none => none
                      | some self => parseBones.read MAX_PATH_LENGTH remaining self file

/-- The second loop of `Model::parseBones` with `remaining` iterations to go, at index
`i`: the parent index of every bone is looked up. The result `false` is `return false`. -/
def parseBones.resolve : (remaining : Nat) → Int → Model → Option (Bool × Model)
  | 0, _, self => some (true, self)
  | remaining + 1, i, self =>
    match Array_at self.m_bones i with
    | none => none
    | some b =>
      if b.parent.length = 0 then
        match self.set_bone i { b with parent_idx := some (-1) } with
        | none => none
        | some self => parseBones.resolve remaining (i + 1) self
      else
        let parent_idx := self.getBoneIdx b.parent
        match self.set_bone i { b with parent_idx := some parent_idx } with
        | none => none
        | some self =>
          if parent_idx > i ∨ parent_idx < 0 then some (false, self)
          else
            let self :=
              if self.m_first_nonroot_bone_index = -1 then
                { self with m_first_nonroot_bone_index := i }
              else self
            parseBones.resolve remaining (i + 1) self

/-- The method `Model::parseBones(file)`, up to the loops that compute the bind matrices
(which follow the last `return false` and change no other member). `MAX_PATH_LENGTH` is
defined outside the sources. -/
def parseBones (MAX_PATH_LENGTH : Int) (self : Model) (file : IFile) :
    Option (Bool × Model × IFile) :=
  match file.read_int with
  | none => none
  | some (bone_count, file) =>
    if bone_count < 0 then some (false, self, file)
    else
      match parseBones.read MAX_PATH_LENGTH bone_count.toNat self file with
      | none => none
      | some (false, self, file) => some (false, self, file)
      | some (true, self, file) =>
        let self := { self with m_first_nonroot_bone_index := -1 }
        match parseBones.resolve bone_count.toNat 0 self with
        | none => none
        | some (result, self) => some (result, self, file)

end Model

/-- The source pixel `p` of a heightmap as the copy loops read it: the 16-bit element `p`
if a pixel has 2 bytes, else the first byte of pixel `p`. -/
def PhysicsSceneImpl.source_pixel (data : List Nat) (bytes_per_pixel : Nat) (p : Nat) :
    Option Nat :=
  if bytes_per_pixel = 2 then PhysicsSceneImpl.read_u16 data p else data[p * bytes_per_pixel]?

/-- The assignments of a transposed copy of a heightmap of width `w` and height `h`, row
by row: destination `i + j * w`, source `j + i * h`. -/
def PhysicsSceneImpl.transposed_copy (w h : Nat) : List (Int × Int) :=
  (List.range h).flatMap (fun (j : Nat) =>
    (List.range w).map (fun (i : Nat) => (((i + j * w : Nat) : Int), ((j + i * h : Nat) : Int))))

/-- The sample that a transposed copy leaves at the destination index `p`. -/
def PhysicsSceneImpl.transposed_sample (data : List Nat) (bytes_per_pixel w h p : Nat) :
    Option PxHeightFieldSample :=
  (PhysicsSceneImpl.source_pixel data bytes_per_pixel (p / w + p % w * h)).map
    (fun (v : Nat) => ⟨to_i16 (v : Int), 0, 0⟩)

/-- One bone as a model file stores it: the characters of its name and of the name of its
parent, its position and its rotation. -/
structure Model.BoneRecord where
  name : List Nat
  parent : List Nat
  position : List ieee_float
  rotation : List ieee_float

/-- The items of the file section of one bone: each name with its length in front. -/
def Model.BoneRecord.items (r : Model.BoneRecord) : IFile :=
  [FileItem.int r.name.length, FileItem.chars r.name, FileItem.int r.parent.length,
    FileItem.chars r.parent, FileItem.floats r.position, FileItem.floats r.rotation]

/-- A stored bone whose names are shorter than `MAX_PATH_LENGTH` and that has three
position and four rotation floats. -/
def Model.BoneRecord.WellFormed (MAX_PATH_LENGTH : Int) (r : Model.BoneRecord) : Prop :=
  (r.name.length : Int) < MAX_PATH_LENGTH ∧ (r.parent.length : Int) < MAX_PATH_LENGTH ∧
  r.position.length = 3 ∧ r.rotation.length = 4

/-- The bone that the first loop of `parseBones` makes of a stored bone. -/
def Model.BoneRecord.bone (r : Model.BoneRecord) : Model.Bone :=
  { name := c_str r.name, parent := c_str r.parent, position := r.position,
    rotation := r.rotation, parent_idx := none }

/-- The parent index that the specification expects of the bone `b` at index `i`, for the
bone names `names` in stored order: `-1` for an empty parent name, else the index of the
first bone with the name of the parent, which is at most `i`. -/
def Model.ParentResolved (names : List (List Nat)) (i : Nat) (b : Model.Bone) : Prop :=
  (b.parent = [] → b.parent_idx = some (-1)) ∧
  (b.parent ≠ [] → ∃ p : Nat, b.parent_idx = some (p : Int) ∧ p ≤ i ∧
    names[p]? = some b.parent ∧ ∀ k : Nat, k < p → names[k]? ≠ some b.parent)

/-- A model without bones and LODs. -/
def Model.example_empty : Model :=
  { m_bones := [], m_lods := [], m_first_nonroot_bone_index := 0 }

/-- Two stored bones: `root` (characters 1, 2) without parent and `arm` (character 3) whose
parent is `root`. -/
def Model.example_bones : List Model.BoneRecord :=
  [{ name := [1, 2], parent := [], position := [0, 0, 0], rotation := [0, 0, 0, 1] },
   { name := [3], parent := [1, 2], position := [0, 1, 0], rotation := [0, 0, 0, 1] }]

/-! ## Theorems -/

namespace reflection

/-- C4: every assignment operator of `Variant` sets the discriminant that belongs to the
assigned native type and leaves the assigned value in the union member of that
discriminant; a default-constructed `Variant` is tagged `I32` with `i = 0`. -/
theorem Variant.assign_keeps_tag_and_payload_in_sync (v : Variant) :
    (∀ x, (v.assign_bool x).type = .BOOL ∧ (v.assign_bool x).b = some x) ∧
    (∀ x, (v.assign_i32 x).type = .I32 ∧ (v.assign_i32 x).i = some x) ∧
    (∀ x, (v.assign_u32 x).type = .U32 ∧ (v.assign_u32 x).u = some x) ∧
    (∀ x, (v.assign_float x).type = .FLOAT ∧ (v.assign_float x).f = some x) ∧
    (∀ x, (v.assign_cstr x).type = .CSTR ∧ (v.assign_cstr x).s = some x) ∧
    (∀ x, (v.assign_entity x).type = .ENTITY ∧ (v.assign_entity x).e = some x) ∧
    (∀ x, (v.assign_vec2 x).type = .VEC2 ∧ (v.assign_vec2 x).v2 = some x) ∧
    (∀ x, (v.assign_vec3 x).type = .VEC3 ∧ (v.assign_vec3 x).v3 = some x) ∧
    (∀ x, (v.assign_dvec3 x).type = .DVEC3 ∧ (v.assign_dvec3 x).dv3 = some x) ∧
    (∀ x, (v.assign_ptr x).type = .PTR ∧ (v.assign_ptr x).ptr = some x) ∧
    Variant.ctor.type = .I32 ∧ Variant.ctor.i = some 0 := by
  refine ⟨?_, ?_, ?_, ?_, ?_, ?_, ?_, ?_, ?_, ?_, rfl, rfl⟩ <;> intro x <;> exact ⟨rfl, rfl⟩

/-- C5 (evaluation at the failing input): for the native type `char*`, which has the
mapping `getVariantType<char*>() = PTR`, the statement `v = x` selects
`operator =(const char*)`: the Variant is tagged `CSTR`, not `PTR`, the value sits in
member `s`, and `fromVariant` for `char*` reads member `ptr`, which is not the active one. -/
theorem Variant.char_ptr_round_trip_breaks (v : Variant) (x : Addr) :
    v.assign (.ptr .char false) x = some { type := .CSTR, payload := .s x } ∧
    getVariantType (QualType.plain (.ptr .char false)) = .PTR ∧
    fromVariant 0 [{ type := .CSTR, payload := .s x }] (.ptr .char false) = none := by
  exact ⟨rfl, rfl, rfl⟩

/-- C6 (evaluation at the failing input): for a wrapped `char* C::buffer() const` the
introspected return type is `PTR` while `invoke` returns a Variant tagged `CSTR`; for a
wrapped `const Pose* C::pose() const` the introspected return type is `PTR` while `invoke`
returns a Variant tagged `BOOL` whose payload is `true`, not the returned address. -/
theorem Function.invoke_tag_differs_from_getReturnType :
    example_char_ptr_fn.getReturnType = .PTR ∧
    example_char_ptr_fn.invoke () [] = some ((), { type := .CSTR, payload := .s 4096 }) ∧
    example_const_ptr_fn.getReturnType = .PTR ∧
    example_const_ptr_fn.invoke () [] = some ((), { type := .BOOL, payload := .b true }) := by
  exact ⟨rfl, rfl, rfl, rfl⟩

/-- The index pack of `invoke` is `0, ..., n - 1`. -/
theorem BuildIndices_neg_one (n : Nat) :
    BuildIndices (-1) n = (List.range' 0 n).map Int.ofNat := by
  unfold BuildIndices
  rw [List.range_eq_range']
  apply List.map_congr_left
  intro a _
  simp

/-- Unpacking over the index pack `off, off + 1, ...` reads parameter `k` from
`args[off + k]`. -/
theorem VariantCaller.unpack_eq_some (args : List Variant) :
    ∀ (Args : List QualType) (off : Nat) (xs : List NativeVal),
      xs.length = Args.length →
      (∀ k (hk : k < Args.length), ∃ x,
        fromVariant ((off + k : Nat) : Int) args (RemoveCVR (Args.get ⟨k, hk⟩)) = some x ∧
        xs[k]? = some ⟨RemoveCVR (Args.get ⟨k, hk⟩), x⟩) →
      VariantCaller.unpack args Args ((List.range' off Args.length).map Int.ofNat) = some xs := by
  intro Args
  induction Args with
  | nil =>
    intro off xs hlen _
    have hxs : xs = [] := List.length_eq_zero.mp hlen
    subst hxs
    rfl
  | cons A As ih =>
    intro off xs hlen h
    cases xs with
    | nil => simp at hlen
    | cons y ys =>
      have hlen2 : ys.length = As.length := by simpa using hlen
      obtain ⟨x0, hx0, hy⟩ := h 0 (by simp)
      have hy2 : y = ⟨RemoveCVR A, x0⟩ := by simpa using hy
      have htail := ih (off + 1) ys hlen2 (by
        intro k hk
        obtain ⟨x, hx, hxs⟩ := h (k + 1) (by simpa using hk)
        refine ⟨x, ?_, ?_⟩
        · have hidx : off + 1 + k = off + (k + 1) := by omega
          rw [hidx]
          simpa using hx
        · simpa using hxs)
      have hx0a : fromVariant (Int.ofNat off) args (RemoveCVR A) = some x0 := by
        simpa using hx0
      simp only [List.length_cons, List.range'_succ, List.map_cons]
      unfold VariantCaller.unpack
      rw [hx0a, htail, hy2]

/-- C7: `Function::invoke` unpacks its arguments positionally. If parameter `k` of the
wrapped function is read from `args[k]` as `xs[k]`, for every `k` below the argument count,
then the bound function is called with exactly the pack `xs`, and its result is returned
tagged `VOID` (void function) or assigned to the returned Variant. For the wrapped
`float Add(float, float)` and the arguments `FLOAT 2.0`, `FLOAT 3.0` the result is
tagged `FLOAT` with value `5.0`. -/
theorem Function.invoke_unpacks_positionally {C : Type} (fn : Function C) (obj : C)
    (args : List Variant) (xs : List NativeVal)
    (hlen : xs.length = fn.Args.length)
    (hargs : ∀ k (hk : k < fn.Args.length), ∃ x,
      fromVariant (k : Int) args (RemoveCVR (fn.Args.get ⟨k, hk⟩)) = some x ∧
      xs[k]? = some ⟨RemoveCVR (fn.Args.get ⟨k, hk⟩), x⟩) :
    VariantCaller.unpack args fn.Args (BuildIndices (-1) fn.Args.length) = some xs ∧
    (fn.R = QualType.plain .void →
      fn.invoke obj args =
        some ((fn.function.invoke obj xs).1, { type := .VOID, payload := .i 0 })) ∧
    (fn.R ≠ QualType.plain .void →
      fn.invoke obj args =
        (Variant.ctor.assign fn.R.base (fn.function.invoke obj xs).2).map
          (fun v => ((fn.function.invoke obj xs).1, v))) ∧
    example_add_fn.invoke () [Variant.ctor.assign_float 2, Variant.ctor.assign_float 3] =
      some ((), { type := .FLOAT, payload := .f 5 }) := by
  have hun : VariantCaller.unpack args fn.Args (BuildIndices (-1) fn.Args.length) = some xs := by
    rw [BuildIndices_neg_one]
    apply VariantCaller.unpack_eq_some args fn.Args 0 xs hlen
    intro k hk
    obtain ⟨x, hx, hxs⟩ := hargs k hk
    exact ⟨x, by simpa using hx, hxs⟩
  refine ⟨hun, ?_, ?_, ?_⟩
  · intro hR
    unfold Function.invoke
    cases hf : fn.function with
    | nonconst_ f => simp only [VariantCaller.call, hR, hun, if_true]; rfl
    | const_ f => simp only [VariantCaller.call, hR, hun, if_true]; rfl
  · intro hR
    unfold Function.invoke
    cases hf : fn.function with
    | nonconst_ f =>
      simp only [VariantCaller.call, hR, hun, if_false]
      cases Variant.ctor.assign fn.R.base (MemberFn.invoke (MemberFn.nonconst_ f) obj xs).2 <;> rfl
    | const_ f =>
      simp only [VariantCaller.call, hR, hun, if_false]
      cases Variant.ctor.assign fn.R.base (MemberFn.invoke (MemberFn.const_ f) obj xs).2 <;> rfl
  · simp [Function.invoke, example_add_fn, BuildIndices, VariantCaller.call, VariantCaller.unpack,
      fromVariant, Span.at, RemoveCVR, QualType.plain, Variant.assign_float, Variant.ctor,
      Variant.f, MemberFn.invoke, Add, Variant.assign, List.range, List.range.loop]
    norm_num

/-- Witness for C7: the wrapped `Add` with the arguments `FLOAT 2.0`, `FLOAT 3.0` is called
with the pack `(2.0, 3.0)`. -/
theorem Function.invoke_unpacks_positionally_witness :
    VariantCaller.unpack [Variant.ctor.assign_float 2, Variant.ctor.assign_float 3]
        example_add_fn.Args (BuildIndices (-1) example_add_fn.Args.length) =
      some [⟨.float, (2 : ℚ)⟩, ⟨.float, (3 : ℚ)⟩] :=
  (Function.invoke_unpacks_positionally example_add_fn ()
    [Variant.ctor.assign_float 2, Variant.ctor.assign_float 3]
    [⟨.float, (2 : ℚ)⟩, ⟨.float, (3 : ℚ)⟩] rfl
    (by
      intro k hk
      have hk2 : k < 2 := hk
      interval_cases k
      · exact ⟨(2 : ℚ), rfl, rfl⟩
      · exact ⟨(3 : ℚ), rfl, rfl⟩)).1

/-- C8: the introspection methods of a wrapper are fixed by the signature. For parameter
types `Args` and return type `R`, `getArgCount` is the number of parameters, `getArgType(i)`
is `getVariantType` of parameter `i` for every `i` below that number, and `getReturnType`
is `getVariantType<R>()`; the results are the same for any two wrappers of that signature,
whatever member-function pointer is bound, const or not, and on whatever class. -/
theorem Function.introspection_fixed_by_signature {C D : Type} (base1 base2 : FunctionBase)
    (R : QualType) (Args : List QualType) (f : MemberFn C R.base) (g : MemberFn D R.base) :
    ({ toFunctionBase := base1, R := R, Args := Args, function := f } : Function C).getArgCount
      = Args.length ∧
    (∀ i : Fin Args.length,
      ({ toFunctionBase := base1, R := R, Args := Args, function := f } : Function C).getArgType
        (i.val : Int) = some (getVariantType (Args.get i))) ∧
    ({ toFunctionBase := base1, R := R, Args := Args, function := f } : Function C).getReturnType
      = getVariantType R ∧
    ({ toFunctionBase := base1, R := R, Args := Args, function := f } : Function C).getArgCount
      = ({ toFunctionBase := base2, R := R, Args := Args, function := g } : Function D).getArgCount ∧
    (∀ i : Int,
      ({ toFunctionBase := base1, R := R, Args := Args, function := f } : Function C).getArgType i
        = ({ toFunctionBase := base2, R := R, Args := Args, function := g } :
            Function D).getArgType i) ∧
    ({ toFunctionBase := base1, R := R, Args := Args, function := f } : Function C).getReturnType
      = ({ toFunctionBase := base2, R := R, Args := Args, function := g } :
          Function D).getReturnType := by
  have key : ∀ i : Fin Args.length,
      Span.at (Args.map getVariantType ++ [VariantType.VOID]) (i.val : Int) =
        some (getVariantType (Args.get i)) := by
    intro i
    have hlt : i.val < (Args.map getVariantType).length := by simp
    simp [Span.at, List.getElem?_append_left hlt, List.getElem?_map]
  cases f <;> cases g <;>
    exact ⟨rfl, fun i => key i, rfl, rfl, fun _ => rfl, rfl⟩

/-- The recording visitor appends exactly one call per visited property: the overload of
the property's concrete kind, with that property. -/
theorem recorder_visit {S : Type} (o : reflprop S) (log : List (VisitCall S)) :
    o.visit (recorder S) log = log ++ [⟨o.overload, o⟩] := by
  cases o with
  | typed T p => cases T <;> rfl
  | array p => rfl

/-- The visiting loop with the recording visitor appends the calls of the visited
properties in order. -/
theorem visit_each_recorder {S : Type} (heap : List (reflprop S)) :
    ∀ (ps : List Ptr) (objs : List (reflprop S)) (log : List (VisitCall S)),
      ps.map (fun p => heap[p]?) = objs.map some →
      visit_each heap (recorder S) ps log =
        some (log ++ objs.map (fun o => (⟨o.overload, o⟩ : VisitCall S))) := by
  intro ps
  induction ps with
  | nil =>
    intro objs log h
    cases objs with
    | nil => simp [visit_each]
    | cons o os => simp at h
  | cons p ps ih =>
    intro objs log h
    cases objs with
    | nil => simp at h
    | cons o os =>
      simp only [List.map_cons, List.cons.injEq] at h
      obtain ⟨h1, h2⟩ := h
      unfold visit_each
      rw [h1]
      simp only
      rw [ih os _ h2, recorder_visit]
      simp

/-- The visiting loop applies the virtual `visit` of every property in order. -/
theorem visit_each_fold {S V : Type} (heap : List (reflprop S))
    (visitor : IReflPropertyVisitor S V) :
    ∀ (ps : List Ptr) (objs : List (reflprop S)) (v : V),
      ps.map (fun p => heap[p]?) = objs.map some →
      visit_each heap visitor ps v = some (objs.foldl (fun w o => o.visit visitor w) v) := by
  intro ps
  induction ps with
  | nil =>
    intro objs v h
    cases objs with
    | nil => rfl
    | cons o os => simp at h
  | cons p ps ih =>
    intro objs v h
    cases objs with
    | nil => simp at h
    | cons o os =>
      simp only [List.map_cons, List.cons.injEq] at h
      obtain ⟨h1, h2⟩ := h
      unfold visit_each
      rw [h1]
      simp only
      rw [ih os _ h2]
      rfl

/-- C1: visiting a component descriptor whose props list holds the N property objects
`objs` makes exactly N visitor calls; call `k` enters the overload that matches the
concrete kind of property `k` (`refl_typed_prop<T>` for its own `T`, or `reflarrayprop`)
with that property, in the order of the props list. For any visitor the visit is the
sequence of these N calls, applied to the visitor in that order. -/
theorem reflcmp.visit_dispatches_in_order {S V : Type} (heap : List (reflprop S))
    (cmp : reflcmp S) (objs : List (reflprop S))
    (h : cmp.props.map (fun p => heap[p]?) = objs.map some)
    (visitor : IReflPropertyVisitor S V) (v : V) :
    cmp.visit heap (recorder S) [] =
      some (objs.map (fun o => (⟨o.overload, o⟩ : VisitCall S))) ∧
    (objs.map (fun o => (⟨o.overload, o⟩ : VisitCall S))).length = cmp.props.length ∧
    cmp.visit heap visitor v = some (objs.foldl (fun w o => o.visit visitor w) v) := by
  refine ⟨?_, ?_, visit_each_fold heap visitor cmp.props objs v h⟩
  · unfold reflcmp.visit
    rw [visit_each_recorder heap cmp.props objs [] h]
    simp
  · have hl := congrArg List.length h
    simpa using hl.symm

/-- Witness for C1: a descriptor with a float property and an array property receives
the float overload, then the array overload. -/
theorem reflcmp.visit_dispatches_in_order_witness :
    example_cmp.visit [example_size_prop, example_items_prop, example_weight_prop]
        (recorder ℚ) [] =
      some [⟨.typed .float, example_size_prop⟩, ⟨.array, example_items_prop⟩] :=
  (reflcmp.visit_dispatches_in_order
    [example_size_prop, example_items_prop, example_weight_prop] example_cmp
    [example_size_prop, example_items_prop] rfl (recorder ℚ) []).1

/-- C9 (evaluation at the failing input): when `getReflComponent` returns null for the
component type, `getPropertyValue` calls `visit` through the null descriptor: the
behaviour is undefined, it does not return `false`. -/
theorem getPropertyValue_lookup_miss_is_undefined {S : Type}
    (getReflComponent : ComponentType → Option Ptr) (allocator : Allocator S) (T : PropType)
    (scene : S) (e : EntityRef) (cmp_type : ComponentType) (prop_name : String) :
    getPropertyValue (fun t => if t = cmp_type then none else getReflComponent t) allocator T
      scene e cmp_type prop_name = none := by
  simp [getPropertyValue]

/-- A successful lookup is in range. -/
theorem getElem?_some_lt {α : Type} (l : List α) (a : Nat) (x : α) (h : l[a]? = some x) :
    a < l.length := by
  by_contra hge
  rw [List.getElem?_eq_none (Nat.le_of_not_lt hge)] at h
  cases h

/-- The result of declaring a typed property when no array bracket is open. -/
theorem builder.push_typed_component {S : Type} (T : PropType) (q : refl_typed_prop S T)
    (b : builder S) (c : Nat) (d : reflcmp S)
    (harr : b.array = none) (hback : b.scene.cmps.getLast? = some c)
    (hd : b.allocator.cmps[c]? = some d) :
    builder.push_typed T q b =
      some { b with
        allocator :=
          { props := b.allocator.props ++ [reflprop.typed T q]
            cmps := b.allocator.cmps.set c
              { d with props := d.props ++ [b.allocator.props.length] } }
        last_prop := some b.allocator.props.length } := by
  simp [builder.push_typed, Allocator.new_prop, Allocator.push_prop, harr, hback, hd]

/-- The result of declaring a typed property inside an open array bracket. -/
theorem builder.push_typed_array {S : Type} (T : PropType) (q : refl_typed_prop S T)
    (b : builder S) (a : Nat) (arr : reflarrayprop S)
    (harr : b.array = some a) (ha : b.allocator.props[a]? = some (reflprop.array arr)) :
    builder.push_typed T q b =
      some { b with
        allocator :=
          { props := (b.allocator.props ++ [reflprop.typed T q]).set a
              (reflprop.array { arr with children := arr.children ++ [b.allocator.props.length] })
            cmps := b.allocator.cmps }
        last_prop := some b.allocator.props.length } := by
  have hlt : a < b.allocator.props.length := getElem?_some_lt _ _ _ ha
  have ha2 : (b.allocator.props ++ [reflprop.typed T q])[a]? = some (reflprop.array arr) := by
    rw [List.getElem?_append_left hlt]; exact ha
  simp [builder.push_typed, Allocator.new_prop, Allocator.push_child, harr, ha2]

/-- A successful typed-property declaration leaves the new object, unchanged, behind
`last_prop`, at the first free address. -/
theorem builder.push_typed_last {S : Type} (T : PropType) (q : refl_typed_prop S T)
    (b b1 : builder S) (h : builder.push_typed T q b = some b1) :
    b1.last_prop = some b.allocator.props.length ∧
    b1.allocator.props[b.allocator.props.length]? = some (reflprop.typed T q) := by
  cases harr : b.array with
  | none =>
    cases hback : b.scene.cmps.getLast? with
    | none => simp [builder.push_typed, Allocator.new_prop, harr, hback] at h
    | some c =>
      cases hd : b.allocator.cmps[c]? with
      | none =>
        simp [builder.push_typed, Allocator.new_prop, Allocator.push_prop, harr, hback, hd] at h
      | some d =>
        rw [builder.push_typed_component T q b c d harr hback hd] at h
        cases h
        simp
  | some a =>
    cases ha : b.allocator.props[a]? with
    | none =>
      have hge : b.allocator.props.length ≤ a := by
        by_contra hlt
        rw [List.getElem?_eq_getElem (Nat.lt_of_not_le hlt)] at ha
        cases ha
      exfalso
      rcases Nat.eq_or_lt_of_le hge with heq | hgt
      · simp [builder.push_typed, Allocator.new_prop, Allocator.push_child, harr, ← heq] at h
      · have hnone : (b.allocator.props ++ [reflprop.typed T q])[a]? = none := by
          apply List.getElem?_eq_none
          simp only [List.length_append, List.length_singleton]
          exact hgt
        simp [builder.push_typed, Allocator.new_prop, Allocator.push_child, harr, hnone] at h
    | some o =>
      have hlt : a < b.allocator.props.length := getElem?_some_lt _ _ _ ha
      cases o with
      | typed T2 q2 =>
        have ha2 : (b.allocator.props ++ [reflprop.typed T q])[a]? =
            some (reflprop.typed T2 q2) := by
          rw [List.getElem?_append_left hlt]; exact ha
        simp [builder.push_typed, Allocator.new_prop, Allocator.push_child, harr, ha2] at h
      | array arr =>
        rw [builder.push_typed_array T q b a arr harr ha] at h
        cases h
        have hne : a ≠ b.allocator.props.length := Nat.ne_of_lt hlt
        simp [List.getElem?_set_ne hne]

/-- C3 (amended): a property registered through `prop<Getter, Setter>` stores nothing
itself. `set(cmp, idx, v)` passes `v` to the bound setter, called with `(entity, value)`
if it takes two arguments and with `(entity, idx, value)` otherwise, and `get(cmp, idx)`
returns what the bound getter returns, called with `(entity)` if it takes one argument and
with `(entity, idx)` otherwise. So `get` after `set` returns the value set, for every
component, index and value, exactly when the bound getter, called that way, reads back what
the bound setter, called that way, stored. -/
theorem builder.prop_get_after_set_iff {S : Type} (T : PropType) (G : GetterFn S T.Val)
    (St : SetterFn S T.Val) (name : String) (b : builder S)
    (h : (builder.prop T G St name b).isSome = true) :
    (builder.prop T G St name b).bind (fun b1 => b1.allocator.props[b.allocator.props.length]?) =
      some (reflprop.typed T
        { attributes := [], name := name, setter := refl_typed_prop.setterHelper St,
          getter := refl_typed_prop.getterHelper G }) ∧
    (∃ q : refl_typed_prop S T,
      (builder.prop T G St name b).bind
          (fun b1 => b1.allocator.props[b.allocator.props.length]?) =
        some (reflprop.typed T q) ∧
      q.name = name ∧
      (∀ f, St = SetterFn.args2 f → ∀ (cmp : ComponentUID S) (idx : Nat) (v : T.Val),
        q.set cmp idx v = f cmp.scene cmp.entity.toRef v) ∧
      (∀ f, St = SetterFn.args3 f → ∀ (cmp : ComponentUID S) (idx : Nat) (v : T.Val),
        q.set cmp idx v = f cmp.scene cmp.entity.toRef idx v) ∧
      (∀ g, G = GetterFn.args1 g → ∀ (cmp : ComponentUID S) (idx : Nat),
        q.get cmp idx = g cmp.scene cmp.entity.toRef) ∧
      (∀ g, G = GetterFn.args2 g → ∀ (cmp : ComponentUID S) (idx : Nat),
        q.get cmp idx = g cmp.scene cmp.entity.toRef idx) ∧
      ((∀ (cmp : ComponentUID S) (idx : Nat) (v : T.Val),
          q.get { cmp with scene := q.set cmp idx v } idx = v) ↔
        (∀ (scene : S) (e : EntityRef) (idx : Nat) (v : T.Val),
          (match G with
            | .args1 g =>
              g (match St with
                  | .args2 f => f scene e v
                  | .args3 f => f scene e idx v) e
            | .args2 g =>
              g (match St with
                  | .args2 f => f scene e v
                  | .args3 f => f scene e idx v) e idx) = v))) ∧
    ((∀ (cmp : ComponentUID S) (idx : Nat) (v : T.Val),
        ({ attributes := [], name := name, setter := refl_typed_prop.setterHelper St,
           getter := refl_typed_prop.getterHelper G } : refl_typed_prop S T).get
          { cmp with scene :=
              ({ attributes := [], name := name, setter := refl_typed_prop.setterHelper St,
                 getter := refl_typed_prop.getterHelper G } : refl_typed_prop S T).set cmp idx v }
          idx = v) ↔
      (∀ (scene : S) (e : EntityRef) (idx : Nat) (v : T.Val),
        refl_typed_prop.getterHelper G (refl_typed_prop.setterHelper St scene e idx v) e idx = v)) := by
  have hreg : (builder.prop T G St name b).bind
      (fun b1 => b1.allocator.props[b.allocator.props.length]?) =
      some (reflprop.typed T
        { attributes := [], name := name, setter := refl_typed_prop.setterHelper St,
          getter := refl_typed_prop.getterHelper G }) := by
    obtain ⟨b1, hb1⟩ := Option.isSome_iff_exists.mp h
    have hl := builder.push_typed_last T _ b b1 hb1
    rw [hb1]
    exact hl.2
  refine ⟨hreg, ⟨_, hreg, rfl, ?_, ?_, ?_, ?_, ?_⟩, ?_⟩
  · intro f hf cmp idx v
    subst hf
    rfl
  · intro f hf cmp idx v
    subst hf
    rfl
  · intro g hg cmp idx
    subst hg
    rfl
  · intro g hg cmp idx
    subst hg
    rfl
  · constructor
    · intro hq scene e idx v
      have h1 := hq { entity := ⟨e.index⟩, type := 0, scene := scene } idx v
      cases St <;> cases G <;> exact h1
    · intro hb cmp idx v
      have h1 := hb cmp.scene cmp.entity.toRef idx v
      cases St <;> cases G <;> exact h1
  · constructor
    · intro hq scene e idx v
      have := hq { entity := ⟨e.index⟩, type := 0, scene := scene } idx v
      simpa [refl_typed_prop.get, refl_typed_prop.set, EntityPtr.toRef] using this
    · intro hb cmp idx v
      simpa [refl_typed_prop.get, refl_typed_prop.set] using hb cmp.scene cmp.entity.toRef idx v

/-- Witness for C3 (amended): the float property `size` registered over a getter and a
setter that stores the value as given. -/
theorem builder.prop_get_after_set_iff_witness :
    (builder.prop .float example_getSize example_setSize "size" example_box_state).bind
        (fun b1 => b1.allocator.props[0]?) =
      some (reflprop.typed .float
        { attributes := [], name := "size",
          setter := refl_typed_prop.setterHelper example_setSize,
          getter := refl_typed_prop.getterHelper example_getSize }) :=
  (builder.prop_get_after_set_iff .float example_getSize example_setSize "size"
    example_box_state rfl).1

/-- The written-out state is the one the registration chain reaches. -/
theorem example_box_eq : example_box = some example_box_state := rfl

/-- C3 (counterexample): the float property `size` registered through `prop` over a
getter and a setter that clamps negative sizes to zero reads `0` after `set(cmp, 0, -1)`. -/
theorem builder.prop_get_after_set_counterexample :
    (((example_box.bind (builder.prop .float example_getSize example_setSizeClamped "size")).bind
        (fun b => b.allocator.props[0]?)).bind reflprop.as_float).map
      (fun q => q.get { entity := ⟨1⟩, type := 4,
                        scene := q.set { entity := ⟨1⟩, type := 4, scene := (5 : ℚ) } 0 (-1 : ℚ) } 0)
      = some (0 : ℚ) ∧
    (0 : ℚ) ≠ -1 := by
  constructor
  · rfl
  · norm_num

/-- A typed-property declaration succeeds on a state with a declared component and a
well-typed array cursor, and has the effect of the applicable case. -/
theorem builder.push_typed_appended {S : Type} (T : PropType) (q : refl_typed_prop S T)
    (hattr : q.attributes = []) (b : builder S) (c : Nat)
    (hback : b.scene.cmps.getLast? = some c) (hc : c < b.allocator.cmps.length)
    (harr : ∀ a : Nat, b.array = some a →
      ∃ arr, b.allocator.props[a]? = some (reflprop.array arr)) :
    ∃ b1, builder.push_typed T q b = some b1 ∧
      (b.array = none → builder.AppendedToComponent b b1 c q.name) ∧
      (∀ a : Nat, b.array = some a → builder.AppendedToArray b b1 a q.name) := by
  cases hA : b.array with
  | none =>
    have hd : b.allocator.cmps[c]? = some (b.allocator.cmps[c]) := List.getElem?_eq_getElem hc
    refine ⟨_, builder.push_typed_component T q b c _ hA hback hd, ?_, ?_⟩
    · intro _
      refine ⟨⟨T, q, rfl, hattr, rfl⟩, ?_, ?_, ?_, rfl, ?_, rfl⟩
      · intro a arr ha
        have hlt := getElem?_some_lt _ _ _ ha
        simp only [List.getElem?_append_left hlt]
        exact ha
      · simp [List.getElem?_set_self hc, hd]
      · intro c2 hne
        simp [List.getElem?_set_ne (Ne.symm hne)]
      · simp [hA]
    · intro a ha
      cases ha
  | some a =>
    obtain ⟨arr, ha⟩ := harr a hA
    have hlt := getElem?_some_lt _ _ _ ha
    refine ⟨_, builder.push_typed_array T q b a arr hA ha, ?_, ?_⟩
    · intro h
      cases h
    · intro a2 ha2
      cases ha2
      have hne : a ≠ b.allocator.props.length := Nat.ne_of_lt hlt
      refine ⟨⟨T, q, rfl, hattr, ?_⟩, ?_, ?_, ?_, rfl, rfl, ?_, rfl⟩
      · simp [List.getElem?_set_ne hne]
      · simp
      · have hlt2 : a < (b.allocator.props ++ [reflprop.typed T q]).length := by
          simp only [List.length_append, List.length_singleton]
          exact Nat.lt_succ_of_lt hlt
        simp [List.getElem?_set_self hlt2, ha, reflprop.children]
      · intro a2 hne2 hlt2
        simp only [List.getElem?_set_ne (Ne.symm hne2), List.getElem?_append_left hlt2]
      · simp [hA]

/-- The result of `begin_array` on a state whose most recent component is `c`. -/
theorem builder.begin_array_eq {S : Type} (Counter : S → EntityRef → Nat)
    (Adder Remover : S → EntityRef → Nat → S) (name : String) (b : builder S) (c : Nat)
    (d : reflcmp S) (hback : b.scene.cmps.getLast? = some c)
    (hd : b.allocator.cmps[c]? = some d) :
    builder.begin_array Counter Adder Remover name b =
      some { b with
        allocator :=
          { props := b.allocator.props ++
              [reflprop.array { attributes := [], name := name, children := [],
                                counter := Counter, adder := Adder, remover := Remover }]
            cmps := b.allocator.cmps.set c
              { d with props := d.props ++ [b.allocator.props.length] } }
        array := some b.allocator.props.length
        last_prop := some b.allocator.props.length } := by
  simp [builder.begin_array, Allocator.new_prop, Allocator.push_prop, hback, hd]

/-- C2: on every builder state with a declared component (and a well-typed array cursor),
`prop`, `var_prop` and `enum_prop` succeed and append exactly one typed property: with no
array bracket open, at the end of the props of the most recently declared component, no
array's children changing; with a bracket open, at the end of that array's children, no
props list changing. In particular `begin_array("items")`, `prop("weight")`, `end_array()`
yields an array whose children are the single new property `weight`, which is not among
the props of the component. -/
theorem builder.typed_prop_appended {S Obj : Type} (b : builder S) (c : Nat)
    (hback : b.scene.cmps.getLast? = some c) (hc : c < b.allocator.cmps.length)
    (harr : ∀ a : Nat, b.array = some a →
      ∃ arr, b.allocator.props[a]? = some (reflprop.array arr))
    (hown : ∀ d, b.allocator.cmps[c]? = some d → ∀ p ∈ d.props, p < b.allocator.props.length)
    (T : PropType) (G : GetterFn S T.Val) (St : SetterFn S T.Val)
    (T2 : PropType) (Gr : RefGetterFn S Obj) (Pg : MemberPtr Obj T2.Val)
    (E : builder.EnumType) (Ge : GetterFn S E.E) (Se : SetterFn S E.E) (name : String)
    (Counter : S → EntityRef → Nat) (Adder Remover : S → EntityRef → Nat → S) :
    (∀ r, (r = builder.prop T G St name b ∨ r = builder.var_prop T2 Gr Pg name b ∨
          r = builder.enum_prop E Ge Se name b) →
      ∃ b1, r = some b1 ∧
        (b.array = none → builder.AppendedToComponent b b1 c name) ∧
        (∀ a : Nat, b.array = some a → builder.AppendedToArray b b1 a name)) ∧
    (∃ b3, ((builder.begin_array Counter Adder Remover "items" b).bind
              (builder.prop T G St "weight")).bind builder.end_array = some b3 ∧
      (b3.allocator.props[b.allocator.props.length]?).map reflprop.children =
        some [b.allocator.props.length + 1] ∧
      (∃ q : refl_typed_prop S T, q.name = "weight" ∧
        b3.allocator.props[b.allocator.props.length + 1]? = some (reflprop.typed T q)) ∧
      (b3.allocator.cmps[c]?).map (fun d => d.props) =
        (b.allocator.cmps[c]?).map (fun d => d.props ++ [b.allocator.props.length]) ∧
      (∀ d, b3.allocator.cmps[c]? = some d → b.allocator.props.length + 1 ∉ d.props)) := by
  constructor
  · intro r hr
    rcases hr with h | h | h
    · subst h
      exact builder.push_typed_appended T _ rfl b c hback hc harr
    · subst h
      exact builder.push_typed_appended T2 _ rfl b c hback hc harr
    · subst h
      exact builder.push_typed_appended .int _ rfl b c hback hc harr
  · have hd : b.allocator.cmps[c]? = some (b.allocator.cmps[c]) := List.getElem?_eq_getElem hc
    obtain ⟨b1, hb1, hA1, hP1, hC1⟩ : ∃ b1 : builder S,
        builder.begin_array Counter Adder Remover "items" b = some b1 ∧
        b1.array = some b.allocator.props.length ∧
        b1.allocator.props = b.allocator.props ++
          [reflprop.array { attributes := [], name := "items", children := [],
                            counter := Counter, adder := Adder, remover := Remover }] ∧
        b1.allocator.cmps = b.allocator.cmps.set c
          { b.allocator.cmps[c] with
            props := (b.allocator.cmps[c]).props ++ [b.allocator.props.length] } :=
      ⟨_, builder.begin_array_eq Counter Adder Remover "items" b c _ hback hd, rfl, rfl, rfl⟩
    have hobj : b1.allocator.props[b.allocator.props.length]? =
        some (reflprop.array { attributes := [], name := "items", children := [],
                               counter := Counter, adder := Adder, remover := Remover }) := by
      rw [hP1]; simp
    have h2 : builder.prop T G St "weight" b1 = _ :=
      builder.push_typed_array T
        { attributes := [], name := "weight", setter := refl_typed_prop.setterHelper St,
          getter := refl_typed_prop.getterHelper G } b1 b.allocator.props.length _ hA1 hobj
    have hlen1 : b1.allocator.props.length = b.allocator.props.length + 1 := by
      rw [hP1]; simp
    have hlt1 : b.allocator.props.length <
        (b1.allocator.props ++
          [reflprop.typed T
            { attributes := [], name := "weight", setter := refl_typed_prop.setterHelper St,
              getter := refl_typed_prop.getterHelper G }]).length := by
      simp only [List.length_append, List.length_singleton, hlen1]
      exact Nat.lt_succ_of_lt (Nat.lt_succ_self _)
    rw [hb1, Option.some_bind, h2, Option.some_bind]
    refine ⟨_, rfl, ?_, ?_, ?_, ?_⟩
    · show Option.map reflprop.children (((b1.allocator.props ++ [_]).set _ _)[_]?) = _
      rw [List.getElem?_set_self hlt1]
      simp [reflprop.children, hlen1]
    · refine ⟨{ attributes := [], name := "weight", setter := refl_typed_prop.setterHelper St,
                getter := refl_typed_prop.getterHelper G }, rfl, ?_⟩
      show ((b1.allocator.props ++ [_]).set _ _)[_]? = _
      rw [List.getElem?_set_ne (Nat.ne_of_lt (Nat.lt_succ_self _))]
      have hnew := List.getElem?_concat_length b1.allocator.props
        (reflprop.typed T
          { attributes := [], name := "weight", setter := refl_typed_prop.setterHelper St,
            getter := refl_typed_prop.getterHelper G })
      rw [hlen1] at hnew
      exact hnew
    · show Option.map (fun d => d.props) (b1.allocator.cmps[c]?) = _
      rw [hC1, List.getElem?_set_self hc, hd]
      rfl
    · intro d hd3
      have hd4 : b1.allocator.cmps[c]? = some d := hd3
      rw [hC1, List.getElem?_set_self hc] at hd4
      cases hd4
      simp only [List.mem_append, List.mem_singleton, not_or]
      constructor
      · intro hmem
        have hlt := hown _ hd _ hmem
        exact absurd hlt (Nat.not_lt.mpr (Nat.le_succ _))
      · exact Nat.succ_ne_self _

/-- Witness for C2: on the state with the single component `box`,
`begin_array("items")`, `prop("weight")`, `end_array()` leaves the array at address 0 with
the single child at address 1. -/
theorem builder.typed_prop_appended_witness :
    (((builder.begin_array (fun _ _ => 0) (fun s _ _ => s) (fun s _ _ => s) "items"
          example_box_state).bind
        (builder.prop .float example_getSize example_setSize "weight")).bind
      builder.end_array).bind (fun b3 => (b3.allocator.props[0]?).map reflprop.children) =
      some [1] := by
  obtain ⟨b3, h, hch, -⟩ :=
    (@builder.typed_prop_appended ℚ ℚ example_box_state 0 rfl Nat.zero_lt_one
      (fun a h => by cases h)
      (fun d hd p hp => by
        have hd2 : some (example_box_state.allocator.cmps[0]) = some d := hd
        cases hd2
        cases hp)
      .float example_getSize example_setSize .float example_ref_getter example_member_ptr
      example_enum (.args1 (fun _ _ => true)) (.args2 (fun s _ _ => s)) "size"
      (fun _ _ => 0) (fun s _ _ => s) (fun s _ _ => s)).2
  rw [h]
  exact hch

/-- The result of an attribute call when `last_prop` points to a property object. -/
theorem builder.push_attribute_eq {S : Type} (a : IAttribute S) (b : builder S) (p : Nat)
    (hlast : b.last_prop = some p) (hp : p < b.allocator.props.length) :
    builder.push_attribute a b =
      some { b with allocator :=
        { b.allocator with
          props := b.allocator.props.set p ((b.allocator.props[p]).push_attribute a) } } := by
  have hq : b.allocator.props[p]? = some (b.allocator.props[p]) := List.getElem?_eq_getElem hp
  simp [builder.push_attribute, Allocator.push_attribute, hlast, hq]

/-- An attribute call succeeds when `last_prop` points to a property object, and appends
the attribute to that property only. -/
theorem builder.push_attribute_appended {S : Type} (a : IAttribute S) (b : builder S) (p : Nat)
    (hlast : b.last_prop = some p) (hp : p < b.allocator.props.length) :
    ∃ b1, builder.push_attribute a b = some b1 ∧ builder.AttributeAppended b b1 p a := by
  have hq : b.allocator.props[p]? = some (b.allocator.props[p]) := List.getElem?_eq_getElem hp
  refine ⟨_, builder.push_attribute_eq a b p hlast hp, ?_, ?_, ?_, ?_, ?_, ?_, rfl, rfl, rfl, rfl⟩
  · show Option.map reflprop.attributes ((b.allocator.props.set p _)[p]?) = _
    rw [List.getElem?_set_self hp, hq]
    cases b.allocator.props[p] <;> rfl
  · show Option.map reflprop.children ((b.allocator.props.set p _)[p]?) = _
    rw [List.getElem?_set_self hp, hq]
    cases b.allocator.props[p] <;> rfl
  · show Option.map reflprop.name ((b.allocator.props.set p _)[p]?) = _
    rw [List.getElem?_set_self hp, hq]
    cases b.allocator.props[p] <;> rfl
  · show Option.map reflprop.overload ((b.allocator.props.set p _)[p]?) = _
    rw [List.getElem?_set_self hp, hq]
    cases b.allocator.props[p] <;> rfl
  · intro p2 hne
    show (b.allocator.props.set p _)[p2]? = _
    rw [List.getElem?_set_ne (Ne.symm hne)]
  · show (b.allocator.props.set p _).length = _
    rw [List.length_set]

/-- The result of `cmp`: a new descriptor behind the existing ones, registered and
appended to the scene. -/
theorem builder.cmp_eq {S : Type} (ext : Externals) (Creator Destroyer : S → EntityRef → S)
    (name label : String) (b : builder S) :
    builder.cmp ext Creator Destroyer name label b =
      some { b with
        allocator :=
          { props := b.allocator.props
            cmps := b.allocator.cmps ++
              [{ icon := "", name := name, label := label, scene := ext.crc32 b.scene.name,
                 creator := Creator, destroyer := Destroyer,
                 component_type := ext.getComponentType name, props := [], functions := [] }] }
        scene := { b.scene with cmps := b.scene.cmps ++ [b.allocator.cmps.length] }
        registered := (ext.getComponentType name, b.allocator.cmps.length) :: b.registered } := by
  simp [builder.cmp, builder.registerCmp, Allocator.new_cmp]

/-- On the types where the two overload sets correspond, an assigned Variant carries the
tag of `getVariantType` and `fromVariant` reads the assigned value back. -/
theorem Variant.assign_round_trip (self v : Variant) (T : NativeType) (x : T.Val)
    (hT : T.tag_agrees = true) (h : self.assign T x = some v) :
    v.type = _getVariantType T ∧ fromVariant 0 [v] T = some x := by
  cases T with
  | ptr pointee pointee_const =>
    cases pointee <;> cases pointee_const <;>
      first
      | (cases hT; done)
      | (cases h; exact ⟨rfl, rfl⟩)
  | void => cases h
  | path => cases h
  | _ => cases h; exact ⟨rfl, rfl⟩

/-- On the return types where the two overload sets correspond, a Variant returned by
`invoke` carries the tag of `getReturnType`. -/
theorem Function.invoke_type_of_tag_agrees {C : Type} (fn : Function C) (obj : C)
    (args : List Variant) (r : C × Variant) (hR : fn.R.base.tag_agrees = true)
    (h : fn.invoke obj args = some r) : r.2.type = fn.getReturnType := by
  have hcall : ∀ f : MemberFn C fn.R.base,
      VariantCaller.call fn.Args fn.R obj f args (BuildIndices (-1) fn.Args.length) = some r →
      r.2.type = getVariantType fn.R := by
    intro f hc
    unfold VariantCaller.call at hc
    split at hc
    · rename_i hvoid
      cases hu : VariantCaller.unpack args fn.Args (BuildIndices (-1) fn.Args.length) with
      | none => simp [hu] at hc
      | some xs =>
        simp only [hu, Option.some.injEq] at hc
        subst hc
        have hg : getVariantType fn.R = VariantType.VOID := by
          rw [congrArg getVariantType hvoid]
          rfl
        rw [hg]
    · cases hu : VariantCaller.unpack args fn.Args (BuildIndices (-1) fn.Args.length) with
      | none => simp [hu] at hc
      | some xs =>
        simp only [hu] at hc
        cases ha : Variant.ctor.assign fn.R.base (f.invoke obj xs).2 with
        | none => simp [ha] at hc
        | some v =>
          simp only [ha, Option.some.injEq] at hc
          subst hc
          exact (Variant.assign_round_trip _ v fn.R.base _ hR ha).1
  unfold Function.invoke at h
  unfold Function.getReturnType
  cases hf : fn.function with
  | nonconst_ f => rw [hf] at h; exact hcall _ h
  | const_ f => rw [hf] at h; exact hcall _ h

/-- A successful `begin_array` leaves the new array object behind `last_prop`, at the
first free address. -/
theorem builder.begin_array_last {S : Type} (Counter : S → EntityRef → Nat)
    (Adder Remover : S → EntityRef → Nat → S) (name : String) (b b1 : builder S)
    (h : builder.begin_array Counter Adder Remover name b = some b1) :
    b1.last_prop = some b.allocator.props.length ∧
    b.allocator.props.length < b1.allocator.props.length ∧
    b1.allocator.props[b.allocator.props.length]? =
      some (reflprop.array { attributes := [], name := name, children := [],
                             counter := Counter, adder := Adder, remover := Remover }) := by
  cases hback : b.scene.cmps.getLast? with
  | none => simp [builder.begin_array, Allocator.new_prop, hback] at h
  | some c =>
    cases hd : b.allocator.cmps[c]? with
    | none =>
      simp [builder.begin_array, Allocator.new_prop, Allocator.push_prop, hback, hd] at h
    | some d =>
      rw [builder.begin_array_eq Counter Adder Remover name b c d hback hd] at h
      cases h
      refine ⟨rfl, ?_, List.getElem?_concat_length _ _⟩
      simp only [List.length_append, List.length_singleton]
      exact Nat.lt_succ_self _

/-- C10 (counterexample): `cmp("box")`, `prop("size")`, `begin_array("items")`,
`prop("weight")`, `end_array()`, `minAttribute(0.0)`: the attribute call is made after
property declarations, three property objects exist, but `end_array` has cleared
`last_prop`, so the call dereferences null and appends no attribute to any property. -/
theorem builder.attribute_after_end_array_counterexample :
    (((((example_box.bind (builder.prop .float example_getSize example_setSize "size")).bind
          (builder.begin_array (fun _ _ => 0) (fun s _ _ => s) (fun s _ _ => s) "items")).bind
        (builder.prop .float example_getSize example_setSize "weight")).bind
      builder.end_array).map
        (fun b => (b.allocator.props.map reflprop.name, b.last_prop))) =
      some (["size", "items", "weight"], none) ∧
    (((((example_box.bind (builder.prop .float example_getSize example_setSize "size")).bind
          (builder.begin_array (fun _ _ => 0) (fun s _ _ => s) (fun s _ _ => s) "items")).bind
        (builder.prop .float example_getSize example_setSize "weight")).bind
      builder.end_array).bind (builder.minAttribute 0)) = none := by
  constructor
  · rfl
  · rfl

/-- C10 (amended): every successful property declaration (`prop`, `var_prop`, `enum_prop`,
`begin_array`) leaves `last_prop` pointing to the property object it declared, and an
attribute call keeps `last_prop`. In a state where `last_prop` points to a property object,
each of the eight attribute calls succeeds and appends exactly one attribute of its own
kind, carrying the given parameters, to the attribute list of that property; it changes no
other property's attributes and no props or children list. So `cmp("box")`, `prop("size")`,
`minAttribute(0.0)`, started with no array bracket open, leaves the new component with the
single property `size`, whose only attribute is `MinAttribute` with `min = 0.0`. -/
theorem builder.attribute_appended {S : Type} (b : builder S) (p : Nat)
    (hlast : b.last_prop = some p) (hp : p < b.allocator.props.length)
    (value min max : float) (type : ResourceType) (T : IAttribute S)
    (ext : Externals) (Creator Destroyer : S → EntityRef → S) (label : String)
    (G : GetterFn S ℚ) (St : SetterFn S ℚ) :
    (∃ b1, builder.minAttribute value b = some b1 ∧
      builder.AttributeAppended b b1 p (.MinAttribute value)) ∧
    (∃ b1, builder.clampAttribute min max b = some b1 ∧
      builder.AttributeAppended b b1 p (.ClampAttribute min max)) ∧
    (∃ b1, builder.resourceAttribute type b = some b1 ∧
      builder.AttributeAppended b b1 p (.ResourceAttribute type)) ∧
    (∃ b1, builder.radiansAttribute b = some b1 ∧
      builder.AttributeAppended b b1 p .RadiansAttribute) ∧
    (∃ b1, builder.colorAttribute b = some b1 ∧
      builder.AttributeAppended b b1 p .ColorAttribute) ∧
    (∃ b1, builder.noUIAttribute b = some b1 ∧
      builder.AttributeAppended b b1 p .NoUIAttribute) ∧
    (∃ b1, builder.multilineAttribute b = some b1 ∧
      builder.AttributeAppended b b1 p .MultilineAttribute) ∧
    (∃ b1, builder.enumAttribute T b = some b1 ∧ builder.AttributeAppended b b1 p T) ∧
    (IAttribute.MinAttribute value : IAttribute S).getType = .MIN ∧
    (IAttribute.ClampAttribute min max : IAttribute S).getType = .CLAMP ∧
    (IAttribute.ResourceAttribute type : IAttribute S).getType = .RESOURCE ∧
    (IAttribute.RadiansAttribute : IAttribute S).getType = .RADIANS ∧
    (IAttribute.ColorAttribute : IAttribute S).getType = .COLOR ∧
    (IAttribute.NoUIAttribute : IAttribute S).getType = .NO_UI ∧
    (IAttribute.MultilineAttribute : IAttribute S).getType = .MULTILINE ∧
    (∀ (b0 bd : builder S) (name : String),
      (∃ (T0 : PropType) (G0 : GetterFn S T0.Val) (St0 : SetterFn S T0.Val),
          builder.prop T0 G0 St0 name b0 = some bd) ∨
      (∃ (Obj : Type) (T0 : PropType) (Gr : RefGetterFn S Obj) (Pg : MemberPtr Obj T0.Val),
          builder.var_prop T0 Gr Pg name b0 = some bd) ∨
      (∃ (E : builder.EnumType) (Ge : GetterFn S E.E) (Se : SetterFn S E.E),
          builder.enum_prop E Ge Se name b0 = some bd) ∨
      (∃ (Counter : S → EntityRef → Nat) (Adder Remover : S → EntityRef → Nat → S),
          builder.begin_array Counter Adder Remover name b0 = some bd) →
      bd.last_prop = some b0.allocator.props.length ∧
      b0.allocator.props.length < bd.allocator.props.length ∧
      (bd.allocator.props[b0.allocator.props.length]?).map reflprop.name = some name) ∧
    (∀ b0 : builder S, b0.array = none →
      ∃ b3, ((builder.cmp ext Creator Destroyer "box" label b0).bind
              (builder.prop .float G St "size")).bind (builder.minAttribute 0) = some b3 ∧
        (b3.allocator.cmps[b0.allocator.cmps.length]?).map (fun d => d.props) =
          some [b0.allocator.props.length] ∧
        (b3.allocator.cmps[b0.allocator.cmps.length]?).map (fun d => d.props.length) =
          some 1 ∧
        (b3.allocator.props[b0.allocator.props.length]?).map reflprop.attributes =
          some [IAttribute.MinAttribute 0] ∧
        (b3.allocator.props[b0.allocator.props.length]?).map reflprop.name = some "size") := by
  refine ⟨builder.push_attribute_appended _ b p hlast hp,
    builder.push_attribute_appended _ b p hlast hp,
    builder.push_attribute_appended _ b p hlast hp,
    builder.push_attribute_appended _ b p hlast hp,
    builder.push_attribute_appended _ b p hlast hp,
    builder.push_attribute_appended _ b p hlast hp,
    builder.push_attribute_appended _ b p hlast hp,
    builder.push_attribute_appended _ b p hlast hp,
    rfl, rfl, rfl, rfl, rfl, rfl, rfl, ?_, ?_⟩
  · intro b0 bd name hdecl
    have htyped : ∀ (T0 : PropType) (q : refl_typed_prop S T0), q.name = name →
        builder.push_typed T0 q b0 = some bd →
        bd.last_prop = some b0.allocator.props.length ∧
        b0.allocator.props.length < bd.allocator.props.length ∧
        (bd.allocator.props[b0.allocator.props.length]?).map reflprop.name = some name := by
      intro T0 q hq hpush
      obtain ⟨hl, ho⟩ := builder.push_typed_last T0 q b0 bd hpush
      refine ⟨hl, getElem?_some_lt _ _ _ ho, ?_⟩
      rw [ho]
      exact congrArg some hq
    rcases hdecl with ⟨T0, G0, St0, h⟩ | ⟨Obj, T0, Gr, Pg, h⟩ | ⟨E, Ge, Se, h⟩ | ⟨Cn, Ad, Rm, h⟩
    · exact htyped T0 _ rfl h
    · exact htyped T0 _ rfl h
    · exact htyped .int _ rfl h
    · obtain ⟨hl, hlt, ho⟩ := builder.begin_array_last Cn Ad Rm name b0 bd h
      refine ⟨hl, hlt, ?_⟩
      rw [ho]
      rfl
  intro b0 h0
  obtain ⟨b1, hb1, hA1, hL1, hP1, hC1⟩ : ∃ b1 : builder S,
      builder.cmp ext Creator Destroyer "box" label b0 = some b1 ∧
      b1.array = none ∧
      b1.scene.cmps.getLast? = some b0.allocator.cmps.length ∧
      b1.allocator.props = b0.allocator.props ∧
      b1.allocator.cmps = b0.allocator.cmps ++
        [{ icon := "", name := "box", label := label, scene := ext.crc32 b0.scene.name,
           creator := Creator, destroyer := Destroyer,
           component_type := ext.getComponentType "box", props := [], functions := [] }] :=
    ⟨_, builder.cmp_eq ext Creator Destroyer "box" label b0, h0, List.getLast?_concat _, rfl, rfl⟩
  have hd1 : b1.allocator.cmps[b0.allocator.cmps.length]? =
      some { icon := "", name := "box", label := label, scene := ext.crc32 b0.scene.name,
             creator := Creator, destroyer := Destroyer,
             component_type := ext.getComponentType "box", props := [], functions := [] } := by
    rw [hC1]; exact List.getElem?_concat_length _ _
  obtain ⟨b2, hb2, hL2, hP2, hC2⟩ : ∃ b2 : builder S,
      builder.prop .float G St "size" b1 = some b2 ∧
      b2.last_prop = some b1.allocator.props.length ∧
      b2.allocator.props = b1.allocator.props ++
        [reflprop.typed .float
          { attributes := [], name := "size", setter := refl_typed_prop.setterHelper St,
            getter := refl_typed_prop.getterHelper G }] ∧
      b2.allocator.cmps = b1.allocator.cmps.set b0.allocator.cmps.length
        { icon := "", name := "box", label := label, scene := ext.crc32 b0.scene.name,
          creator := Creator, destroyer := Destroyer,
          component_type := ext.getComponentType "box",
          props := [] ++ [b1.allocator.props.length], functions := [] } :=
    ⟨_, builder.push_typed_component .float _ b1 _ _ hA1 hL1 hd1, rfl, rfl, rfl⟩
  have hlen2 : b1.allocator.props.length < b2.allocator.props.length := by
    rw [hP2]
    simp only [List.length_append, List.length_singleton]
    exact Nat.lt_succ_self _
  obtain ⟨b3, hb3, hat, -, hnm, -, -, -, hcm, -⟩ :=
    builder.push_attribute_appended (IAttribute.MinAttribute (0 : ℚ)) b2 _ hL2 hlen2
  have hobj : b2.allocator.props[b1.allocator.props.length]? =
      some (reflprop.typed .float
        { attributes := [], name := "size", setter := refl_typed_prop.setterHelper St,
          getter := refl_typed_prop.getterHelper G }) := by
    rw [hP2]; exact List.getElem?_concat_length _ _
  have hlenc : b0.allocator.cmps.length < b1.allocator.cmps.length := by
    rw [hC1]
    simp only [List.length_append, List.length_singleton]
    exact Nat.lt_succ_self _
  have hb3m : builder.minAttribute 0 b2 = some b3 := hb3
  rw [hb1, Option.some_bind, hb2, Option.some_bind, hb3m]
  rw [hP1] at hat hnm hobj
  rw [hobj] at hat hnm
  refine ⟨b3, rfl, ?_, ?_, hat, hnm⟩
  · rw [hcm, hC2, List.getElem?_set_self hlenc, hP1]
    rfl
  · rw [hcm, hC2, List.getElem?_set_self hlenc]
    rfl

/-- Witness for C10 (amended): `cmp("box")`, `prop("size")`, `minAttribute(0.0)` on the scene
`test_scene` leaves the property `size` with the single attribute `MinAttribute(0.0)`. -/
theorem builder.attribute_appended_witness :
    ((example_box.bind (builder.prop .float example_getSize example_setSize "size")).bind
        (builder.minAttribute 0)).bind
      (fun b3 => (b3.allocator.props[0]?).map reflprop.attributes) =
      some [IAttribute.MinAttribute 0] := by
  obtain ⟨b3, h, -, -, hat, -⟩ :=
    (builder.attribute_appended
      { example_box_state with
        allocator := { example_box_state.allocator with props := [example_size_prop] }
        last_prop := some 0 }
      0 rfl Nat.zero_lt_one 0 0 1 0 .ColorAttribute example_ext (fun s _ => s) (fun s _ => s)
      "Box" example_getSize example_setSize).2.2.2.2.2.2.2.2.2.2.2.2.2.2.2.2
      (build_scene "test_scene") rfl
  have h2 : (example_box.bind (builder.prop .float example_getSize example_setSize "size")).bind
      (builder.minAttribute 0) = some b3 := h
  rw [h2]
  exact hat

/-- C11: `function<F>(name, decl_code)` builds one wrapper with the given name and
declaration string. With no component declared it is appended to the functions of the
scene descriptor and nothing else changes; with a component declared it is appended to the
functions of the most recently declared component, and the scene descriptor's functions,
every other component, the props of that component and every property object are
unchanged. -/
theorem builder.function_attached {S : Type} (R : QualType) (Args : List QualType)
    (F : MemberFn S R.base) (name decl_code : String) (b : builder S) :
    (b.scene.cmps = [] →
      builder.function R Args F name decl_code b =
        some { b with scene := { b.scene with functions := b.scene.functions ++
          [{ function := F, name := name, decl_code := decl_code, R := R, Args := Args }] } }) ∧
    (∀ (c : Nat) (d : reflcmp S), b.scene.cmps.getLast? = some c →
      b.allocator.cmps[c]? = some d →
      ∃ b1, builder.function R Args F name decl_code b = some b1 ∧
        b1.allocator.cmps[c]? = some { d with functions := d.functions ++
          [{ function := F, name := name, decl_code := decl_code, R := R, Args := Args }] } ∧
        (∀ c2 : Nat, c2 ≠ c → b1.allocator.cmps[c2]? = b.allocator.cmps[c2]?) ∧
        b1.allocator.cmps.length = b.allocator.cmps.length ∧
        b1.allocator.props = b.allocator.props ∧
        b1.scene = b.scene ∧ b1.array = b.array ∧ b1.last_prop = b.last_prop ∧
        b1.registered = b.registered) := by
  constructor
  · intro hempty
    simp [builder.function, hempty]
  · intro c d hback hd
    have hne : b.scene.cmps.isEmpty = false := by
      cases hc : b.scene.cmps with
      | nil => rw [hc] at hback; cases hback
      | cons x xs => rfl
    have hlt : c < b.allocator.cmps.length := getElem?_some_lt _ _ _ hd
    have heq : builder.function R Args F name decl_code b =
        some { b with allocator :=
          { props := b.allocator.props
            cmps := b.allocator.cmps.set c
              { d with functions := d.functions ++
                [{ function := F, name := name, decl_code := decl_code, R := R,
                   Args := Args }] } } } := by
      simp [builder.function, hne, hback, Allocator.push_function, hd]
    refine ⟨_, heq, ?_, ?_, ?_, rfl, rfl, rfl, rfl, rfl⟩
    · exact List.getElem?_set_self hlt
    · intro c2 hc2
      exact List.getElem?_set_ne (Ne.symm hc2)
    · exact List.length_set _ _ _

/-- Witness for C11: on the fresh scene `test_scene` the wrapper goes to the scene
descriptor; once the component `box` is declared it goes to that component. -/
theorem builder.function_attached_witness :
    ((builder.function (QualType.plain .void) [] example_reset_fn "reset" "reset"
        (build_scene "test_scene")).map (fun b1 => b1.scene.functions.length) = some 1) ∧
    ((builder.function (QualType.plain .void) [] example_reset_fn "reset" "reset"
        example_box_state).map
      (fun b1 => (b1.scene.functions.length,
        (b1.allocator.cmps[0]?).map (fun d => d.functions.length))) = some (0, some 1)) := by
  have h := builder.function_attached (QualType.plain .void) [] example_reset_fn "reset"
    "reset" (build_scene "test_scene")
  have h2 := builder.function_attached (QualType.plain .void) [] example_reset_fn "reset"
    "reset" example_box_state
  constructor
  · rw [h.1 rfl]
    rfl
  · obtain ⟨b1, hb1, hc, -, -, -, hs, -⟩ := h2.2 0 _ rfl rfl
    rw [hb1]
    simp only [Option.map_some', hs, hc]
    rfl

/-- A new object without children, placed behind the others, keeps nesting one level
deep. -/
theorem ArraysHoldTypedOnly_append {S : Type} (props : List (reflprop S)) (o : reflprop S)
    (ho : o.children = []) (h : ArraysHoldTypedOnly props) :
    ArraysHoldTypedOnly (props ++ [o]) := by
  intro p arr hp ch hch
  by_cases hlt : p < props.length
  · rw [List.getElem?_append_left hlt] at hp
    obtain ⟨T, q, hq⟩ := h p arr hp ch hch
    have hlt2 := getElem?_some_lt _ _ _ hq
    exact ⟨T, q, by rw [List.getElem?_append_left hlt2]; exact hq⟩
  · have hlt3 := getElem?_some_lt _ _ _ hp
    have hpe : p = props.length := by
      simp only [List.length_append, List.length_singleton] at hlt3
      omega
    subst hpe
    rw [List.getElem?_concat_length] at hp
    cases hp
    have : arr.children = [] := ho
    rw [this] at hch
    cases hch

/-- Appending an attribute to one property keeps nesting one level deep. -/
theorem ArraysHoldTypedOnly_attribute {S : Type} (props : List (reflprop S)) (p0 : Nat)
    (o : reflprop S) (a : IAttribute S) (ho : props[p0]? = some o)
    (h : ArraysHoldTypedOnly props) :
    ArraysHoldTypedOnly (props.set p0 (o.push_attribute a)) := by
  have key : ∀ (i : Nat) (x : reflprop S), (props.set p0 (o.push_attribute a))[i]? = some x →
      ∃ y, props[i]? = some y ∧ y.children = x.children ∧ y.overload = x.overload := by
    intro i x hx
    by_cases hi : p0 = i
    · subst hi
      rw [List.getElem?_set_self (getElem?_some_lt _ _ _ ho)] at hx
      cases hx
      exact ⟨o, ho, by cases o <;> rfl, by cases o <;> rfl⟩
    · rw [List.getElem?_set_ne hi] at hx
      exact ⟨x, hx, rfl, rfl⟩
  intro p arr hp ch hch
  obtain ⟨y, hy, hyc, hyo⟩ := key p _ hp
  cases y with
  | typed T q => cases hyo
  | array arr0 =>
    have hch0 : ch ∈ arr0.children := by
      have : arr0.children = arr.children := hyc
      rw [this]; exact hch
    obtain ⟨T, q, hq⟩ := h p arr0 hy ch hch0
    by_cases hi : p0 = ch
    · subst hi
      rw [hq] at ho
      cases ho
      exact ⟨T, _, List.getElem?_set_self (getElem?_some_lt _ _ _ hq)⟩
    · exact ⟨T, q, by rw [List.getElem?_set_ne hi]; exact hq⟩

/-- Pushing the address of a typed property to the children of an array keeps nesting one
level deep. -/
theorem ArraysHoldTypedOnly_child {S : Type} (props : List (reflprop S)) (a p : Nat)
    (arr : reflarrayprop S) (T : PropType) (q : refl_typed_prop S T)
    (ha : props[a]? = some (reflprop.array arr)) (hp : props[p]? = some (reflprop.typed T q))
    (h : ArraysHoldTypedOnly props) :
    ArraysHoldTypedOnly
      (props.set a (reflprop.array { arr with children := arr.children ++ [p] })) := by
  have hlt := getElem?_some_lt _ _ _ ha
  have keep : ∀ (ch : Nat) (T2 : PropType) (q2 : refl_typed_prop S T2),
      props[ch]? = some (reflprop.typed T2 q2) →
      (props.set a (reflprop.array { arr with children := arr.children ++ [p] }))[ch]? =
        some (reflprop.typed T2 q2) := by
    intro ch T2 q2 hq
    have hne : a ≠ ch := by
      intro he
      subst he
      rw [ha] at hq
      cases hq
    rw [List.getElem?_set_ne hne]
    exact hq
  intro i arr2 hi ch hch
  by_cases hia : a = i
  · subst hia
    rw [List.getElem?_set_self hlt] at hi
    cases hi
    simp only [List.mem_append, List.mem_singleton] at hch
    rcases hch with hold | hnew
    · obtain ⟨T2, q2, hq2⟩ := h a arr ha ch hold
      exact ⟨T2, q2, keep ch T2 q2 hq2⟩
    · subst hnew
      exact ⟨T, q, keep ch T q hp⟩
  · rw [List.getElem?_set_ne hia] at hi
    obtain ⟨T2, q2, hq2⟩ := h i arr2 hi ch hch
    exact ⟨T2, q2, keep ch T2 q2 hq2⟩

/-- What a successful typed-property declaration does to the property objects. -/
theorem builder.push_typed_props {S : Type} (T : PropType) (q : refl_typed_prop S T)
    (b b1 : builder S) (h : builder.push_typed T q b = some b1) :
    b1.allocator.props = b.allocator.props ++ [reflprop.typed T q] ∨
    ∃ (a : Nat) (arr : reflarrayprop S), b.allocator.props[a]? = some (reflprop.array arr) ∧
      b1.allocator.props = (b.allocator.props ++ [reflprop.typed T q]).set a
        (reflprop.array { arr with children := arr.children ++ [b.allocator.props.length] }) := by
  cases harr : b.array with
  | none =>
    cases hback : b.scene.cmps.getLast? with
    | none => simp [builder.push_typed, Allocator.new_prop, harr, hback] at h
    | some c =>
      cases hd : b.allocator.cmps[c]? with
      | none =>
        simp [builder.push_typed, Allocator.new_prop, Allocator.push_prop, harr, hback, hd] at h
      | some d =>
        rw [builder.push_typed_component T q b c d harr hback hd] at h
        cases h
        exact Or.inl rfl
  | some a =>
    cases ha : (b.allocator.props ++ [reflprop.typed T q])[a]? with
    | none =>
      simp [builder.push_typed, Allocator.new_prop, Allocator.push_child, harr, ha] at h
    | some o =>
      cases o with
      | typed T2 q2 =>
        simp [builder.push_typed, Allocator.new_prop, Allocator.push_child, harr, ha] at h
      | array arr =>
        have hlt : a < b.allocator.props.length := by
          have hlt2 := getElem?_some_lt _ _ _ ha
          simp only [List.length_append, List.length_singleton] at hlt2
          rcases Nat.lt_or_ge a b.allocator.props.length with h1 | h1
          · exact h1
          · have hae : a = b.allocator.props.length :=
              Nat.le_antisymm (Nat.lt_succ_iff.mp hlt2) h1
            rw [hae, List.getElem?_concat_length] at ha
            cases ha
        have ha0 : b.allocator.props[a]? = some (reflprop.array arr) := by
          rw [List.getElem?_append_left hlt] at ha
          exact ha
        rw [builder.push_typed_array T q b a arr harr ha0] at h
        cases h
        exact Or.inr ⟨a, arr, ha0, rfl⟩

/-- A typed-property declaration keeps nesting one level deep. -/
theorem builder.push_typed_nesting {S : Type} (T : PropType) (q : refl_typed_prop S T)
    (b b1 : builder S) (h : builder.push_typed T q b = some b1)
    (hinv : ArraysHoldTypedOnly b.allocator.props) :
    ArraysHoldTypedOnly b1.allocator.props := by
  have happ := ArraysHoldTypedOnly_append b.allocator.props (reflprop.typed T q) rfl hinv
  rcases builder.push_typed_props T q b b1 h with h1 | ⟨a, arr, ha, h1⟩
  · rw [h1]; exact happ
  · rw [h1]
    have hlt := getElem?_some_lt _ _ _ ha
    exact ArraysHoldTypedOnly_child _ a b.allocator.props.length arr T q
      (by rw [List.getElem?_append_left hlt]; exact ha)
      (List.getElem?_concat_length _ _) happ

/-- An attribute call keeps nesting one level deep. -/
theorem builder.push_attribute_nesting {S : Type} (a : IAttribute S) (b b1 : builder S)
    (h : builder.push_attribute a b = some b1)
    (hinv : ArraysHoldTypedOnly b.allocator.props) :
    ArraysHoldTypedOnly b1.allocator.props := by
  cases hl : b.last_prop with
  | none => simp [builder.push_attribute, hl] at h
  | some p =>
    cases ho : b.allocator.props[p]? with
    | none => simp [builder.push_attribute, Allocator.push_attribute, hl, ho] at h
    | some o =>
      have hb1 : b1.allocator.props = b.allocator.props.set p (o.push_attribute a) := by
        simp [builder.push_attribute, Allocator.push_attribute, hl, ho] at h
        rw [← h]
      rw [hb1]
      exact ArraysHoldTypedOnly_attribute _ p o a ho hinv

/-- The call `begin_array` keeps nesting one level deep: the new array has no children and
is pushed to the props of the component, also when another bracket is open. -/
theorem builder.begin_array_nesting {S : Type} (Counter : S → EntityRef → Nat)
    (Adder Remover : S → EntityRef → Nat → S) (name : String) (b b1 : builder S)
    (h : builder.begin_array Counter Adder Remover name b = some b1)
    (hinv : ArraysHoldTypedOnly b.allocator.props) :
    ArraysHoldTypedOnly b1.allocator.props := by
  cases hback : b.scene.cmps.getLast? with
  | none => simp [builder.begin_array, Allocator.new_prop, hback] at h
  | some c =>
    cases hd : b.allocator.cmps[c]? with
    | none =>
      simp [builder.begin_array, Allocator.new_prop, Allocator.push_prop, hback, hd] at h
    | some d =>
      rw [builder.begin_array_eq Counter Adder Remover name b c d hback hd] at h
      cases h
      exact ArraysHoldTypedOnly_append _ _ rfl hinv

/-- The calls `cmp`, `end_array`, `icon` and `function` leave the property objects alone. -/
theorem builder.other_calls_keep_props {S : Type} (b b1 : builder S) :
    (∀ ext Creator Destroyer name label,
      builder.cmp ext Creator Destroyer name label b = some b1 →
        b1.allocator.props = b.allocator.props) ∧
    (builder.end_array b = some b1 → b1.allocator.props = b.allocator.props) ∧
    (∀ name, builder.icon name b = some b1 → b1.allocator.props = b.allocator.props) ∧
    (∀ R Args F name decl_code, builder.function R Args F name decl_code b = some b1 →
      b1.allocator.props = b.allocator.props) := by
  refine ⟨?_, ?_, ?_, ?_⟩
  · intro ext Creator Destroyer name label h
    rw [builder.cmp_eq] at h
    cases h
    rfl
  · intro h
    simp only [builder.end_array, Option.some.injEq] at h
    rw [← h]
  · intro name h
    unfold builder.icon at h
    split at h
    · cases h
    · split at h
      · cases h
      · cases h
        rfl
  · intro R Args F name decl_code h
    cases hem : b.scene.cmps.isEmpty with
    | true =>
      simp only [builder.function, hem, if_true, Option.some.injEq] at h
      rw [← h]
    | false =>
      cases hback : b.scene.cmps.getLast? with
      | none => simp [builder.function, hem, hback] at h
      | some c =>
        cases hd : b.allocator.cmps[c]? with
        | none => simp [builder.function, hem, hback, Allocator.push_function, hd] at h
        | some d =>
          simp [builder.function, hem, hback, Allocator.push_function, hd] at h
          rw [← h]

/-- Every call of the chain keeps nesting one level deep. -/
theorem BuilderCall.apply_nesting {S : Type} (call : BuilderCall S) (b b1 : builder S)
    (h : call.apply b = some b1) (hinv : ArraysHoldTypedOnly b.allocator.props) :
    ArraysHoldTypedOnly b1.allocator.props := by
  have hother := builder.other_calls_keep_props b b1
  cases call with
  | cmp ext Creator Destroyer name label =>
    rw [hother.1 ext Creator Destroyer name label h]; exact hinv
  | enum_prop E Getter Setter name => exact builder.push_typed_nesting _ _ b b1 h hinv
  | prop T Getter Setter name => exact builder.push_typed_nesting _ _ b b1 h hinv
  | var_prop Obj T Getter PropGetter name => exact builder.push_typed_nesting _ _ b b1 h hinv
  | minAttribute value => exact builder.push_attribute_nesting _ b b1 h hinv
  | clampAttribute min max => exact builder.push_attribute_nesting _ b b1 h hinv
  | resourceAttribute type => exact builder.push_attribute_nesting _ b b1 h hinv
  | begin_array Counter Adder Remover name =>
    exact builder.begin_array_nesting Counter Adder Remover name b b1 h hinv
  | end_array => rw [hother.2.1 h]; exact hinv
  | enumAttribute T => exact builder.push_attribute_nesting _ b b1 h hinv
  | radiansAttribute => exact builder.push_attribute_nesting _ b b1 h hinv
  | colorAttribute => exact builder.push_attribute_nesting _ b b1 h hinv
  | noUIAttribute => exact builder.push_attribute_nesting _ b b1 h hinv
  | multilineAttribute => exact builder.push_attribute_nesting _ b b1 h hinv
  | icon name => rw [hother.2.2.1 name h]; exact hinv
  | function R Args F name decl_code =>
    rw [hother.2.2.2 R Args F name decl_code h]; exact hinv

/-- A chain of calls keeps nesting one level deep. -/
theorem builder.run_nesting {S : Type} :
    ∀ (calls : List (BuilderCall S)) (b b1 : builder S), builder.run calls b = some b1 →
      ArraysHoldTypedOnly b.allocator.props → ArraysHoldTypedOnly b1.allocator.props := by
  intro calls
  induction calls with
  | nil =>
    intro b b1 h hinv
    cases h
    exact hinv
  | cons call calls ih =>
    intro b b1 h hinv
    unfold builder.run at h
    cases hc : call.apply b with
    | none => rw [hc] at h; cases h
    | some b2 =>
      rw [hc] at h
      exact ih b2 b1 h (BuilderCall.apply_nesting call b b2 hc hinv)

/-- C12: array nesting stays one level deep along every chain of builder calls. If every
child of every array property is a typed property before the chain (as in a fresh builder,
which has no property object yet), then in every state the chain reaches every child of
every array property is a typed property, never another array property: `begin_array`
pushes the new array to the props of the component, also while a bracket is open, and only
typed-property declarations push to children. -/
theorem builder.array_nesting_one_level {S : Type} (calls : List (BuilderCall S))
    (b0 b : builder S) (hrun : builder.run calls b0 = some b)
    (h0 : ArraysHoldTypedOnly b0.allocator.props) :
    ArraysHoldTypedOnly b.allocator.props ∧
    (∀ (scene_name : String) (b2 : builder S),
      builder.run calls (build_scene scene_name) = some b2 →
        ArraysHoldTypedOnly b2.allocator.props) := by
  refine ⟨builder.run_nesting calls b0 b hrun h0, ?_⟩
  intro scene_name b2 h2
  apply builder.run_nesting calls (build_scene scene_name) b2 h2
  intro p arr hp
  cases hp

/-- Witness for C12: a chain that opens a second bracket while the first is open reaches a
state with two arrays, both directly in the props of the component, each with one typed
child. -/
theorem builder.array_nesting_one_level_witness :
    ArraysHoldTypedOnly example_chain_state.allocator.props ∧
    example_chain_state.allocator.props.map reflprop.children = [[1], [], [3], []] ∧
    example_chain_state.allocator.props.map reflprop.overload =
      [.array, .typed .float, .array, .typed .float] ∧
    example_chain_state.allocator.cmps.map (fun d => d.props) = [[0, 2]] :=
  ⟨(builder.array_nesting_one_level example_chain (build_scene "test_scene")
      example_chain_state rfl (fun p arr hp => by cases hp)).1, rfl, rfl, rfl⟩

/-- C13: `cmp(name, label)` always succeeds and creates exactly one component descriptor,
with the given name and label, no props, no functions, `component_type` equal to
`getComponentType(name)` and `scene` equal to `crc32` of the scene name; its address is
appended at the end of the cmps of the scene descriptor and the same address is published
by `registerCmp`, so the registry returns, for that component-type identifier, a descriptor
that carries the identifier, and the round trip of the lookup key is kept for every
registered identifier. Descriptors declared before, and all property objects, are
unchanged. -/
theorem builder.cmp_appends_and_registers {S : Type} (ext : Externals)
    (Creator Destroyer : S → EntityRef → S) (name label : String) (b : builder S) :
    ∃ b1, builder.cmp ext Creator Destroyer name label b = some b1 ∧
      b1.scene.cmps = b.scene.cmps ++ [b.allocator.cmps.length] ∧
      b1.allocator.cmps = b.allocator.cmps ++
        [{ icon := "", name := name, label := label, scene := ext.crc32 b.scene.name,
           creator := Creator, destroyer := Destroyer,
           component_type := ext.getComponentType name, props := [], functions := [] }] ∧
      (∀ c : Nat, c < b.allocator.cmps.length →
        b1.allocator.cmps[c]? = b.allocator.cmps[c]?) ∧
      b1.allocator.props = b.allocator.props ∧
      b1.scene.functions = b.scene.functions ∧
      b1.array = b.array ∧ b1.last_prop = b.last_prop ∧
      getReflComponent b1 (ext.getComponentType name) = some b.allocator.cmps.length ∧
      (b1.allocator.cmps[b.allocator.cmps.length]?).map (fun d => d.component_type) =
        some (ext.getComponentType name) ∧
      (RegistryRoundTrip b → RegistryRoundTrip b1) := by
  refine ⟨_, builder.cmp_eq ext Creator Destroyer name label b, rfl, rfl, ?_, rfl, rfl, rfl,
    rfl, ?_, ?_, ?_⟩
  · intro c hc
    exact List.getElem?_append_left hc
  · simp [getReflComponent, List.lookup]
  · show Option.map _ ((b.allocator.cmps ++ [_])[b.allocator.cmps.length]?) = _
    rw [List.getElem?_concat_length]
    rfl
  · intro hrt type ptr hlook
    show Option.map _ ((b.allocator.cmps ++ [_])[ptr]?) = _
    have hlook2 : List.lookup type
        ((ext.getComponentType name, b.allocator.cmps.length) :: b.registered) = some ptr :=
      hlook
    by_cases hty : type = ext.getComponentType name
    · subst hty
      simp only [List.lookup, beq_self_eq_true, Option.some.injEq] at hlook2
      subst hlook2
      rw [List.getElem?_concat_length]
      rfl
    · have hbeq : (type == ext.getComponentType name) = false := by
        simpa using hty
      simp only [List.lookup, hbeq] at hlook2
      have hold := hrt type ptr hlook2
      have hlt : ptr < b.allocator.cmps.length := by
        cases hq : b.allocator.cmps[ptr]? with
        | none => rw [hq] at hold; cases hold
        | some d => exact getElem?_some_lt _ _ _ hq
      rw [List.getElem?_append_left hlt]
      exact hold

/-- Witness for C13: `cmp("box", "Box")` on the fresh scene `test_scene` registers the new
descriptor under the identifier of `box`, and the round trip of the lookup key holds. -/
theorem builder.cmp_appends_and_registers_witness :
    (example_box.map (fun b1 => getReflComponent b1 4)) = some (some 0) ∧
    (example_box.map (fun b1 => b1.scene.cmps)) = some [0] ∧
    RegistryRoundTrip example_box_state := by
  obtain ⟨b1, hb1, hs, -, -, -, -, -, -, hreg, -, hrt⟩ :=
    builder.cmp_appends_and_registers example_ext (fun (s : ℚ) _ => s) (fun s _ => s)
      "box" "Box" (build_scene "test_scene")
  have hb : example_box = some b1 := hb1
  have hst : b1 = example_box_state := by
    have := example_box_eq
    rw [hb] at this
    exact Option.some.inj this
  refine ⟨?_, ?_, ?_⟩
  · rw [hb]; exact congrArg some hreg
  · rw [hb]; exact congrArg some hs
  · rw [← hst]
    apply hrt
    intro type ptr h
    cases h

/-- C14 (counterexample): the array property `items` registered through `begin_array` over
a counter, an adder for an array with two slots and a remover reads count 2 after
`addItem` on a full array (count 2), and count 0 after `removeItem` on an empty one. -/
theorem builder.array_count_counterexample :
    (((builder.begin_array example_counter example_adder_capped example_remover "items"
          (example_state ℕ)).bind (fun b => b.allocator.props[0]?)).bind reflprop.as_array).map
      (fun A =>
        (A.getCount { entity := ⟨1⟩, type := 4, scene := 2 },
         A.getCount { entity := ⟨1⟩, type := 4,
                      scene := A.addItem { entity := ⟨1⟩, type := 4, scene := 2 } 2 },
         A.getCount { entity := ⟨1⟩, type := 4, scene := 0 },
         A.getCount { entity := ⟨1⟩, type := 4,
                      scene := A.removeItem { entity := ⟨1⟩, type := 4, scene := 0 } 0 }))
      = some (2, 2, 0, 0) := by
  rfl

/-- C14 (amended): an array property built by `begin_array<Counter, Adder, Remover>` holds
no count. `getCount` is the counter hook on the scene and entity of `cmp`, `addItem` and
`removeItem` run the adder and the remover hook; so `getCount` after `addItem(cmp, i)` is
one more than before, and after `removeItem(cmp, j)` one less than before, exactly when the
bound hooks change the count that way for that scene state, entity and index. -/
theorem builder.array_count_after_add_remove_iff {S : Type} (Counter : S → EntityRef → Nat)
    (Adder Remover : S → EntityRef → Nat → S) (name : String) (b : builder S)
    (h : (builder.begin_array Counter Adder Remover name b).isSome = true) :
    (builder.begin_array Counter Adder Remover name b).bind
        (fun b1 => b1.allocator.props[b.allocator.props.length]?) =
      some (reflprop.array { attributes := [], name := name, children := [],
                             counter := Counter, adder := Adder, remover := Remover }) ∧
    (∀ (cmp : ComponentUID S) (i : Nat),
      (({ attributes := [], name := name, children := [], counter := Counter, adder := Adder,
          remover := Remover } : reflarrayprop S).getCount
        { cmp with scene :=
            ({ attributes := [], name := name, children := [], counter := Counter,
               adder := Adder, remover := Remover } : reflarrayprop S).addItem cmp i } =
        ({ attributes := [], name := name, children := [], counter := Counter, adder := Adder,
           remover := Remover } : reflarrayprop S).getCount cmp + 1 ↔
       Counter (Adder cmp.scene cmp.entity.toRef i) cmp.entity.toRef =
        Counter cmp.scene cmp.entity.toRef + 1)) ∧
    (∀ (cmp : ComponentUID S) (j : Nat),
      (({ attributes := [], name := name, children := [], counter := Counter, adder := Adder,
          remover := Remover } : reflarrayprop S).getCount
        { cmp with scene :=
            ({ attributes := [], name := name, children := [], counter := Counter,
               adder := Adder, remover := Remover } : reflarrayprop S).removeItem cmp j } + 1 =
        ({ attributes := [], name := name, children := [], counter := Counter, adder := Adder,
           remover := Remover } : reflarrayprop S).getCount cmp ↔
       Counter (Remover cmp.scene cmp.entity.toRef j) cmp.entity.toRef + 1 =
        Counter cmp.scene cmp.entity.toRef)) ∧
    ((∀ (cmp : ComponentUID S) (i : Nat),
      ({ attributes := [], name := name, children := [], counter := Counter, adder := Adder,
         remover := Remover } : reflarrayprop S).getCount
        { cmp with scene :=
            ({ attributes := [], name := name, children := [], counter := Counter,
               adder := Adder, remover := Remover } : reflarrayprop S).addItem cmp i } =
        ({ attributes := [], name := name, children := [], counter := Counter, adder := Adder,
           remover := Remover } : reflarrayprop S).getCount cmp + 1) ↔
      (∀ (scene : S) (e : EntityRef) (i : Nat),
        Counter (Adder scene e i) e = Counter scene e + 1)) := by
  refine ⟨?_, fun _ _ => Iff.rfl, fun _ _ => Iff.rfl, ?_⟩
  · obtain ⟨b1, hb1⟩ := Option.isSome_iff_exists.mp h
    rw [hb1]
    exact (builder.begin_array_last Counter Adder Remover name b b1 hb1).2.2
  · constructor
    · intro hq scene e i
      exact hq { entity := ⟨e.index⟩, type := 0, scene := scene } i
    · intro hb cmp i
      exact hb cmp.scene cmp.entity.toRef i

/-- Witness for C14 (amended): the array `items` registered over an adder without limit. -/
theorem builder.array_count_after_add_remove_iff_witness :
    (builder.begin_array example_counter example_adder example_remover "items"
        (example_state ℕ)).bind (fun b1 => b1.allocator.props[0]?) =
      some (reflprop.array { attributes := [], name := "items", children := [],
                             counter := example_counter, adder := example_adder,
                             remover := example_remover }) :=
  (builder.array_count_after_add_remove_iff example_counter example_adder example_remover
    "items" (example_state ℕ) rfl).1

/-- C15: a property registered through `var_prop<Getter, PropGetter>`, where `Getter`
returns a reference to the sub-object of an entity, writes and reads through that
reference. `set(cmp, idx, v)` stores `v` in the projected member of the sub-object at the
location `Getter` returns for the entity of `cmp`: the other members of that sub-object,
every sub-object at another location (so the sub-object of every other entity) and the
rest of the scene are unchanged. `get(cmp, idx)` is the current value of the projected
member. Neither depends on `idx`. The declared type `T` is the type of the member, so the
conversions are identities. -/
theorem builder.var_prop_writes_projected_field {Loc Others Rest : Type} [DecidableEq Loc]
    (T : PropType) (locate : SubObjectScene Loc T.Val Others Rest → EntityRef → Loc)
    (name : String) (b : builder (SubObjectScene Loc T.Val Others Rest))
    (h : (builder.var_prop T (SubObjectScene.ref locate) MemberPtr.projected name b).isSome
      = true) :
    ∃ q : refl_typed_prop (SubObjectScene Loc T.Val Others Rest) T,
      (builder.var_prop T (SubObjectScene.ref locate) MemberPtr.projected name b).bind
          (fun b1 => b1.allocator.props[b.allocator.props.length]?) =
        some (reflprop.typed T q) ∧
      q.name = name ∧
      ∀ (cmp : ComponentUID (SubObjectScene Loc T.Val Others Rest)) (idx : Nat) (v : T.Val),
        ((q.set cmp idx v).objs (locate cmp.scene cmp.entity.toRef)).1 = v ∧
        ((q.set cmp idx v).objs (locate cmp.scene cmp.entity.toRef)).2 =
          (cmp.scene.objs (locate cmp.scene cmp.entity.toRef)).2 ∧
        (∀ l : Loc, l ≠ locate cmp.scene cmp.entity.toRef →
          (q.set cmp idx v).objs l = cmp.scene.objs l) ∧
        (∀ e2 : EntityRef, locate cmp.scene e2 ≠ locate cmp.scene cmp.entity.toRef →
          (q.set cmp idx v).objs (locate cmp.scene e2) = cmp.scene.objs (locate cmp.scene e2)) ∧
        (q.set cmp idx v).rest = cmp.scene.rest ∧
        q.get cmp idx = (cmp.scene.objs (locate cmp.scene cmp.entity.toRef)).1 ∧
        (∀ idx2 : Nat, q.set cmp idx2 v = q.set cmp idx v ∧ q.get cmp idx2 = q.get cmp idx) := by
  refine ⟨{ attributes := [], name := name,
            setter := refl_typed_prop.setterVarHelper (SubObjectScene.ref locate)
              MemberPtr.projected,
            getter := refl_typed_prop.getterVarHelper (SubObjectScene.ref locate)
              MemberPtr.projected }, ?_, rfl, ?_⟩
  · obtain ⟨b1, hb1⟩ := Option.isSome_iff_exists.mp h
    rw [hb1]
    exact (builder.push_typed_last T _ b b1 hb1).2
  · intro cmp idx v
    refine ⟨?_, ?_, ?_, ?_, rfl, rfl, fun _ => ⟨rfl, rfl⟩⟩
    · simp [refl_typed_prop.set, refl_typed_prop.setterVarHelper, SubObjectScene.ref,
        MemberPtr.projected]
    · simp [refl_typed_prop.set, refl_typed_prop.setterVarHelper, SubObjectScene.ref,
        MemberPtr.projected]
    · intro l hl
      simp [refl_typed_prop.set, refl_typed_prop.setterVarHelper, SubObjectScene.ref,
        MemberPtr.projected, Function.update_noteq hl]
    · intro e2 hl
      simp [refl_typed_prop.set, refl_typed_prop.setterVarHelper, SubObjectScene.ref,
        MemberPtr.projected, Function.update_noteq hl]

/-- Witness for C15: the float member `radius` of the sub-object of an entity, registered on
the component `box`; setting it to `5.0` for entity 3 leaves the member `layer` of that
sub-object and the sub-object of entity 4 as they were. -/
theorem builder.var_prop_writes_projected_field_witness :
    (((builder.var_prop .float
          (SubObjectScene.ref (fun (_ : SubObjectScene Int ℚ Int Unit) e => e.index))
          MemberPtr.projected "radius" (example_state _)).bind
        (fun b1 => b1.allocator.props[0]?)).bind reflprop.as_float).map
      (fun q =>
        ((q.set { entity := ⟨3⟩, type := 4, scene := example_sub_scene } 0 5).objs 3,
         (q.set { entity := ⟨3⟩, type := 4, scene := example_sub_scene } 0 5).objs 4,
         q.get { entity := ⟨3⟩, type := 4, scene := example_sub_scene } 0))
      = some (((5 : ℚ), (7 : Int)), ((1 : ℚ), (7 : Int)), (1 : ℚ)) := by
  obtain ⟨q, hq, -, hset⟩ :=
    builder.var_prop_writes_projected_field .float
      (fun (_ : SubObjectScene Int ℚ Int Unit) e => e.index) "radius" (example_state _) rfl
  have hq0 : (builder.var_prop .float
      (SubObjectScene.ref (fun (_ : SubObjectScene Int ℚ Int Unit) e => e.index))
      MemberPtr.projected "radius" (example_state _)).bind
        (fun b1 => b1.allocator.props[0]?) = some (reflprop.typed .float q) := hq
  rw [hq0]
  obtain ⟨h1, h2, h3, -, -, h6, -⟩ :=
    hset { entity := ⟨3⟩, type := 4, scene := example_sub_scene } 0 5
  have h4 := h3 4 (by decide)
  simp only [Option.some_bind, reflprop.as_float, Option.map_some', Option.some.injEq,
    Prod.mk.injEq]
  refine ⟨?_, ?_, ?_⟩
  · exact Prod.ext h1 h2
  · exact h4
  · exact h6

/-- C16 (counterexample): `IReflPropertyVisitor`, the interface that the visit of a
component descriptor (`reflcmp::visit`) dispatches to, has no overload for blob properties
and none for dynamic properties. -/
theorem IReflPropertyVisitor.overloads_counterexample :
    IReflPropertyVisitor.overloads.count .blob = 0 ∧
    IReflPropertyVisitor.overloads.count .dynamic = 0 ∧
    IReflPropertyVisitor.overloads.length = 12 := by
  decide

/-- C16 (amended): `IReflPropertyVisitor`, which `reflcmp::visit` dispatches to, has
exactly one overload for each of the 11 scalar value types and one for array properties,
12 in all, and none for blob or dynamic properties; every property object of a component
descriptor lands in one of them. `IPropertyVisitor`, which `ComponentBase::visit` takes, has
exactly one overload for each of the 14 kinds. -/
theorem IReflPropertyVisitor.overloads_one_per_kind {S : Type} :
    (∀ T : PropType, IReflPropertyVisitor.overloads.count (.scalar T) = 1) ∧
    IReflPropertyVisitor.overloads.count .array = 1 ∧
    IReflPropertyVisitor.overloads.count .blob = 0 ∧
    IReflPropertyVisitor.overloads.count .dynamic = 0 ∧
    IReflPropertyVisitor.overloads.length = 12 ∧
    (∀ o : reflprop S, o.overload.kind ∈ IReflPropertyVisitor.overloads) ∧
    (∀ o : reflprop S, ∀ log : List (VisitCall S),
      (o.visit (recorder S) log).map (fun call => call.overload.kind) =
        log.map (fun call => call.overload.kind) ++ [o.overload.kind]) ∧
    (∀ k : PropertyKind, IPropertyVisitor.overloads.count k = 1) ∧
    IPropertyVisitor.overloads.length = 14 := by
  refine ⟨?_, by decide, by decide, by decide, by decide, ?_, ?_, ?_, by decide⟩
  · intro T
    cases T <;> decide
  · intro o
    cases o with
    | typed T q =>
      show PropertyKind.scalar T ∈ IReflPropertyVisitor.overloads
      cases T <;> decide
    | array p =>
      show PropertyKind.array ∈ IReflPropertyVisitor.overloads
      decide
  · intro o log
    rw [recorder_visit]
    simp
  · intro k
    cases k with
    | scalar T => cases T <;> decide
    | array => decide
    | blob => decide
    | dynamic => decide

/-- C17: `getVariantType` maps `const char*` to `CSTR` and every other pointer type
(`void*`, `char*`, pointers to objects, to const or not) to `PTR`; `EntityPtr` and
`EntityRef` both map to `ENTITY`; top-level const, volatile and reference qualifiers do not
change the result. -/
theorem getVariantType_pointers_and_qualifiers :
    (∀ c v r : Bool, getVariantType ⟨.ptr .char true, c, v, r⟩ = .CSTR) ∧
    (∀ c v r : Bool, getVariantType ⟨.ptr .char false, c, v, r⟩ = .PTR) ∧
    (∀ pointee_const c v r : Bool, getVariantType ⟨.ptr .void pointee_const, c, v, r⟩ = .PTR) ∧
    (∀ (id : Nat) (pointee_const c v r : Bool),
      getVariantType ⟨.ptr (.object id) pointee_const, c, v, r⟩ = .PTR) ∧
    (∀ c v r : Bool, getVariantType ⟨.entityPtr, c, v, r⟩ = .ENTITY) ∧
    (∀ c v r : Bool, getVariantType ⟨.entityRef, c, v, r⟩ = .ENTITY) ∧
    (∀ (T : NativeType) (c v r : Bool),
      getVariantType ⟨T, c, v, r⟩ = getVariantType (QualType.plain T)) := by
  refine ⟨fun _ _ _ => rfl, fun _ _ _ => rfl, ?_, ?_, fun _ _ _ => rfl, fun _ _ _ => rfl,
    fun _ _ _ _ => rfl⟩
  · intro pc c v r
    cases pc <;> rfl
  · intro id pc c v r
    cases pc <;> rfl

/-- C18: the adapted accessors of a property registered through `prop<Getter, Setter>`
follow the arity of the bound functions. A getter with one parameter is called with
`(entity)`, so `get(cmp, i) = get(cmp, j)` for all indices; any other getter is called with
`(entity, idx)`. A setter with two parameters is called with `(entity, value)`; any other
setter is called with `(entity, idx, value)`, the index reaching it unchanged. -/
theorem builder.prop_calling_convention {S : Type} (T : PropType) (G : GetterFn S T.Val)
    (St : SetterFn S T.Val) (name : String) (b : builder S)
    (h : (builder.prop T G St name b).isSome = true) :
    ∃ q : refl_typed_prop S T,
      (builder.prop T G St name b).bind
          (fun b1 => b1.allocator.props[b.allocator.props.length]?) =
        some (reflprop.typed T q) ∧
      (G.ArgsCount = 1 → ∃ f, G = .args1 f ∧
        (∀ (cmp : ComponentUID S) (i : Nat), q.get cmp i = f cmp.scene cmp.entity.toRef) ∧
        (∀ (cmp : ComponentUID S) (i j : Nat), q.get cmp i = q.get cmp j)) ∧
      (G.ArgsCount ≠ 1 → ∃ f, G = .args2 f ∧
        (∀ (cmp : ComponentUID S) (idx : Nat),
          q.get cmp idx = f cmp.scene cmp.entity.toRef idx)) ∧
      (St.ArgsCount = 2 → ∃ f, St = .args2 f ∧
        (∀ (cmp : ComponentUID S) (idx : Nat) (v : T.Val),
          q.set cmp idx v = f cmp.scene cmp.entity.toRef v)) ∧
      (St.ArgsCount ≠ 2 → ∃ f, St = .args3 f ∧
        (∀ (cmp : ComponentUID S) (idx : Nat) (v : T.Val),
          q.set cmp idx v = f cmp.scene cmp.entity.toRef idx v)) := by
  refine ⟨{ attributes := [], name := name, setter := refl_typed_prop.setterHelper St,
            getter := refl_typed_prop.getterHelper G }, ?_, ?_, ?_, ?_, ?_⟩
  · obtain ⟨b1, hb1⟩ := Option.isSome_iff_exists.mp h
    rw [hb1]
    exact (builder.push_typed_last T _ b b1 hb1).2
  · intro hc
    cases G with
    | args1 f => exact ⟨f, rfl, fun _ _ => rfl, fun _ _ _ => rfl⟩
    | args2 f => cases hc
  · intro hc
    cases G with
    | args1 f => exact absurd rfl hc
    | args2 f => exact ⟨f, rfl, fun _ _ => rfl⟩
  · intro hc
    cases St with
    | args2 f => exact ⟨f, rfl, fun _ _ _ => rfl⟩
    | args3 f => cases hc
  · intro hc
    cases St with
    | args2 f => exact absurd rfl hc
    | args3 f => exact ⟨f, rfl, fun _ _ _ => rfl⟩

/-- Witness for C18: the scalar property `size` ignores the index, the indexed property
`weight` reads the element at the index. -/
theorem builder.prop_calling_convention_witness :
    ((((builder.prop .float example_getSize example_setSize "size" (example_state ℚ)).bind
        (fun b1 => b1.allocator.props[0]?)).bind reflprop.as_float).map
      (fun q => (q.get { entity := ⟨1⟩, type := 4, scene := (5 : ℚ) } 0,
                 q.get { entity := ⟨1⟩, type := 4, scene := (5 : ℚ) } 9)) = some ((5 : ℚ), (5 : ℚ))) ∧
    ((((builder.prop .float example_getWeight example_setWeight "weight"
          (example_state (List ℚ))).bind
        (fun b1 => b1.allocator.props[0]?)).bind reflprop.as_float).map
      (fun q => (q.get { entity := ⟨1⟩, type := 4, scene := ([3, 4] : List ℚ) } 0,
                 q.get { entity := ⟨1⟩, type := 4, scene := ([3, 4] : List ℚ) } 1,
                 q.set { entity := ⟨1⟩, type := 4, scene := ([3, 4] : List ℚ) } 1 (8 : ℚ)))
      = some ((3 : ℚ), (4 : ℚ), [(3 : ℚ), 8])) := by
  obtain ⟨q, hq, h1, -, -, -⟩ :=
    builder.prop_calling_convention .float example_getSize example_setSize "size"
      (example_state ℚ) rfl
  obtain ⟨q2, hq2, -, h2, -, h4⟩ :=
    builder.prop_calling_convention .float example_getWeight example_setWeight "weight"
      (example_state (List ℚ)) rfl
  have hq0 : (builder.prop .float example_getSize example_setSize "size"
      (example_state ℚ)).bind (fun b1 => b1.allocator.props[0]?) =
        some (reflprop.typed .float q) := hq
  have hq20 : (builder.prop .float example_getWeight example_setWeight "weight"
      (example_state (List ℚ))).bind (fun b1 => b1.allocator.props[0]?) =
        some (reflprop.typed .float q2) := hq2
  obtain ⟨f, hf, hget, -⟩ := h1 rfl
  obtain ⟨g, hg, hget2⟩ := h2 (by decide)
  obtain ⟨s, hs, hset⟩ := h4 (by decide)
  cases hf
  cases hg
  cases hs
  constructor
  · rw [hq0]
    simp only [Option.some_bind, reflprop.as_float, Option.map_some', hget]
  · rw [hq20]
    simp only [Option.some_bind, reflprop.as_float, Option.map_some', hget2, hset]
    rfl

/-- C19 (counterexample): the property `shape` registered through `enum_prop` over a
getter and a setter that store an enumeration with underlying type `u8` reads `44` after
`set(cmp, 0, 300)`, and `300` is a representable `i32`. -/
theorem builder.enum_prop_get_after_set_counterexample :
    (((builder.enum_prop example_enum_u8 (.args1 (fun (scene : Fin 256) _ => scene))
          (.args2 (fun (_ : Fin 256) _ v => v)) "shape" (example_state (Fin 256))).bind
        (fun b => b.allocator.props[0]?)).map
      (fun o => match o with
        | .typed .int q =>
          some (q.get { entity := ⟨1⟩, type := 4,
                        scene := q.set { entity := ⟨1⟩, type := 4, scene := (0 : Fin 256) } 0 300 } 0)
        | _ => none)) = some (some 44) ∧
    (-2147483648 : Int) ≤ 300 ∧ (300 : Int) < 2147483648 ∧ (44 : Int) ≠ 300 := by
  refine ⟨by rfl, by decide, by decide, by decide⟩

/-- C19 (amended): a property registered through `enum_prop<Getter, Setter>` is an `i32`
property that stores nothing itself. `set(cmp, idx, v)` passes `static_cast<E>(v)` to the
bound setter and `get(cmp, idx)` returns `static_cast<i32>` of what the bound getter
returns, each under the calling convention of its arity. So `get` after `set` returns the
value set, for every component, index and value, exactly when converting to the
enumeration, storing, reading and converting back gives the value; with accessors that
read back what they stored, `get` after `set(cmp, idx, v)` is `v` converted to the
enumeration and back, which is `v` for the values the enumeration type represents. -/
theorem builder.enum_prop_get_after_set_iff {S : Type} (E : builder.EnumType)
    (G : GetterFn S E.E) (St : SetterFn S E.E) (name : String) (b : builder S)
    (h : (builder.enum_prop E G St name b).isSome = true) :
    ∃ q : refl_typed_prop S .int,
      (builder.enum_prop E G St name b).bind
          (fun b1 => b1.allocator.props[b.allocator.props.length]?) =
        some (reflprop.typed .int q) ∧
      q.name = name ∧
      (∀ (cmp : ComponentUID S) (idx : Nat) (v : Int),
        q.set cmp idx v =
          refl_typed_prop.setterHelper St cmp.scene cmp.entity.toRef idx (E.of_i32 v)) ∧
      (∀ (cmp : ComponentUID S) (idx : Nat),
        q.get cmp idx =
          E.to_i32 (refl_typed_prop.getterHelper G cmp.scene cmp.entity.toRef idx)) ∧
      ((∀ (cmp : ComponentUID S) (idx : Nat) (v : Int),
          q.get { cmp with scene := q.set cmp idx v } idx = v) ↔
        (∀ (scene : S) (e : EntityRef) (idx : Nat) (v : Int),
          E.to_i32 (refl_typed_prop.getterHelper G
            (refl_typed_prop.setterHelper St scene e idx (E.of_i32 v)) e idx) = v)) ∧
      ((∀ (scene : S) (e : EntityRef) (idx : Nat) (x : E.E),
          refl_typed_prop.getterHelper G (refl_typed_prop.setterHelper St scene e idx x) e idx
            = x) →
        ∀ (cmp : ComponentUID S) (idx : Nat) (v : Int),
          q.get { cmp with scene := q.set cmp idx v } idx = E.to_i32 (E.of_i32 v)) := by
  obtain ⟨b1, hb1⟩ := Option.isSome_iff_exists.mp h
  have hl := (builder.push_typed_last .int _ b b1 hb1).2
  refine ⟨_, by rw [hb1]; exact hl, rfl, ?_, ?_, ?_, ?_⟩
  · intro cmp idx v
    cases St <;> rfl
  · intro cmp idx
    cases G <;> rfl
  · constructor
    · intro hq scene e idx v
      have h1 := hq { entity := ⟨e.index⟩, type := 0, scene := scene } idx v
      cases St <;> cases G <;> exact h1
    · intro hb cmp idx v
      have h1 := hb cmp.scene cmp.entity.toRef idx v
      cases St <;> cases G <;> exact h1
  · intro hstore cmp idx v
    have h1 := hstore cmp.scene cmp.entity.toRef idx (E.of_i32 v)
    cases St <;> cases G <;> exact congrArg E.to_i32 h1

/-- Witness for C19 (amended): an enumeration with underlying type `i32` over accessors
that store the value: the property `mode` is registered on the component `box`. -/
theorem builder.enum_prop_get_after_set_iff_witness :
    ((builder.enum_prop example_enum_i32 (.args1 (fun (scene : Int) _ => scene))
        (.args2 (fun _ _ v => v)) "mode" (example_state Int)).bind
      (fun b1 => b1.allocator.props[0]?)).map reflprop.name = some "mode" := by
  obtain ⟨q, hq, hname, -⟩ :=
    builder.enum_prop_get_after_set_iff example_enum_i32 (.args1 (fun (scene : Int) _ => scene))
      (.args2 (fun _ _ v => v)) "mode" (example_state Int) rfl
  have hq0 : (builder.enum_prop example_enum_i32 (.args1 (fun (scene : Int) _ => scene))
      (.args2 (fun _ _ v => v)) "mode" (example_state Int)).bind
        (fun b1 => b1.allocator.props[0]?) = some (reflprop.typed .int q) := hq
  rw [hq0]
  exact congrArg some hname

/-- C20: an array property built by `begin_array<Counter, Adder, Remover>` caches nothing.
`getCount(cmp)` is the counter hook evaluated on the current state of the scene of `cmp`
for its entity, so two `getCount` calls on two states return the count of each state;
`addItem(cmp, i)` and `removeItem(cmp, i)` are one run of the adder, of the remover hook on
that scene and entity with the same index `i`: hooks that write their invocations down add
exactly one entry, with that entity and index. -/
theorem builder.array_prop_never_caches {S : Type} (Counter : S → EntityRef → Nat)
    (Adder Remover : S → EntityRef → Nat → S) (name : String) (b : builder S)
    (h : (builder.begin_array Counter Adder Remover name b).isSome = true) :
    ∃ A : reflarrayprop S,
      (builder.begin_array Counter Adder Remover name b).bind
          (fun b1 => b1.allocator.props[b.allocator.props.length]?) =
        some (reflprop.array A) ∧
      A.name = name ∧
      (∀ cmp : ComponentUID S, A.getCount cmp = Counter cmp.scene cmp.entity.toRef) ∧
      (∀ (cmp : ComponentUID S) (s1 s2 : S),
        A.getCount { cmp with scene := s1 } = Counter s1 cmp.entity.toRef ∧
        A.getCount { cmp with scene := s2 } = Counter s2 cmp.entity.toRef) ∧
      (∀ (cmp : ComponentUID S) (i : Nat),
        A.addItem cmp i = Adder cmp.scene cmp.entity.toRef i) ∧
      (∀ (cmp : ComponentUID S) (i : Nat),
        A.removeItem cmp i = Remover cmp.scene cmp.entity.toRef i) ∧
      (∀ (b2 : builder (S × List HookCall)) (name2 : String) (A2 : reflarrayprop (S × List HookCall)),
        (builder.begin_array (fun scene e => Counter scene.1 e) (traced_adder Adder)
            (traced_remover Remover) name2 b2).bind
          (fun b1 => b1.allocator.props[b2.allocator.props.length]?) =
            some (reflprop.array A2) →
        ∀ (cmp : ComponentUID (S × List HookCall)) (i : Nat),
          (A2.addItem cmp i).2 = cmp.scene.2 ++ [HookCall.adder cmp.entity.toRef i] ∧
          (A2.removeItem cmp i).2 = cmp.scene.2 ++ [HookCall.remover cmp.entity.toRef i] ∧
          (A2.addItem cmp i).1 = Adder cmp.scene.1 cmp.entity.toRef i ∧
          (A2.removeItem cmp i).1 = Remover cmp.scene.1 cmp.entity.toRef i) := by
  refine ⟨{ attributes := [], name := name, children := [], counter := Counter,
            adder := Adder, remover := Remover }, ?_, rfl, fun _ => rfl,
    fun _ _ _ => ⟨rfl, rfl⟩, fun _ _ => rfl, fun _ _ => rfl, ?_⟩
  · obtain ⟨b1, hb1⟩ := Option.isSome_iff_exists.mp h
    rw [hb1]
    exact (builder.begin_array_last Counter Adder Remover name b b1 hb1).2.2
  · intro b2 name2 A2 hA2 cmp i
    cases hb : builder.begin_array (fun scene e => Counter scene.1 e) (traced_adder Adder)
        (traced_remover Remover) name2 b2 with
    | none => rw [hb] at hA2; cases hA2
    | some b3 =>
      rw [hb] at hA2
      have hl := (builder.begin_array_last _ _ _ name2 b2 b3 hb).2.2
      have hA3 : b3.allocator.props[b2.allocator.props.length]? = some (reflprop.array A2) :=
        hA2
      rw [hl] at hA3
      cases hA3
      exact ⟨rfl, rfl, rfl, rfl⟩

/-- Witness for C20: the array `items` on the component `box`, over the counter that reads
the number of items: two scene states give their two counts. -/
theorem builder.array_prop_never_caches_witness :
    (((builder.begin_array example_counter example_adder example_remover "items"
          (example_state ℕ)).bind (fun b1 => b1.allocator.props[0]?)).bind
        reflprop.as_array).map
      (fun A => (A.getCount { entity := ⟨1⟩, type := 4, scene := 2 },
                 A.getCount { entity := ⟨1⟩, type := 4, scene := 3 },
                 A.addItem { entity := ⟨1⟩, type := 4, scene := 2 } 0))
      = some (2, 3, 3) := by
  obtain ⟨A, hA, -, hcount, -, hadd, -⟩ :=
    builder.array_prop_never_caches example_counter example_adder example_remover "items"
      (example_state ℕ) rfl
  have hA0 : (builder.begin_array example_counter example_adder example_remover "items"
      (example_state ℕ)).bind (fun b1 => b1.allocator.props[0]?) = some (reflprop.array A) := hA
  rw [hA0]
  simp only [Option.some_bind, reflprop.as_array, Option.map_some', hcount, hadd]
  rfl


/-- C21: `visitChildren` on an array property whose children are the objects `kids` calls,
for every child in the order of declaration, exactly once the overload that matches the
child; visiting a component descriptor that holds the array among its props makes one
call per top-level property, for the array the single call of the array overload,
whatever its children are. -/
theorem reflarrayprop.visitChildren_once_per_child {S V : Type} (heap : List (reflprop S))
    (cmp : reflcmp S) (a : Nat) (arr : reflarrayprop S) (kids before after : List (reflprop S))
    (pre post : List Ptr)
    (ha : heap[a]? = some (reflprop.array arr))
    (hkids : arr.children.map (fun p => heap[p]?) = kids.map some)
    (hprops : cmp.props = pre ++ a :: post)
    (hpre : pre.map (fun p => heap[p]?) = before.map some)
    (hpost : post.map (fun p => heap[p]?) = after.map some)
    (visitor : IReflPropertyVisitor S V) (v : V) :
    arr.visitChildren heap (recorder S) [] =
      some (kids.map (fun o => (⟨o.overload, o⟩ : VisitCall S))) ∧
    (kids.map (fun o => (⟨o.overload, o⟩ : VisitCall S))).length = arr.children.length ∧
    arr.visitChildren heap visitor v = some (kids.foldl (fun w o => o.visit visitor w) v) ∧
    cmp.visit heap (recorder S) [] =
      some (before.map (fun o => (⟨o.overload, o⟩ : VisitCall S)) ++
        (⟨Overload.array, reflprop.array arr⟩ : VisitCall S) ::
        after.map (fun o => (⟨o.overload, o⟩ : VisitCall S))) := by
  refine ⟨?_, ?_, visit_each_fold heap visitor arr.children kids v hkids, ?_⟩
  · unfold reflarrayprop.visitChildren
    rw [visit_each_recorder heap arr.children kids [] hkids]
    simp
  · have hl := congrArg List.length hkids
    simpa using hl.symm
  · have hall : cmp.props.map (fun p => heap[p]?) =
        (before ++ reflprop.array arr :: after).map some := by
      rw [hprops]
      simp [hpre, hpost, ha]
    unfold reflcmp.visit
    rw [visit_each_recorder heap cmp.props _ [] hall]
    simp [reflprop.overload]

/-- Witness for C21: the array `items` with the single child `weight` gives one call of
the int overload; the component that holds `size` and `items` gives the float and the
array overload only. -/
theorem reflarrayprop.visitChildren_once_per_child_witness :
    (∃ arr, example_items_prop = reflprop.array arr ∧
      arr.visitChildren [example_size_prop, example_items_prop, example_weight_prop]
        (recorder ℚ) [] = some [⟨.typed .int, example_weight_prop⟩]) ∧
    example_cmp.visit [example_size_prop, example_items_prop, example_weight_prop]
        (recorder ℚ) [] =
      some [⟨.typed .float, example_size_prop⟩, ⟨.array, example_items_prop⟩] :=
  have h := @reflarrayprop.visitChildren_once_per_child ℚ (List (VisitCall ℚ))
    [example_size_prop, example_items_prop, example_weight_prop] example_cmp 1
    { attributes := [], name := "items", children := [2], counter := fun _ _ => 0,
      adder := fun s _ _ => s, remover := fun s _ _ => s }
    [example_weight_prop] [example_size_prop] [] [0] [] rfl rfl rfl rfl rfl (recorder ℚ) []
  ⟨⟨_, rfl, h.1⟩, h.2.2.2⟩

/-- A property object seen as its own typed kind. -/
theorem reflprop.as_typed_self {S : Type} (T : PropType) (q : refl_typed_prop S T) :
    (reflprop.typed T q).as_typed T = some q := by
  simp [reflprop.as_typed]

/-- A property object is seen as a `refl_typed_prop<T>` only if it is one. -/
theorem reflprop.as_typed_eq_some {S : Type} (T : PropType) (o : reflprop S)
    (q : refl_typed_prop S T) : o.as_typed T = some q ↔ o = reflprop.typed T q := by
  constructor
  · intro h
    cases o with
    | typed T2 p =>
      by_cases hT : T2 = T
      · subst hT
        simp [reflprop.as_typed] at h
        rw [h]
      · simp [reflprop.as_typed, hT] at h
    | array p => simp [reflprop.as_typed] at h
  · intro h
    rw [h]
    exact reflprop.as_typed_self T q

/-- The visitor of `getPropertyValue<T>` reacts to a property object only through the
overload for `refl_typed_prop<T>`. -/
theorem PropertyValueVisitor.vtable_visit {S : Type} (T : PropType) (o : reflprop S)
    (v : PropertyValueVisitor S T) :
    o.visit (PropertyValueVisitor.vtable S T) v =
      match o.as_typed T with
      | some q => PropertyValueVisitor.visit q v
      | none => v := by
  cases o with
  | typed T2 p => cases T <;> cases T2 <;> rfl
  | array p => cases T <;> rfl

/-- Membership in the list of matching properties. -/
theorem mem_matching_props {S : Type} (T : PropType) (prop_name : String)
    (objs : List (reflprop S)) (q : refl_typed_prop S T) :
    q ∈ matching_props T prop_name objs ↔ reflprop.typed T q ∈ objs ∧ q.name = prop_name := by
  unfold matching_props
  simp only [List.mem_filterMap]
  constructor
  · rintro ⟨o, ho, hq⟩
    cases hty : o.as_typed T with
    | none => simp [hty] at hq
    | some q2 =>
      rw [hty] at hq
      by_cases hn : q2.name = prop_name
      · simp [Option.filter, hn] at hq
        subst hq
        exact ⟨((reflprop.as_typed_eq_some T o q2).mp hty) ▸ ho, hn⟩
      · simp [Option.filter, hn] at hq
  · rintro ⟨ho, hn⟩
    exact ⟨_, ho, by simp [reflprop.as_typed_self, Option.filter, hn]⟩

/-- The visiting loop of `getPropertyValue<T>` over the property objects `objs`: `found`
is raised if some object matches, and `value` is the value read through the last match. -/
theorem PropertyValueVisitor.fold {S : Type} (T : PropType) :
    ∀ (objs : List (reflprop S)) (v : PropertyValueVisitor S T),
      objs.foldl (fun w o => o.visit (PropertyValueVisitor.vtable S T) w) v =
        { cmp := v.cmp
          prop_name := v.prop_name
          found := v.found || !(matching_props T v.prop_name objs).isEmpty
          value :=
            match (matching_props T v.prop_name objs).getLast? with
            | some q => q.get v.cmp 4294967295
            | none => v.value } := by
  intro objs
  induction objs with
  | nil => intro v; simp [matching_props]
  | cons o os ih =>
    intro v
    rw [List.foldl_cons, ih, PropertyValueVisitor.vtable_visit]
    cases hty : o.as_typed T with
    | none => simp [matching_props, hty, Option.filter]
    | some q =>
      by_cases hn : q.name = v.prop_name
      · have hm : matching_props T v.prop_name (o :: os) = q :: matching_props T v.prop_name os := by
          simp [matching_props, hty, Option.filter, hn]
        simp only [PropertyValueVisitor.visit, hn, if_true, hm]
        cases hl : matching_props T v.prop_name os with
        | nil => simp
        | cons q2 qs =>
          rw [List.getLast?_cons_cons]
          cases hlast : (q2 :: qs).getLast? with
          | none => simp at hlast
          | some x => simp
      · have hm : matching_props T v.prop_name (o :: os) = matching_props T v.prop_name os := by
          simp [matching_props, hty, Option.filter, hn]
        simp only [PropertyValueVisitor.visit, hn, if_false, hm]

/-- The matching properties are property objects of the list, in the order of the list. -/
theorem matching_props_sublist {S : Type} (T : PropType) (prop_name : String) :
    ∀ objs : List (reflprop S),
      List.Sublist ((matching_props T prop_name objs).map (reflprop.typed T)) objs := by
  intro objs
  unfold matching_props
  induction objs with
  | nil => simp
  | cons o os ih =>
    rw [List.filterMap_cons]
    cases hty : o.as_typed T with
    | none => simpa [Option.filter] using ih.cons o
    | some q =>
      have ho := (reflprop.as_typed_eq_some T o q).mp hty
      by_cases hn : q.name = prop_name
      · simp only [Option.filter, hn, decide_True, if_true, List.map_cons]
        rw [ho]
        exact ih.cons₂ _
      · simpa [Option.filter, hn] using ih.cons o

/-- C22: for a component type whose registered descriptor holds the top-level property
objects `objs`, `getPropertyValue<T>` returns true exactly if `objs` contains a typed
property of value type `T` named `prop_name`; the objects that count are exactly those
(no property of another value type, no array property, no child of an array), and if
there is one the value written to `out` is read through the last of them in the order of
registration. -/
theorem getPropertyValue_matches_last_typed_prop {S : Type}
    (getReflComponent : ComponentType → Option Ptr) (allocator : Allocator S) (T : PropType)
    (scene : S) (e : EntityRef) (cmp_type : ComponentType) (prop_name : String)
    (c : Nat) (desc : reflcmp S) (objs : List (reflprop S))
    (hreg : getReflComponent cmp_type = some c) (hc : allocator.cmps[c]? = some desc)
    (hprops : desc.props.map (fun p => allocator.props[p]?) = objs.map some) :
    (∃ found value,
      getPropertyValue getReflComponent allocator T scene e cmp_type prop_name =
        some (found, value) ∧
      (found = true ↔ ∃ q : refl_typed_prop S T, reflprop.typed T q ∈ objs ∧ q.name = prop_name) ∧
      (∀ q, (matching_props T prop_name objs).getLast? = some q →
        value = q.get { scene := scene, type := cmp_type, entity := e.toPtr } 4294967295)) ∧
    (∀ q : refl_typed_prop S T, q ∈ matching_props T prop_name objs ↔
      reflprop.typed T q ∈ objs ∧ q.name = prop_name) ∧
    (∀ o ∈ objs, o.overload ≠ Overload.typed T → matching_props T prop_name [o] = []) ∧
    List.Sublist ((matching_props T prop_name objs).map (reflprop.typed T)) objs := by
  refine ⟨?_, mem_matching_props T prop_name objs, ?_, ?_⟩
  · have hvisit := visit_each_fold allocator.props (PropertyValueVisitor.vtable S T) desc.props
      objs { cmp := { scene := scene, type := cmp_type, entity := e.toPtr },
             prop_name := prop_name, value := T.zero, found := false } hprops
    rw [PropertyValueVisitor.fold] at hvisit
    refine ⟨!(matching_props T prop_name objs).isEmpty,
      (match (matching_props T prop_name objs).getLast? with
        | some q => q.get { scene := scene, type := cmp_type, entity := e.toPtr } 4294967295
        | none => T.zero), ?_, ?_, ?_⟩
    · simp only [getPropertyValue, hreg, Option.some_bind, hc, reflcmp.visit, hvisit,
        Bool.false_or]
    · simp only [Bool.not_eq_true', List.isEmpty_eq_false]
      constructor
      · intro hne
        obtain ⟨q, hq⟩ := List.exists_mem_of_ne_nil _ hne
        exact ⟨q, (mem_matching_props T prop_name objs q).mp hq⟩
      · rintro ⟨q, hq⟩
        exact List.ne_nil_of_mem ((mem_matching_props T prop_name objs q).mpr hq)
    · intro q hq
      simp only [hq]
  · intro o _ hne
    cases o with
    | typed T2 p =>
      have hT : T2 ≠ T := fun h => hne (by subst h; rfl)
      simp [matching_props, reflprop.as_typed, hT, Option.filter]
    | array p => simp [matching_props, reflprop.as_typed, Option.filter]
  · exact matching_props_sublist T prop_name objs

/-- Witness for C22: a descriptor with a float `size`, an int `size`, a second float
`size` and an array `size`; the float query on the scene `5` is answered by the second
float property, whose getter returns the scene plus one. -/
theorem getPropertyValue_matches_last_typed_prop_witness :
    ∃ found value,
      getPropertyValue (fun t => if t = 4 then some 0 else none) example_same_name_allocator
        .float (5 : ℚ) ⟨1⟩ 4 "size" = some (found, value) ∧
      (found = true ↔ ∃ q : refl_typed_prop ℚ .float,
        reflprop.typed .float q ∈ example_same_name_props ∧ q.name = "size") ∧
      (∀ q, (matching_props .float "size" example_same_name_props).getLast? = some q →
        value = q.get { scene := (5 : ℚ), type := 4, entity := ⟨1⟩ } 4294967295) :=
  (getPropertyValue_matches_last_typed_prop (fun t => if t = 4 then some 0 else none)
    example_same_name_allocator .float (5 : ℚ) ⟨1⟩ 4 "size" 0
    { example_cmp with props := [0, 1, 2, 3] } example_same_name_props rfl rfl rfl).1

/-- C23: `end_array` always returns, with both the array cursor and `last_prop` cleared
and every declared object kept; in the state it returns every attribute method
dereferences the null `last_prop`: no property is the target of the attribute. -/
theorem builder.end_array_clears_attribute_target {S : Type} (b : builder S) :
    b.end_array = some { b with array := none, last_prop := none } ∧
    (b.end_array.map (fun b1 => (b1.array, b1.last_prop, b1.allocator.props.length))) =
      some (none, none, b.allocator.props.length) ∧
    (∀ a : IAttribute S, b.end_array.bind (builder.push_attribute a) = none) ∧
    (∀ value : float, b.end_array.bind (builder.minAttribute value) = none) ∧
    (∀ min max : float, b.end_array.bind (builder.clampAttribute min max) = none) ∧
    (∀ type : ResourceType, b.end_array.bind (builder.resourceAttribute type) = none) ∧
    (∀ T : IAttribute S, b.end_array.bind (builder.enumAttribute T) = none) ∧
    b.end_array.bind builder.radiansAttribute = none ∧
    b.end_array.bind builder.colorAttribute = none ∧
    b.end_array.bind builder.noUIAttribute = none ∧
    b.end_array.bind builder.multilineAttribute = none ∧
    (((example_open_array_state.prop .float example_getSize example_setSize "weight").bind
        builder.end_array).bind (builder.minAttribute 0) = none ∧
      (((example_open_array_state.prop .float example_getSize example_setSize "weight").bind
        builder.end_array).map (fun b1 => b1.allocator.props.length)) = some 2) := by
  refine ⟨rfl, rfl, fun _ => rfl, fun _ => rfl, fun _ _ => rfl, fun _ => rfl, fun _ => rfl,
    rfl, rfl, rfl, rfl, rfl, rfl⟩

/-- The result of `cmp` followed by the declaration of a typed property while the bracket
of the array at address `a` is open. -/
theorem builder.cmp_then_push_typed {S : Type} (ext : Externals)
    (Creator Destroyer : S → EntityRef → S) (cname label : String) (b : builder S) (a : Nat)
    (arr : reflarrayprop S) (harr : b.array = some a)
    (ha : b.allocator.props[a]? = some (reflprop.array arr))
    (T : PropType) (q : refl_typed_prop S T) :
    ∃ b2, (builder.cmp ext Creator Destroyer cname label b).bind (builder.push_typed T q) =
        some b2 ∧
      (b2.allocator.props[a]?).map reflprop.children =
        some (arr.children ++ [b.allocator.props.length]) ∧
      b2.allocator.props[b.allocator.props.length]? = some (reflprop.typed T q) ∧
      (b2.allocator.cmps[b.allocator.cmps.length]?).map (fun d => (d.name, d.props)) =
        some (cname, []) ∧
      b2.scene.cmps.getLast? = some b.allocator.cmps.length ∧
      (∀ c0 : Nat, c0 < b.allocator.cmps.length →
        b2.allocator.cmps[c0]? = b.allocator.cmps[c0]?) ∧
      b2.array = some a ∧
      b2.last_prop = some b.allocator.props.length := by
  have hlt : a < b.allocator.props.length := getElem?_some_lt _ _ _ ha
  obtain ⟨b1, hb1, hA1, hP1, hC1, hS1⟩ : ∃ b1 : builder S,
      builder.cmp ext Creator Destroyer cname label b = some b1 ∧
      b1.array = b.array ∧
      b1.allocator.props = b.allocator.props ∧
      b1.allocator.cmps = b.allocator.cmps ++
        [{ icon := "", name := cname, label := label, scene := ext.crc32 b.scene.name,
           creator := Creator, destroyer := Destroyer,
           component_type := ext.getComponentType cname, props := [], functions := [] }] ∧
      b1.scene.cmps = b.scene.cmps ++ [b.allocator.cmps.length] :=
    ⟨_, builder.cmp_eq ext Creator Destroyer cname label b, rfl, rfl, rfl, rfl⟩
  have ha1 : b1.allocator.props[a]? = some (reflprop.array arr) := by rw [hP1]; exact ha
  have h2 := builder.push_typed_array T q b1 a arr (hA1.trans harr) ha1
  rw [hb1, Option.some_bind, h2]
  have hlt2 : a < (b1.allocator.props ++ [reflprop.typed T q]).length := by
    rw [hP1, List.length_append]
    exact Nat.lt_of_lt_of_le hlt (Nat.le_add_right _ _)
  refine ⟨_, rfl, ?_, ?_, ?_, ?_, ?_, hA1.trans harr, ?_⟩
  · show Option.map reflprop.children (((b1.allocator.props ++ [_]).set _ _)[_]?) = _
    rw [List.getElem?_set_self hlt2, hP1]
    rfl
  · show ((b1.allocator.props ++ [_]).set _ _)[_]? = _
    rw [List.getElem?_set_ne (Nat.ne_of_lt hlt), hP1]
    exact List.getElem?_concat_length _ _
  · show Option.map (fun (d : reflcmp S) => (d.name, d.props)) (b1.allocator.cmps[_]?) = _
    rw [hC1, List.getElem?_concat_length]
    rfl
  · show b1.scene.cmps.getLast? = _
    rw [hS1, List.getLast?_concat]
  · intro c0 hc0
    show b1.allocator.cmps[c0]? = _
    rw [hC1, List.getElem?_append_left hc0]
  · show some b1.allocator.props.length = _
    rw [hP1]

/-- C24: `cmp` leaves the array cursor and `last_prop` as they are. Called while the
bracket of the array at address `a` is open, it appends a new component with empty props;
a following `prop`, `var_prop` or `enum_prop` succeeds and appends the new property to the
children of the array `a`, the props of the new component stay empty and every earlier
component descriptor is unchanged. -/
theorem builder.cmp_keeps_open_array {S Obj : Type} (ext : Externals)
    (Creator Destroyer : S → EntityRef → S) (cname label : String) (b : builder S) (a : Nat)
    (arr : reflarrayprop S) (harr : b.array = some a)
    (ha : b.allocator.props[a]? = some (reflprop.array arr))
    (T : PropType) (G : GetterFn S T.Val) (St : SetterFn S T.Val)
    (T2 : PropType) (Gr : RefGetterFn S Obj) (Pg : MemberPtr Obj T2.Val)
    (E : builder.EnumType) (Ge : GetterFn S E.E) (Se : SetterFn S E.E) (name : String) :
    ((builder.cmp ext Creator Destroyer cname label b).map
        (fun b1 => (b1.array, b1.last_prop))) = some (b.array, b.last_prop) ∧
    (∀ r, (r = (builder.cmp ext Creator Destroyer cname label b).bind
                (builder.prop T G St name) ∨
           r = (builder.cmp ext Creator Destroyer cname label b).bind
                (builder.var_prop T2 Gr Pg name) ∨
           r = (builder.cmp ext Creator Destroyer cname label b).bind
                (builder.enum_prop E Ge Se name)) →
      ∃ b2, r = some b2 ∧
        (b2.allocator.props[a]?).map reflprop.children =
          some (arr.children ++ [b.allocator.props.length]) ∧
        (b2.allocator.props[b.allocator.props.length]?).map reflprop.name = some name ∧
        (b2.allocator.cmps[b.allocator.cmps.length]?).map (fun d => (d.name, d.props)) =
          some (cname, []) ∧
        b2.scene.cmps.getLast? = some b.allocator.cmps.length ∧
        (∀ c0 : Nat, c0 < b.allocator.cmps.length →
          b2.allocator.cmps[c0]? = b.allocator.cmps[c0]?)) := by
  constructor
  · rw [builder.cmp_eq]
    rfl
  · intro r hr
    rcases hr with h | h | h
    · subst h
      obtain ⟨b2, h2, hch, hnew, hcmp, hback, hold, -, -⟩ :=
        builder.cmp_then_push_typed ext Creator Destroyer cname label b a arr harr ha T
          { attributes := [], name := name, setter := refl_typed_prop.setterHelper St,
            getter := refl_typed_prop.getterHelper G }
      exact ⟨b2, h2, hch, by rw [hnew]; rfl, hcmp, hback, hold⟩
    · subst h
      obtain ⟨b2, h2, hch, hnew, hcmp, hback, hold, -, -⟩ :=
        builder.cmp_then_push_typed ext Creator Destroyer cname label b a arr harr ha T2
          { attributes := [], name := name,
            setter := refl_typed_prop.setterVarHelper Gr Pg,
            getter := refl_typed_prop.getterVarHelper Gr Pg }
      exact ⟨b2, h2, hch, by rw [hnew]; rfl, hcmp, hback, hold⟩
    · subst h
      obtain ⟨b2, h2, hch, hnew, hcmp, hback, hold, -, -⟩ :=
        builder.cmp_then_push_typed ext Creator Destroyer cname label b a arr harr ha .int
          (_ : refl_typed_prop S .int)
      exact ⟨b2, h2, hch, by rw [hnew]; rfl, hcmp, hback, hold⟩

/-- Witness for C24: `cmp("box")`, `begin_array("items")`, `cmp("sphere")`,
`prop("radius")`: the array `items` of `box` holds the property, `sphere` has no props. -/
theorem builder.cmp_keeps_open_array_witness :
    ∃ b2, (example_open_array_state.cmp example_ext (fun s _ => s) (fun s _ => s) "sphere"
        "Sphere").bind (builder.prop .float example_getSize example_setSize "radius") =
        some b2 ∧
      (b2.allocator.props[0]?).map reflprop.children = some [1] ∧
      (b2.allocator.cmps[1]?).map (fun d => (d.name, d.props)) = some ("sphere", []) := by
  obtain ⟨b2, h, hch, -, hcmp, -⟩ :=
    (@builder.cmp_keeps_open_array ℚ ℚ example_ext (fun s _ => s) (fun s _ => s) "sphere"
      "Sphere" example_open_array_state 0
      { attributes := [], name := "items", children := [], counter := fun _ _ => 0,
        adder := fun s _ _ => s, remover := fun s _ _ => s } rfl rfl
      .float example_getSize example_setSize .float example_ref_getter example_member_ptr
      example_enum (.args1 (fun _ _ => true)) (.args2 (fun s _ _ => s)) "radius").2 _
      (Or.inl rfl)
  exact ⟨b2, h, hch, hcmp⟩

end reflection

/-! ## Theorems about physics_scene.cpp and model.cpp -/

/-- An `int` result inside the range is stored unchanged. -/
theorem to_int_of_range (x : Int) (h1 : -2147483648 ≤ x) (h2 : x ≤ 2147483647) :
    to_int x = x := by
  unfold to_int
  omega

/-- A value inside the range of `uint32_t` converts to itself. -/
theorem to_u32_of_range (x : Int) (h1 : 0 ≤ x) (h2 : x < 4294967296) : to_u32 x = x := by
  unfold to_u32
  omega

/-- As long as `pos + count` does not leave the range of `int`, `InputStream::read` meets
the contract of the specification. -/
theorem InputStream.read_in_range (self : InputStream) (count : Nat)
    (hpos : 0 ≤ self.pos) (hsize : self.pos ≤ self.size)
    (hdata : self.size = self.data.length) (hsum : self.pos + count ≤ 2147483647) :
    self.read count = some (self.read_spec count) ∧
    0 ≤ (self.read_spec count).2.1.pos ∧
    (self.read_spec count).2.1.pos ≤ (self.read_spec count).2.1.size := by
  have hc : to_int (count : Int) = count := to_int_of_range _ (by omega) (by omega)
  have hs : to_int (self.pos + count) = self.pos + count := to_int_of_range _ (by omega) (by omega)
  refine ⟨?_, ?_, ?_⟩
  · unfold InputStream.read InputStream.read_spec
    rw [hc, hs]
    by_cases hle : self.pos + count ≤ self.size
    · have hmin : min (count : Int) (self.size - self.pos) = count := by omega
      have hu : to_int (to_u32 (to_u32 self.pos + count)) = self.pos + count := by
        rw [to_u32_of_range self.pos (by omega) (by omega),
          to_u32_of_range _ (by omega) (by omega), hs]
      have hm : memcpy_from self.data self.pos count =
          some ((self.data.drop self.pos.toNat).take count) := by
        unfold memcpy_from
        rw [if_pos ⟨hpos, by omega, by omega⟩, Int.toNat_ofNat]
      simp only [hle, if_true, hm, hmin, hu, Int.toNat_ofNat]
    · have hmin : min (count : Int) (self.size - self.pos) = self.size - self.pos := by omega
      have hd : to_int (self.size - self.pos) = self.size - self.pos :=
        to_int_of_range _ (by omega) (by omega)
      have hm : memcpy_from self.data self.pos (self.size - self.pos) =
          some ((self.data.drop self.pos.toNat).take (self.size - self.pos).toNat) := by
        unfold memcpy_from
        rw [if_pos ⟨hpos, by omega, by omega⟩]
      have hu : to_u32 (self.size - self.pos) = self.size - self.pos :=
        to_u32_of_range _ (by omega) (by omega)
      have hback : self.pos + (self.size - self.pos) = self.size := by omega
      simp only [hle, if_false, hd, hm, hmin, hu, hback]
  · unfold InputStream.read_spec
    simp only
    omega
  · unfold InputStream.read_spec
    simp only
    omega

/-- C30 (evaluation at the failing input): on a buffer of 10 bytes with `pos = 5`, a read
of `count = 2147483647 < 2^31` bytes should return 5, copy the bytes 5..9 and leave
`pos = 10`. In the code `pos + (int)count` leaves the range of `int`, the wrapped sum is
negative and passes the test `<= size`, so `memcpy` copies `count` bytes from a buffer that
holds 5 more: the read runs past the end of the buffer. The same happens at `pos = size`,
where the read should return 0. -/
theorem InputStream.read_overflows_bounds_check :
    to_int (example_stream.pos + to_int (2147483647 : Nat)) = -2147483644 ∧
    example_stream.read 2147483647 = none ∧
    example_stream.read_spec 2147483647 =
      ([15, 16, 17, 18, 19], { example_stream with pos := 10 }, 5) ∧
    InputStream.read { example_stream with pos := 10 } 2147483647 = none ∧
    InputStream.read_spec { example_stream with pos := 10 } 2147483647 =
      ([], { example_stream with pos := 10 }, 0) := by
  refine ⟨by decide, by decide, ?_, by decide, ?_⟩
  · simp [InputStream.read_spec, example_stream]
  · simp [InputStream.read_spec, example_stream]

/-- C26 (evaluation at the failing input): for the count 1 and the record `(7, false)`
the array `m_controllers` gets one entry with the stored flag, a controller is created and
the component of entity 7 is added, but the entry holds neither: `m_controllers.push(c)`
copies `c` before `c.m_controller` and `c.m_entity` are assigned. The sibling
`createController`, which assigns all members before the push, leaves the entry with
entity 7 and the created controller. -/
theorem PhysicsSceneImpl.deserializeControllers_entry_left_unassigned :
    PhysicsSceneImpl.deserializeControllers PhysicsSceneImpl.example_scene 1 [(7, false)] =
      some { m_controllers := [{ m_controller := none, m_entity := none, m_is_free := false }]
             created := 1
             released := []
             components := [(⟨7⟩, 0)] } ∧
    PhysicsSceneImpl.createController PhysicsSceneImpl.example_scene ⟨7⟩ =
      { m_controllers := [{ m_controller := some 0, m_entity := some ⟨7⟩, m_is_free := false }]
        created := 1
        released := []
        components := [(⟨7⟩, 0)] } := by
  constructor
  · rfl
  · rfl

/-- Between two floats that are numbers, `>=` fails exactly when `<` holds. -/
theorem ieee_float.ge_eq_false_iff_lt (a b : ieee_float) (ha : a ≠ ieee_float.nan)
    (hb : b ≠ ieee_float.nan) : a.ge b = false ↔ a.lt b = true := by
  cases a with
  | nan => exact absurd rfl ha
  | neg_infinity => cases b <;> simp [ieee_float.ge, ieee_float.lt] at hb ⊢
  | infinity => cases b <;> simp [ieee_float.ge, ieee_float.lt] at hb ⊢
  | finite x =>
    cases b with
    | nan => exact absurd rfl hb
    | neg_infinity => simp [ieee_float.ge, ieee_float.lt]
    | infinity => simp [ieee_float.ge, ieee_float.lt]
    | finite y => simp [ieee_float.ge, ieee_float.lt]

/-- The scan of `getLODMeshIndices` stops at the first LOD for which the loop test
`squared_distance >= m_distance` fails, and runs behind the last element when there is
none. -/
theorem Model.getLODMeshIndices_scan_spec (d : ieee_float) :
    ∀ (lods : List Model.LOD) (i0 : Int),
      ((∀ lod ∈ lods, d.ge lod.m_distance = true) ∧
        Model.getLODMeshIndices.scan d lods i0 = none) ∨
      (∃ (k : Nat) (lod : Model.LOD), lods[k]? = some lod ∧ d.ge lod.m_distance = false ∧
        (∀ (j : Nat) (l : Model.LOD), j < k → lods[j]? = some l → d.ge l.m_distance = true) ∧
        Model.getLODMeshIndices.scan d lods i0 = some (i0 + k, lod)) := by
  intro lods
  induction lods with
  | nil => intro i0; left; exact ⟨by simp, rfl⟩
  | cons lod rest ih =>
    intro i0
    cases h : d.ge lod.m_distance with
    | true =>
      rcases ih (i0 + 1) with ⟨hall, hnone⟩ | ⟨k, l, hk, hd, hfirst, hscan⟩
      · left
        refine ⟨?_, ?_⟩
        · intro x hx
          rcases List.mem_cons.mp hx with rfl | hx
          · exact h
          · exact hall x hx
        · simp only [Model.getLODMeshIndices.scan, h, if_true, hnone]
      · right
        refine ⟨k + 1, l, by simpa using hk, hd, ?_, ?_⟩
        · intro j l2 hj hl2
          cases j with
          | zero =>
            simp at hl2
            rw [← hl2]
            exact h
          | succ j => exact hfirst j l2 (Nat.lt_of_succ_lt_succ hj) (by simpa using hl2)
        · simp only [Model.getLODMeshIndices.scan, h, if_true, hscan]
          congr 2
          push_cast
          ring
    | false =>
      right
      refine ⟨0, lod, by simp, h, ?_, ?_⟩
      · intro j l hj
        exact absurd hj (Nat.not_lt_zero j)
      · simp [Model.getLODMeshIndices.scan, h]

/-- C28 (counterexample): two LODs, the first with a not-a-number distance (as a file can
store it), the second at the distance 100, and `d = 5`. The only LOD with
`d < m_distance` is the second one, but the loop test `5 >= NaN` is false, so the scan
stops at once and the mesh range of the first LOD is returned. -/
theorem Model.getLODMeshIndices_counterexample :
    Model.getLODMeshIndices
        { m_bones := [], m_first_nonroot_bone_index := -1,
          m_lods := [⟨0, 1, ieee_float.nan⟩, ⟨2, 4, 100⟩] } 5 = some ⟨0, 1⟩ ∧
    ieee_float.lt 5 ieee_float.nan = false ∧ ieee_float.lt 5 100 = true ∧
    (⟨0, 1⟩ : LODMeshIndices) ≠ ⟨2, 4⟩ := by
  refine ⟨by decide, by decide, by decide, by decide⟩

/-- C28 (amended): `getLODMeshIndices(d)` returns the mesh range of the first LOD, in
stored order, for which the loop test `d >= m_distance` is false, whenever there is one;
if `d` and the distances of the LODs up to that one are numbers, this is the first LOD with
`d < m_distance`. A not-a-number distance, or a not-a-number `d`, stops the scan at the
LOD it meets. When `d >= m_distance` holds for every LOD, in particular when there are no
LODs, the scan reads `m_lods` behind its last element (no bound stops it). A model made by
`create` answers every number `d < FLT_MAX`. -/
theorem Model.getLODMeshIndices_first_lod_beyond (self : Model) (d : ieee_float) :
    (∀ (i : Nat) (lod : Model.LOD), self.m_lods[i]? = some lod →
      d.ge lod.m_distance = false →
      (∀ (k : Nat) (l : Model.LOD), k < i → self.m_lods[k]? = some l →
        d.ge l.m_distance = true) →
      Model.getLODMeshIndices.scan d self.m_lods 0 = some ((i : Int), lod) ∧
      self.getLODMeshIndices d = some ⟨lod.m_from_mesh, lod.m_to_mesh⟩) ∧
    (d ≠ ieee_float.nan →
      ∀ (i : Nat) (lod : Model.LOD), self.m_lods[i]? = some lod →
      (∀ (k : Nat) (l : Model.LOD), k ≤ i → self.m_lods[k]? = some l →
        l.m_distance ≠ ieee_float.nan) →
      d.lt lod.m_distance = true →
      (∀ (k : Nat) (l : Model.LOD), k < i → self.m_lods[k]? = some l →
        d.lt l.m_distance = false) →
      self.getLODMeshIndices d = some ⟨lod.m_from_mesh, lod.m_to_mesh⟩) ∧
    ((∃ lod ∈ self.m_lods, d.ge lod.m_distance = false) →
      ∃ (i : Nat) (lod : Model.LOD), self.m_lods[i]? = some lod ∧
        d.ge lod.m_distance = false ∧
        (∀ (k : Nat) (l : Model.LOD), k < i → self.m_lods[k]? = some l →
          d.ge l.m_distance = true) ∧
        self.getLODMeshIndices d = some ⟨lod.m_from_mesh, lod.m_to_mesh⟩) ∧
    (∀ (lod : Model.LOD) (rest : List Model.LOD), self.m_lods = lod :: rest →
      (lod.m_distance = ieee_float.nan ∨ d = ieee_float.nan) →
      self.getLODMeshIndices d = some ⟨lod.m_from_mesh, lod.m_to_mesh⟩) ∧
    ((∀ lod ∈ self.m_lods, d.ge lod.m_distance = true) →
      Model.getLODMeshIndices.scan d self.m_lods 0 = none ∧ self.getLODMeshIndices d = none) ∧
    (self.m_lods = [] → self.getLODMeshIndices d = none) ∧
    (self.m_lods = [] → d ≠ ieee_float.nan → d.lt Model.FLT_MAX = true →
      self.create.getLODMeshIndices d = some ⟨0, 0⟩) := by
  have hspec := Model.getLODMeshIndices_scan_spec d self.m_lods 0
  have hfirst_stop : ∀ (i : Nat) (lod : Model.LOD), self.m_lods[i]? = some lod →
      d.ge lod.m_distance = false →
      (∀ (k : Nat) (l : Model.LOD), k < i → self.m_lods[k]? = some l →
        d.ge l.m_distance = true) →
      Model.getLODMeshIndices.scan d self.m_lods 0 = some ((i : Int), lod) ∧
      self.getLODMeshIndices d = some ⟨lod.m_from_mesh, lod.m_to_mesh⟩ := by
    intro i lod hi hd hfirst
    rcases hspec with ⟨hall, -⟩ | ⟨k, l, hk, hdk, hfirstk, hscan⟩
    · have ht := hall lod (List.getElem?_mem hi)
      rw [hd] at ht
      cases ht
    · have hki : k = i := by
        rcases Nat.lt_trichotomy k i with hlt | heq | hgt
        · have ht := hfirst k l hlt hk
          rw [hdk] at ht
          cases ht
        · exact heq
        · have ht := hfirstk i lod hgt hi
          rw [hd] at ht
          cases ht
      subst hki
      rw [hi] at hk
      cases hk
      have hscan2 : Model.getLODMeshIndices.scan d self.m_lods 0 = some ((k : Int), lod) := by
        rw [hscan]; simp
      exact ⟨hscan2, by simp only [Model.getLODMeshIndices, hscan2]⟩
  refine ⟨hfirst_stop, ?_, ?_, ?_, ?_, ?_, ?_⟩
  · intro hdn i lod hi hnum hlt hbefore
    refine (hfirst_stop i lod hi ?_ ?_).2
    · exact (ieee_float.ge_eq_false_iff_lt d _ hdn (hnum i lod (Nat.le_refl i) hi)).mpr hlt
    · intro k l hk hl
      cases hge : d.ge l.m_distance with
      | true => rfl
      | false =>
        have hl2 := (ieee_float.ge_eq_false_iff_lt d _ hdn
          (hnum k l (Nat.le_of_lt hk) hl)).mp hge
        rw [hbefore k l hk hl] at hl2
        cases hl2
  · rintro ⟨lod, hmem, hd⟩
    rcases hspec with ⟨hall, -⟩ | ⟨k, l, hk, hdk, hfirstk, hscan⟩
    · have ht := hall lod hmem
      rw [hd] at ht
      cases ht
    · exact ⟨k, l, hk, hdk, hfirstk, by simp only [Model.getLODMeshIndices, hscan]⟩
  · intro lod rest hl hnan
    have hge : d.ge lod.m_distance = false := by
      rcases hnan with h | h
      · rw [h]; cases d <;> rfl
      · rw [h]; cases lod.m_distance <;> rfl
    exact (hfirst_stop 0 lod (by rw [hl]; simp) hge
      (fun k l hk _ => absurd hk (Nat.not_lt_zero k))).2
  · intro hall
    rcases hspec with ⟨-, hnone⟩ | ⟨k, l, hk, hdk, -, -⟩
    · exact ⟨hnone, by simp only [Model.getLODMeshIndices, hnone]⟩
    · have ht := hall l (List.getElem?_mem hk)
      rw [hdk] at ht
      cases ht
  · intro hnil
    simp [Model.getLODMeshIndices, hnil, Model.getLODMeshIndices.scan]
  · intro hnil hdn hd
    have hge : d.ge Model.FLT_MAX = false :=
      (ieee_float.ge_eq_false_iff_lt d _ hdn (by simp [Model.FLT_MAX])).mpr hd
    simp [Model.getLODMeshIndices, Model.create, hnil, Model.getLODMeshIndices.scan, hge]

/-- Witness for C28 (amended): of three LODs at the distances 10, 100 and `FLT_MAX`, the
distance 50 selects the second one. -/
theorem Model.getLODMeshIndices_first_lod_beyond_witness :
    Model.getLODMeshIndices
      { m_bones := [], m_first_nonroot_bone_index := -1,
        m_lods := [⟨0, 1, 10⟩, ⟨2, 4, 100⟩, ⟨5, 5, Model.FLT_MAX⟩] } 50 = some ⟨2, 4⟩ :=
  ((Model.getLODMeshIndices_first_lod_beyond
    { m_bones := [], m_first_nonroot_bone_index := -1,
      m_lods := [⟨0, 1, 10⟩, ⟨2, 4, 100⟩, ⟨5, 5, Model.FLT_MAX⟩] } 50).1 1 ⟨2, 4, 100⟩ rfl
    (by decide) (fun k l hk hl => by
      have hk0 : k = 0 := Nat.lt_one_iff.mp hk
      subst hk0
      have hl0 : l = ⟨0, 1, 10⟩ := (Option.some.inj hl).symm
      subst hl0
      decide)).2

/-- A counting loop keeps an invariant that every iteration keeps, and is defined if every
iteration is. -/
theorem for_loop_spec {σ : Type} (body : Int → σ → Option σ) (Inv : Nat → σ → Prop) (n : Nat)
    (hstep : ∀ (i : Nat) (s : σ), i < n → Inv i s →
      ∃ s', body (i : Int) s = some s' ∧ Inv (i + 1) s') :
    ∀ (k i : Nat) (s : σ), i + k = n → Inv i s →
      ∃ s', for_loop body k (i : Int) s = some s' ∧ Inv n s' := by
  intro k
  induction k with
  | zero =>
    intro i s hik hinv
    have hi : i = n := by omega
    subst hi
    exact ⟨s, rfl, hinv⟩
  | succ k ih =>
    intro i s hik hinv
    obtain ⟨s1, hs1, hinv1⟩ := hstep i s (by omega) hinv
    obtain ⟨s2, hs2, hinv2⟩ := ih (i + 1) s1 (by omega) hinv1
    refine ⟨s2, ?_, hinv2⟩
    unfold for_loop
    rw [hs1]
    simp only
    have hcast : ((i : Int) + 1) = ((i + 1 : Nat) : Int) := by push_cast; rfl
    rw [hcast]
    exact hs2

/-- Reading an element at an index that is a natural number. -/
theorem Array_at_natCast {α : Type} (a : List α) (i : Nat) : Array_at a (i : Int) = a[i]? := by
  simp [Array_at]

/-- Writing an element at an index that is a natural number inside the array. -/
theorem Array_assign_natCast {α : Type} (a : List α) (i : Nat) (x : α) (h : i < a.length) :
    Array_assign a (i : Int) x = some (a.set i x) := by
  unfold Array_assign
  rw [if_pos ⟨by omega, by omega⟩]
  simp

/-- A destination index of a `w * h` grid is inside the grid. -/
theorem grid_index_lt (w h i j : Nat) (hi : i < w) (hj : j < h) : i + j * w < w * h := by
  have h1 : (j + 1) * w ≤ h * w := Nat.mul_le_mul_right w hj
  rw [Nat.succ_mul, Nat.mul_comm h w] at h1
  omega

/-- A source index of a `w * h` grid is inside the grid. -/
theorem grid_index_lt_transposed (w h i j : Nat) (hi : i < w) (hj : j < h) :
    j + i * h < w * h := by
  have h1 := grid_index_lt h w j i hj hi
  rw [Nat.mul_comm h w] at h1
  exact h1

/-- Row and column of a destination index. -/
theorem grid_index_div_mod (w i j : Nat) (hi : i < w) :
    (i + j * w) / w = j ∧ (i + j * w) % w = i := by
  have hw : 0 < w := by omega
  constructor
  · rw [Nat.add_mul_div_right _ _ hw, Nat.div_eq_of_lt hi, Nat.zero_add]
  · rw [Nat.add_mul_mod_self_right, Nat.mod_eq_of_lt hi]

/-- Every pixel of a heightmap with `w * h * bytes_per_pixel` bytes can be read. -/
theorem PhysicsSceneImpl.source_pixel_defined (data : List Nat) (bpp w h p : Nat)
    (hbpp : 1 ≤ bpp) (hdata : data.length = w * h * bpp) (hp : p < w * h) :
    ∃ v, PhysicsSceneImpl.source_pixel data bpp p = some v := by
  unfold PhysicsSceneImpl.source_pixel
  by_cases h2 : bpp = 2
  · subst h2
    have hlo : 2 * p < data.length := by omega
    have hhi : 2 * p + 1 < data.length := by omega
    simp [PhysicsSceneImpl.read_u16, List.getElem?_eq_getElem hlo, List.getElem?_eq_getElem hhi]
  · have hlt : p * bpp < data.length := by
      rw [hdata]
      exact Nat.mul_lt_mul_of_lt_of_le hp (Nat.le_refl _) (by omega)
    simp [h2, List.getElem?_eq_getElem hlt]

/-- A natural number inside the range of `int` is stored unchanged. -/
theorem to_int_natCast (n : Nat) (h : n ≤ 2147483647) : to_int (n : Int) = (n : Int) :=
  to_int_of_range (n : Int) (by omega) (by omega)

/-- The index arithmetic of the copy loops inside the range of `int`. -/
theorem PhysicsSceneImpl.copy_indices (w h i j : Nat)
    (hsize : w * h ≤ 2147483647) (hi : i < w) (hj : j < h) :
    to_int ((j : Int) * (w : Int)) = ((j * w : Nat) : Int) ∧
    to_int ((i : Int) + to_int ((j : Int) * (w : Int))) = ((i + j * w : Nat) : Int) ∧
    to_int ((j : Int) + to_int ((i : Int) * (h : Int))) = ((j + i * h : Nat) : Int) ∧
    to_int (((i + j * w : Nat) : Int) + 1) = ((i + 1 + j * w : Nat) : Int) := by
  have h1 : i + j * w < w * h := grid_index_lt w h i j hi hj
  have h2 : j + i * h < w * h := grid_index_lt_transposed w h i j hi hj
  have b1 : j * w ≤ 2147483647 :=
    Nat.le_trans (Nat.le_add_left _ _) (Nat.le_trans (Nat.le_of_lt h1) hsize)
  have b2 : i * h ≤ 2147483647 :=
    Nat.le_trans (Nat.le_add_left _ _) (Nat.le_trans (Nat.le_of_lt h2) hsize)
  have b3 : i + j * w ≤ 2147483647 := Nat.le_trans (Nat.le_of_lt h1) hsize
  have b4 : j + i * h ≤ 2147483647 := Nat.le_trans (Nat.le_of_lt h2) hsize
  have b6 : i + 1 + j * w ≤ 2147483647 := by
    have : i + 1 + j * w = (i + j * w) + 1 := Nat.add_right_comm i 1 (j * w)
    rw [this]
    exact Nat.le_trans h1 hsize
  have c1 : to_int ((j : Int) * (w : Int)) = ((j * w : Nat) : Int) := by
    rw [← Nat.cast_mul]; exact to_int_natCast _ b1
  have c2 : to_int ((i : Int) * (h : Int)) = ((i * h : Nat) : Int) := by
    rw [← Nat.cast_mul]; exact to_int_natCast _ b2
  refine ⟨c1, ?_, ?_, ?_⟩
  · rw [c1, ← Nat.cast_add]; exact to_int_natCast _ b3
  · rw [c2, ← Nat.cast_add]; exact to_int_natCast _ b4
  · have e : (((i + j * w : Nat) : Int) + 1) = ((i + 1 + j * w : Nat) : Int) := by
      rw [Nat.add_right_comm i 1 (j * w)]; rfl
    rw [e]; exact to_int_natCast _ b6

/-- The byte offset `idx2 * bytes_per_pixel` of the generic branch inside the range of
`int`: the largest offset is that of the last pixel. -/
theorem PhysicsSceneImpl.copy_byte_offset (w h bpp i j : Nat)
    (hbyte : (w * h - 1) * bpp ≤ 2147483647) (hi : i < w) (hj : j < h) :
    to_int (((j + i * h : Nat) : Int) * (bpp : Int)) = (((j + i * h) * bpp : Nat) : Int) := by
  have h2 : j + i * h < w * h := grid_index_lt_transposed w h i j hi hj
  have h3 : j + i * h ≤ w * h - 1 := Nat.le_sub_one_of_lt h2
  have b5 : (j + i * h) * bpp ≤ 2147483647 :=
    Nat.le_trans (Nat.mul_le_mul_right bpp h3) hbyte
  rw [← Nat.cast_mul]
  exact to_int_natCast _ b5

/-- One iteration of the inner loop of the generic branch with all indices in range. -/
theorem PhysicsSceneImpl.heightmapLoaded.copy8_eq (data : List Nat) (width height bpp j i : Int)
    (hs : List (Option PxHeightFieldSample)) (tr : List (Int × Int)) (idx idx2 byte v : Nat)
    (hidx : to_int (i + to_int (j * width)) = (idx : Int))
    (hidx2 : to_int (j + to_int (i * height)) = (idx2 : Int))
    (hbyte : to_int ((idx2 : Int) * bpp) = (byte : Int))
    (hv : data[byte]? = some v) (hlt : idx < hs.length) :
    PhysicsSceneImpl.heightmapLoaded.copy8 data width height bpp j i (hs, tr) =
      some (hs.set idx (some ⟨to_i16 (v : Int), 0, 0⟩), tr ++ [((idx : Int), (idx2 : Int))]) := by
  unfold PhysicsSceneImpl.heightmapLoaded.copy8
  simp only []
  rw [hidx, hidx2, hbyte, Array_at_natCast, hv]
  simp only []
  rw [Array_assign_natCast _ _ _ hlt]

/-- One iteration of the inner loop of the 2-byte branch with all indices in range. -/
theorem PhysicsSceneImpl.heightmapLoaded.copy16_eq (data : List Nat) (height j i : Int)
    (hs : List (Option PxHeightFieldSample)) (tr : List (Int × Int)) (idx idx2 next v : Nat)
    (hidx2 : to_int (j + to_int (i * height)) = (idx2 : Int))
    (hnext : to_int ((idx : Int) + 1) = (next : Int))
    (hv : PhysicsSceneImpl.read_u16 data (idx2 : Int) = some v) (hlt : idx < hs.length) :
    PhysicsSceneImpl.heightmapLoaded.copy16 data height j i ((hs, tr), (idx : Int)) =
      some ((hs.set idx (some ⟨to_i16 (v : Int), 0, 0⟩), tr ++ [((idx : Int), (idx2 : Int))]),
        (next : Int)) := by
  unfold PhysicsSceneImpl.heightmapLoaded.copy16
  simp only []
  rw [hidx2, hv]
  simp only []
  rw [Array_assign_natCast _ _ _ hlt, hnext]

/-- One row of the generic branch: the samples of row `j` are written in the order of the
columns, each once, the rows before are kept. -/
theorem PhysicsSceneImpl.heightmapLoaded.row8_spec (data : List Nat) (w h bpp : Nat)
    (hbpp : 1 ≤ bpp) (h2 : bpp ≠ 2) (hsize : w * h ≤ 2147483647)
    (hbyte : (w * h - 1) * bpp ≤ 2147483647)
    (hdata : data.length = w * h * bpp) (j : Nat) (hj : j < h)
    (hs : List (Option PxHeightFieldSample)) (tr : List (Int × Int))
    (hlen : hs.length = w * h)
    (hdone : ∀ p, p < j * w → hs[p]? = some (PhysicsSceneImpl.transposed_sample data bpp w h p)) :
    ∃ hs1, PhysicsSceneImpl.heightmapLoaded.row8 data w h bpp j (hs, tr) =
        some (hs1, tr ++ (List.range w).map (fun (i : Nat) =>
          (((i + j * w : Nat) : Int), ((j + i * h : Nat) : Int)))) ∧
      hs1.length = w * h ∧
      ∀ p, p < (j + 1) * w →
        hs1[p]? = some (PhysicsSceneImpl.transposed_sample data bpp w h p) := by
  obtain ⟨st, hloop, htr, hl, hd⟩ :=
    for_loop_spec (PhysicsSceneImpl.heightmapLoaded.copy8 data w h bpp j)
      (fun i st => st.2 = tr ++ (List.range i).map (fun (i : Nat) =>
          (((i + j * w : Nat) : Int), ((j + i * h : Nat) : Int))) ∧
        st.1.length = w * h ∧
        ∀ p, p < i + j * w →
          st.1[p]? = some (PhysicsSceneImpl.transposed_sample data bpp w h p))
      w
      (by
        rintro i ⟨hs0, tr0⟩ hi ⟨htr0, hl0, hd0⟩
        simp only at htr0 hl0 hd0
        obtain ⟨-, e2, e3, -⟩ := PhysicsSceneImpl.copy_indices w h i j hsize hi hj
        have e4 := PhysicsSceneImpl.copy_byte_offset w h bpp i j hbyte hi hj
        have hin := grid_index_lt w h i j hi hj
        have hsrc := grid_index_lt_transposed w h i j hi hj
        obtain ⟨v, hv⟩ := PhysicsSceneImpl.source_pixel_defined data bpp w h _ hbpp hdata hsrc
        have hv2 : data[(j + i * h) * bpp]? = some v := by
          simpa [PhysicsSceneImpl.source_pixel, h2] using hv
        have hlt : i + j * w < hs0.length := by rw [hl0]; exact hin
        refine ⟨(hs0.set (i + j * w) (some ⟨to_i16 v, 0, 0⟩),
          tr0 ++ [(((i + j * w : Nat) : Int), ((j + i * h : Nat) : Int))]), ?_, ?_, ?_, ?_⟩
        · exact PhysicsSceneImpl.heightmapLoaded.copy8_eq data w h bpp j i hs0 tr0 _ _ _ v
            e2 e3 e4 hv2 hlt
        · simp only [htr0, List.range_succ, List.map_append, List.map_singleton,
            List.append_assoc]
        · simp only [List.length_set, hl0]
        · intro p hp
          simp only
          by_cases hpi : p = i + j * w
          · subst hpi
            rw [List.getElem?_set_self hlt]
            obtain ⟨hdiv, hmod⟩ := grid_index_div_mod w i j hi
            simp only [PhysicsSceneImpl.transposed_sample, hdiv, hmod, hv, Option.map_some']
          · rw [List.getElem?_set_ne (Ne.symm hpi)]
            have hp2 : p < i + j * w + 1 := by
              rw [Nat.add_right_comm] at hp; exact hp
            exact hd0 p (Nat.lt_of_le_of_ne (Nat.le_of_lt_succ hp2) hpi))
      w 0 (hs, tr) (Nat.zero_add w)
      ⟨by simp, hlen, fun p hp => hdone p (by rw [Nat.zero_add] at hp; exact hp)⟩
  obtain ⟨hs1, tr1⟩ := st
  simp only at htr hl hd
  subst htr
  refine ⟨hs1, ?_, hl, fun p hp => hd p (by rw [Nat.succ_mul] at hp; rw [Nat.add_comm]; exact hp)⟩
  simp only [PhysicsSceneImpl.heightmapLoaded.row8, for_int, Int.toNat_ofNat]
  exact hloop

/-- One row of the 2-byte branch: the samples of row `j` are written in the order of the
columns, each once, the rows before are kept. -/
theorem PhysicsSceneImpl.heightmapLoaded.row16_spec (data : List Nat) (w h : Nat)
    (hsize : w * h ≤ 2147483647)
    (hdata : data.length = w * h * 2) (j : Nat) (hj : j < h)
    (hs : List (Option PxHeightFieldSample)) (tr : List (Int × Int))
    (hlen : hs.length = w * h)
    (hdone : ∀ p, p < j * w → hs[p]? = some (PhysicsSceneImpl.transposed_sample data 2 w h p)) :
    ∃ hs1, PhysicsSceneImpl.heightmapLoaded.row16 data w h j (hs, tr) =
        some (hs1, tr ++ (List.range w).map (fun (i : Nat) =>
          (((i + j * w : Nat) : Int), ((j + i * h : Nat) : Int)))) ∧
      hs1.length = w * h ∧
      ∀ p, p < (j + 1) * w →
        hs1[p]? = some (PhysicsSceneImpl.transposed_sample data 2 w h p) := by
  obtain ⟨st, hloop, hidx, htr, hl, hd⟩ :=
    for_loop_spec (PhysicsSceneImpl.heightmapLoaded.copy16 data h j)
      (fun i st => st.2 = ((i + j * w : Nat) : Int) ∧
        st.1.2 = tr ++ (List.range i).map (fun (i : Nat) =>
          (((i + j * w : Nat) : Int), ((j + i * h : Nat) : Int))) ∧
        st.1.1.length = w * h ∧
        ∀ p, p < i + j * w →
          st.1.1[p]? = some (PhysicsSceneImpl.transposed_sample data 2 w h p))
      w
      (by
        rintro i ⟨⟨hs0, tr0⟩, idx0⟩ hi ⟨hidx0, htr0, hl0, hd0⟩
        simp only at hidx0 htr0 hl0 hd0
        subst hidx0
        obtain ⟨-, -, e3, e5⟩ := PhysicsSceneImpl.copy_indices w h i j hsize hi hj
        have hin := grid_index_lt w h i j hi hj
        have hsrc := grid_index_lt_transposed w h i j hi hj
        obtain ⟨v, hv⟩ :=
          PhysicsSceneImpl.source_pixel_defined data 2 w h _ (by decide) hdata hsrc
        have hv2 : PhysicsSceneImpl.read_u16 data ((j + i * h : Nat) : Int) = some v := by
          simpa [PhysicsSceneImpl.source_pixel] using hv
        have hlt : i + j * w < hs0.length := by rw [hl0]; exact hin
        refine ⟨((hs0.set (i + j * w) (some ⟨to_i16 v, 0, 0⟩),
          tr0 ++ [(((i + j * w : Nat) : Int), ((j + i * h : Nat) : Int))]),
          ((i + 1 + j * w : Nat) : Int)), ?_, rfl, ?_, ?_, ?_⟩
        · exact PhysicsSceneImpl.heightmapLoaded.copy16_eq data h j i hs0 tr0 _ _ _ v
            e3 e5 hv2 hlt
        · simp only [htr0, List.range_succ, List.map_append, List.map_singleton,
            List.append_assoc]
        · simp only [List.length_set, hl0]
        · intro p hp
          simp only
          by_cases hpi : p = i + j * w
          · subst hpi
            rw [List.getElem?_set_self hlt]
            obtain ⟨hdiv, hmod⟩ := grid_index_div_mod w i j hi
            simp only [PhysicsSceneImpl.transposed_sample, hdiv, hmod, hv, Option.map_some']
          · rw [List.getElem?_set_ne (Ne.symm hpi)]
            have hp2 : p < i + j * w + 1 := by
              rw [Nat.add_right_comm] at hp; exact hp
            exact hd0 p (Nat.lt_of_le_of_ne (Nat.le_of_lt_succ hp2) hpi))
      w 0 ((hs, tr), ((j * w : Nat) : Int)) (Nat.zero_add w)
      ⟨by simp, by simp, hlen, fun p hp => hdone p (by rw [Nat.zero_add] at hp; exact hp)⟩
  obtain ⟨⟨hs1, tr1⟩, idx1⟩ := st
  simp only at hidx htr hl hd
  subst htr
  refine ⟨hs1, ?_, hl, fun p hp => hd p (by rw [Nat.succ_mul] at hp; rw [Nat.add_comm]; exact hp)⟩
  have e1 : to_int ((j : Int) * (w : Int)) = ((j * w : Nat) : Int) := by
    have h1 : j * w ≤ h * w := Nat.mul_le_mul_right w (Nat.le_of_lt hj)
    rw [Nat.mul_comm h w] at h1
    rw [← Nat.cast_mul]
    exact to_int_natCast _ (Nat.le_trans h1 hsize)
  simp only [PhysicsSceneImpl.heightmapLoaded.row16, for_int, Int.toNat_ofNat, e1]
  simp only [Nat.cast_zero] at hloop
  rw [hloop]

/-- The destination indices of a transposed copy are `0, 1, ..., w * h - 1`, in this
order. -/
theorem PhysicsSceneImpl.transposed_copy_destinations (w : Nat) :
    ∀ h : Nat, (PhysicsSceneImpl.transposed_copy w h).map Prod.fst =
      (List.range (w * h)).map (fun (k : Nat) => (k : Int)) := by
  intro h
  unfold PhysicsSceneImpl.transposed_copy
  induction h with
  | zero => simp
  | succ h ih =>
    have hrange : List.range (w * (h + 1)) =
        List.range (w * h) ++ (List.range w).map (fun i => i + h * w) := by
      rw [Nat.mul_succ, List.range_add]
      congr 1
      apply List.map_congr_left
      intro i _
      rw [Nat.mul_comm w h, Nat.add_comm]
    have hstep : ∀ n : Nat,
        (List.map Prod.fst ((List.range n).flatMap (fun (j : Nat) =>
          (List.range w).map (fun (i : Nat) =>
            (((i + j * w : Nat) : Int), ((j + i * (h + 1) : Nat) : Int)))))) =
        (List.map Prod.fst ((List.range n).flatMap (fun (j : Nat) =>
          (List.range w).map (fun (i : Nat) =>
            (((i + j * w : Nat) : Int), ((j + i * h : Nat) : Int)))))) := by
      intro n
      simp only [List.map_flatMap, List.map_map]
      rfl
    rw [hstep, List.range_succ, List.flatMap_append, List.map_append, ih, hrange,
      List.map_append]
    simp [List.map_map, Function.comp_def]

/-- The loops of `heightmapLoaded` inside the range of `int`: a transposed copy. -/
theorem PhysicsSceneImpl.heightmapLoaded_eq (w h bpp : Nat) (data : List Nat)
    (hbpp : 1 ≤ bpp) (hsize : w * h ≤ 2147483647)
    (hbyte : bpp ≠ 2 → (w * h - 1) * bpp ≤ 2147483647)
    (hdata : data.length = w * h * bpp) :
    ∃ heights,
      PhysicsSceneImpl.heightmapLoaded w h bpp data =
        some (heights, PhysicsSceneImpl.transposed_copy w h) ∧
      heights.length = w * h ∧
      ∀ p, p < w * h →
        heights[p]? = some (PhysicsSceneImpl.transposed_sample data bpp w h p) := by
  have hsz : to_int ((w : Int) * (h : Int)) = ((w * h : Nat) : Int) := by
    rw [← Nat.cast_mul]; exact to_int_natCast _ hsize
  have hneg : ¬ (((w * h : Nat) : Int) < 0) := not_lt.mpr (Int.ofNat_nonneg _)
  by_cases h2 : bpp = 2
  · subst h2
    obtain ⟨st, hloop, htr, hl, hd⟩ :=
      for_loop_spec (PhysicsSceneImpl.heightmapLoaded.row16 data w h)
        (fun j st => st.2 = (List.range j).flatMap (fun (j : Nat) =>
            (List.range w).map (fun (i : Nat) =>
              (((i + j * w : Nat) : Int), ((j + i * h : Nat) : Int)))) ∧
          st.1.length = w * h ∧
          ∀ p, p < j * w →
            st.1[p]? = some (PhysicsSceneImpl.transposed_sample data 2 w h p))
        h
        (by
          rintro j ⟨hs0, tr0⟩ hj ⟨htr0, hl0, hd0⟩
          simp only at htr0 hl0 hd0
          obtain ⟨hs1, hrow, hl1, hd1⟩ :=
            PhysicsSceneImpl.heightmapLoaded.row16_spec data w h hsize hdata j hj hs0 tr0 hl0 hd0
          refine ⟨_, hrow, ?_, hl1, hd1⟩
          simp only [htr0, List.range_succ, List.flatMap_append, List.flatMap_singleton])
        h 0 (List.replicate (w * h) none, []) (Nat.zero_add h)
        ⟨by simp, by simp, fun p hp => absurd hp (by rw [Nat.zero_mul]; exact Nat.not_lt_zero p)⟩
    obtain ⟨heights, tr⟩ := st
    simp only at htr hl hd
    subst htr
    refine ⟨heights, ?_, hl, fun p hp => hd p (by rw [Nat.mul_comm]; exact hp)⟩
    simp only [PhysicsSceneImpl.heightmapLoaded, hsz, hneg, if_false, Nat.cast_ofNat, if_true,
      for_int, Int.toNat_ofNat]
    exact hloop
  · obtain ⟨st, hloop, htr, hl, hd⟩ :=
      for_loop_spec (PhysicsSceneImpl.heightmapLoaded.row8 data w h bpp)
        (fun j st => st.2 = (List.range j).flatMap (fun (j : Nat) =>
            (List.range w).map (fun (i : Nat) =>
              (((i + j * w : Nat) : Int), ((j + i * h : Nat) : Int)))) ∧
          st.1.length = w * h ∧
          ∀ p, p < j * w →
            st.1[p]? = some (PhysicsSceneImpl.transposed_sample data bpp w h p))
        h
        (by
          rintro j ⟨hs0, tr0⟩ hj ⟨htr0, hl0, hd0⟩
          simp only at htr0 hl0 hd0
          obtain ⟨hs1, hrow, hl1, hd1⟩ :=
            PhysicsSceneImpl.heightmapLoaded.row8_spec data w h bpp hbpp h2 hsize (hbyte h2)
              hdata j hj hs0 tr0 hl0 hd0
          refine ⟨_, hrow, ?_, hl1, hd1⟩
          simp only [htr0, List.range_succ, List.flatMap_append, List.flatMap_singleton])
        h 0 (List.replicate (w * h) none, []) (Nat.zero_add h)
        ⟨by simp, by simp, fun p hp => absurd hp (by rw [Nat.zero_mul]; exact Nat.not_lt_zero p)⟩
    obtain ⟨heights, tr⟩ := st
    simp only at htr hl hd
    subst htr
    refine ⟨heights, ?_, hl, fun p hp => hd p (by rw [Nat.mul_comm]; exact hp)⟩
    have hne : ¬ ((bpp : Int) = 2) := fun hc => h2 (by exact_mod_cast hc)
    simp only [PhysicsSceneImpl.heightmapLoaded, hsz, hneg, if_false, hne,
      for_int, Int.toNat_ofNat]
    exact hloop

/-- The map `(i, j) ↦ j + i * h` is a bijection from the grid onto `[0, w * h)`. -/
theorem grid_transposed_bijection (w h k : Nat) (hk : k < w * h) :
    ∃ i j, i < w ∧ j < h ∧ j + i * h = k ∧
      ∀ i2 j2, i2 < w → j2 < h → j2 + i2 * h = k → i2 = i ∧ j2 = j := by
  have hh : 0 < h := by
    rcases Nat.eq_zero_or_pos h with h0 | hpos
    · rw [h0, Nat.mul_zero] at hk
      exact absurd hk (Nat.not_lt_zero k)
    · exact hpos
  refine ⟨k / h, k % h, ?_, Nat.mod_lt k hh, Nat.mod_add_div' k h, ?_⟩
  · exact Nat.div_lt_of_lt_mul (by rw [Nat.mul_comm]; exact hk)
  · intro i2 j2 _ hj2 hsum
    obtain ⟨hdiv, hmod⟩ := grid_index_div_mod h j2 i2 hj2
    rw [hsum] at hdiv hmod
    exact ⟨hdiv.symm, hmod.symm⟩

/-- No element of an empty array can be assigned. -/
theorem Array_assign_nil {α : Type} (idx : Int) (x : α) : Array_assign ([] : List α) idx x = none := by
  unfold Array_assign
  rw [if_neg]
  rintro ⟨h1, h2⟩
  exact absurd h1 (not_le.mpr h2)

/-- A loop whose first iteration is undefined is undefined. -/
theorem for_loop_first_undefined {σ : Type} (body : Int → σ → Option σ) (k : Nat) (i : Int) (s : σ)
    (h : body i s = none) : for_loop body (k + 1) i s = none := by
  unfold for_loop
  rw [h]

/-- For a heightmap of 65536 x 65536 pixels the product `width * height` wraps to 0, so
`heights` is empty and the first assignment is outside the array. -/
theorem PhysicsSceneImpl.heightmapLoaded_wraps (data : List Nat) :
    PhysicsSceneImpl.heightmapLoaded 65536 65536 2 data = none := by
  have hsize : to_int ((65536 : Int) * 65536) = 0 := by decide
  have hcopy : PhysicsSceneImpl.heightmapLoaded.copy16 data 65536 0 0
      (([], []), to_int ((0 : Int) * 65536)) = none := by
    unfold PhysicsSceneImpl.heightmapLoaded.copy16
    simp only []
    cases PhysicsSceneImpl.read_u16 data (to_int (0 + to_int ((0 : Int) * 65536))) with
    | none => rfl
    | some v => simp only [Array_assign_nil]
  have hrow : PhysicsSceneImpl.heightmapLoaded.row16 data 65536 65536 0 ([], []) = none := by
    unfold PhysicsSceneImpl.heightmapLoaded.row16 for_int
    simp only []
    have hn : (65536 : Int).toNat = 65535 + 1 := by decide
    rw [hn, for_loop_first_undefined _ _ _ _ hcopy]
  unfold PhysicsSceneImpl.heightmapLoaded
  simp only [hsize, lt_self_iff_false, if_false, if_true, Int.toNat_zero, List.replicate_zero]
  unfold for_int
  have hn : (65536 : Int).toNat = 65535 + 1 := by decide
  rw [hn, for_loop_first_undefined _ _ _ _ hrow]

/-- C25 (counterexample): a heightmap of width 65536 and height 65536 with 2 bytes per
pixel, whose data has the full `w * h * 2` bytes. `width * height` leaves the range of
`int` and wraps to 0: `heights` gets no element and the first assignment `heights[0]` is
out of bounds, so the copy is not in bounds for every `w >= 1` and `h >= 1`. -/
theorem PhysicsSceneImpl.heightmapLoaded_counterexample :
    (List.replicate 8589934592 0).length = 65536 * 65536 * 2 ∧
    to_int ((65536 : Int) * 65536) = 0 ∧
    PhysicsSceneImpl.heightmapLoaded 65536 65536 2 (List.replicate 8589934592 0) = none :=
  ⟨by rw [List.length_replicate], by decide, PhysicsSceneImpl.heightmapLoaded_wraps _⟩

/-- C25 (amended): for every width `w` and height `h` with `w * h <= 2^31 - 1`, on a
heightmap that holds `w * h` pixels of `bytes_per_pixel >= 1` bytes, both branches of
`heightmapLoaded` make a transposed copy in bounds; the generic branch
(`bytes_per_pixel != 2`) needs in addition that its largest byte offset
`(w * h - 1) * bytes_per_pixel` is at most `2^31 - 1`, the 2-byte branch needs nothing
more. The function returns `heights` with `w * h` elements; the assignments are, in this
order, destination `i + j * w` from source pixel `j + i * h` for `j < h`, `i < w`; the
destination indices are `0, ..., w * h - 1`, each written exactly once; every destination
and source index is in `[0, w * h)`; `heights[i + j * w]` ends as the sample of source
pixel `j + i * h`; and `(i, j) ↦ j + i * h` is a bijection onto `[0, w * h)`. -/
theorem PhysicsSceneImpl.heightmapLoaded_transposed_in_bounds (w h bpp : Nat) (data : List Nat)
    (hbpp : 1 ≤ bpp) (hsize : w * h ≤ 2147483647)
    (hbyte : bpp ≠ 2 → (w * h - 1) * bpp ≤ 2147483647)
    (hdata : data.length = w * h * bpp) :
    ∃ heights,
      PhysicsSceneImpl.heightmapLoaded w h bpp data =
        some (heights, PhysicsSceneImpl.transposed_copy w h) ∧
      heights.length = w * h ∧
      (∀ e ∈ PhysicsSceneImpl.transposed_copy w h, ∃ i j : Nat, i < w ∧ j < h ∧
        e = (((i + j * w : Nat) : Int), ((j + i * h : Nat) : Int))) ∧
      (PhysicsSceneImpl.transposed_copy w h).map Prod.fst =
        (List.range (w * h)).map (fun (k : Nat) => (k : Int)) ∧
      (∀ i j, i < w → j < h → i + j * w < w * h ∧ j + i * h < w * h) ∧
      (∀ i j, i < w → j < h →
        ∃ v : Nat, PhysicsSceneImpl.source_pixel data bpp (j + i * h) = some v ∧
          heights[i + j * w]? = some (some ⟨to_i16 (v : Int), 0, 0⟩)) ∧
      (∀ k, k < w * h → ∃ i j, i < w ∧ j < h ∧ j + i * h = k ∧
        ∀ i2 j2, i2 < w → j2 < h → j2 + i2 * h = k → i2 = i ∧ j2 = j) := by
  obtain ⟨heights, hrun, hlen, hall⟩ :=
    PhysicsSceneImpl.heightmapLoaded_eq w h bpp data hbpp hsize hbyte hdata
  refine ⟨heights, hrun, hlen, ?_, PhysicsSceneImpl.transposed_copy_destinations w h,
    fun i j hi hj => ⟨grid_index_lt w h i j hi hj, grid_index_lt_transposed w h i j hi hj⟩,
    ?_, fun k hk => grid_transposed_bijection w h k hk⟩
  · intro e he
    unfold PhysicsSceneImpl.transposed_copy at he
    rw [List.mem_flatMap] at he
    obtain ⟨j, hj, he⟩ := he
    rw [List.mem_map] at he
    obtain ⟨i, hi, he⟩ := he
    exact ⟨i, j, List.mem_range.mp hi, List.mem_range.mp hj, he.symm⟩
  · intro i j hi hj
    have hsrc := grid_index_lt_transposed w h i j hi hj
    obtain ⟨v, hv⟩ := PhysicsSceneImpl.source_pixel_defined data bpp w h _ hbpp hdata hsrc
    refine ⟨v, hv, ?_⟩
    rw [hall _ (grid_index_lt w h i j hi hj)]
    obtain ⟨hdiv, hmod⟩ := grid_index_div_mod w i j hi
    simp only [PhysicsSceneImpl.transposed_sample, hdiv, hmod, hv, Option.map_some']

/-- Witness for C25 (amended): a heightmap of width 40000 and height 40000 with 2 bytes
per pixel, whose `w * h = 1600000000` fits an `int` while its byte count does not; and a
heightmap of width 2 and height 3 with one byte per pixel, with its assignments written
out. -/
theorem PhysicsSceneImpl.heightmapLoaded_transposed_in_bounds_witness :
    (∃ heights,
      PhysicsSceneImpl.heightmapLoaded 40000 40000 2 (List.replicate 3200000000 0) =
        some (heights, PhysicsSceneImpl.transposed_copy 40000 40000) ∧
      heights.length = 40000 * 40000) ∧
    (∃ heights,
      PhysicsSceneImpl.heightmapLoaded 2 3 1 [10, 11, 12, 13, 14, 15] =
        some (heights, [(0, 0), (1, 3), (2, 1), (3, 4), (4, 2), (5, 5)]) ∧
      heights.length = 6) := by
  constructor
  · obtain ⟨heights, hrun, hlen, -⟩ :=
      PhysicsSceneImpl.heightmapLoaded_transposed_in_bounds 40000 40000 2
        (List.replicate 3200000000 0) (by decide) (by decide) (fun h => absurd rfl h)
        (by rw [List.length_replicate])
    exact ⟨heights, hrun, hlen⟩
  · obtain ⟨heights, hrun, hlen, -⟩ :=
      PhysicsSceneImpl.heightmapLoaded_transposed_in_bounds 2 3 1 [10, 11, 12, 13, 14, 15]
        (by decide) (by decide) (fun _ => by decide) rfl
    exact ⟨heights, hrun, hlen⟩

/-- The scan of `getBoneIdx` returns the offset of the first bone with the name, or `-1`
when no bone has it. -/
theorem Model.getBoneIdx_scan_spec (name : List Nat) :
    ∀ (l : List Model.Bone) (i0 : Int),
      (Model.getBoneIdx.scan name l i0 = -1 ∧
        ∀ k : Nat, (l.map Model.Bone.name)[k]? ≠ some name) ∨
      (∃ k : Nat, (l.map Model.Bone.name)[k]? = some name ∧
        (∀ k2 : Nat, k2 < k → (l.map Model.Bone.name)[k2]? ≠ some name) ∧
        Model.getBoneIdx.scan name l i0 = i0 + k) := by
  intro l
  induction l with
  | nil =>
    intro i0
    left
    exact ⟨rfl, fun k => by simp⟩
  | cons b rest ih =>
    intro i0
    by_cases hb : b.name = name
    · right
      refine ⟨0, by simp [hb], fun k2 hk2 => absurd hk2 (Nat.not_lt_zero k2), ?_⟩
      simp [Model.getBoneIdx.scan, hb]
    · rcases ih (i0 + 1) with ⟨hscan, hnone⟩ | ⟨k, hk, hfirst, hscan⟩
      · left
        refine ⟨by simp only [Model.getBoneIdx.scan, hb, if_false, hscan], ?_⟩
        intro k
        cases k with
        | zero => simpa using hb
        | succ k => simpa using hnone k
      · right
        refine ⟨k + 1, by simpa using hk, ?_, ?_⟩
        · intro k2 hk2
          cases k2 with
          | zero => simpa using hb
          | succ k2 => simpa using hfirst k2 (Nat.lt_of_succ_lt_succ hk2)
        · simp only [Model.getBoneIdx.scan, hb, if_false, hscan]
          push_cast
          ring

/-- Replacing an element by one with the same image keeps the mapped list. -/
theorem map_set_same {α β : Type} (f : α → β) (l : List α) (i : Nat) (x b : α)
    (hb : l[i]? = some b) (hf : f x = f b) : (l.set i x).map f = l.map f := by
  apply List.ext_getElem?
  intro k
  rw [List.getElem?_map, List.getElem?_map]
  by_cases hk : i = k
  · subst hk
    have hlt : i < l.length := (List.getElem?_eq_some.mp hb).1
    rw [List.getElem?_set_self hlt, hb]
    simp [hf]
  · rw [List.getElem?_set_ne hk]

/-- Assigning a bone at an index inside `m_bones`. -/
theorem Model.set_bone_natCast (self : Model) (i : Nat) (b : Model.Bone)
    (h : i < self.m_bones.length) :
    self.set_bone (i : Int) b = some { self with m_bones := self.m_bones.set i b } := by
  unfold Model.set_bone
  rw [Array_assign_natCast _ _ _ h]

/-- The second loop of `parseBones` always ends, keeps every name, and when it ends with
true every bone has the parent index that the specification expects. -/
theorem Model.parseBones.resolve_spec :
    ∀ (k i : Nat) (self : Model), i + k = self.m_bones.length →
      (∀ (j : Nat) (b : Model.Bone), j < i → self.m_bones[j]? = some b →
        Model.ParentResolved (self.m_bones.map Model.Bone.name) j b) →
      ∃ (res : Bool) (m : Model), Model.parseBones.resolve k (i : Int) self = some (res, m) ∧
        m.m_bones.map Model.Bone.name = self.m_bones.map Model.Bone.name ∧
        m.m_bones.map Model.Bone.parent = self.m_bones.map Model.Bone.parent ∧
        m.m_lods = self.m_lods ∧
        (res = true → ∀ (j : Nat) (b : Model.Bone), m.m_bones[j]? = some b →
          Model.ParentResolved (m.m_bones.map Model.Bone.name) j b) := by
  intro k
  induction k with
  | zero =>
    intro i self hik hinv
    refine ⟨true, self, rfl, rfl, rfl, rfl, fun _ j b hb => hinv j b ?_ hb⟩
    have hj : j < self.m_bones.length := (List.getElem?_eq_some.mp hb).1
    rw [← hik] at hj
    exact hj
  | succ k ih =>
    intro i self hik hinv
    have hi : i < self.m_bones.length := by rw [← hik]; exact Nat.lt_add_of_pos_right (Nat.succ_pos k)
    obtain ⟨b0, hbi⟩ : ∃ b0, self.m_bones[i]? = some b0 :=
      ⟨_, List.getElem?_eq_getElem hi⟩
    have hcast : ((i : Int) + 1) = ((i + 1 : Nat) : Int) := by push_cast; rfl
    have hik1 : ∀ b1 : Model.Bone, i + 1 + k = (self.m_bones.set i b1).length := by
      intro b1
      rw [List.length_set, ← hik, Nat.add_assoc, Nat.add_comm 1 k]
    -- the invariant after bone `i` got a parent index that meets the specification
    have hstep : ∀ b1 : Model.Bone, b1.name = b0.name →
        b1.parent = b0.parent →
        Model.ParentResolved (self.m_bones.map Model.Bone.name) i b1 →
        ∀ (j : Nat) (b : Model.Bone), j < i + 1 → (self.m_bones.set i b1)[j]? = some b →
          Model.ParentResolved ((self.m_bones.set i b1).map Model.Bone.name) j b := by
      intro b1 hn _ hres j b hj hb
      rw [map_set_same Model.Bone.name _ i b1 _ hbi hn]
      by_cases hji : j = i
      · subst hji
        rw [List.getElem?_set_self hi] at hb
        cases hb
        exact hres
      · rw [List.getElem?_set_ne (Ne.symm hji)] at hb
        exact hinv j b (Nat.lt_of_le_of_ne (Nat.le_of_lt_succ hj) hji) hb
    rw [Model.parseBones.resolve, Array_at_natCast, hbi]
    simp only []
    by_cases hp : b0.parent.length = 0
    · have hpe : b0.parent = [] := List.length_eq_zero.mp hp
      rw [if_pos hp, Model.set_bone_natCast _ _ _ hi]
      simp only []
      rw [hcast]
      obtain ⟨b1, hb1⟩ : ∃ b1 : Model.Bone, b1 = { b0 with parent_idx := some (-1) } := ⟨_, rfl⟩
      rw [← hb1]
      have hn1 : b1.name = b0.name := by rw [hb1]
      have hp1 : b1.parent = b0.parent := by rw [hb1]
      have hres : Model.ParentResolved (self.m_bones.map Model.Bone.name) i b1 :=
        ⟨fun _ => by rw [hb1], fun hne => absurd (hp1.trans hpe) hne⟩
      obtain ⟨res, m, hrun, hnames, hparents, hlods, hall⟩ :=
        ih (i + 1) { self with m_bones := (self.m_bones.set i b1) } (hik1 _)
          (hstep b1 hn1 hp1 hres)
      refine ⟨res, m, hrun, ?_, ?_, hlods, hall⟩
      · rw [hnames]; exact map_set_same Model.Bone.name _ i _ _ hbi hn1
      · rw [hparents]; exact map_set_same Model.Bone.parent _ i _ _ hbi hp1
    · have hpne : b0.parent ≠ [] := fun h => hp (List.length_eq_zero.mpr h)
      rw [if_neg hp, Model.set_bone_natCast _ _ _ hi]
      simp only []
      obtain ⟨b1, hb1⟩ : ∃ b1 : Model.Bone,
          b1 = { b0 with parent_idx := some (Model.getBoneIdx self b0.parent) } := ⟨_, rfl⟩
      rw [← hb1]
      have hn1 : b1.name = b0.name := by rw [hb1]
      have hp1 : b1.parent = b0.parent := by rw [hb1]
      have hnames1 := map_set_same Model.Bone.name self.m_bones i b1 _ hbi hn1
      have hparents1 := map_set_same Model.Bone.parent self.m_bones i b1 _ hbi hp1
      by_cases hbad : Model.getBoneIdx self b0.parent > (i : Int) ∨
          Model.getBoneIdx self b0.parent < 0
      · rw [if_pos hbad]
        exact ⟨false, _, rfl, hnames1, hparents1, rfl, fun h => absurd h (by decide)⟩
      · rw [if_neg hbad, hcast]
        have hle : Model.getBoneIdx self b0.parent ≤ (i : Int) :=
          not_lt.mp (fun h => hbad (Or.inl h))
        have hge : 0 ≤ Model.getBoneIdx self b0.parent :=
          not_lt.mp (fun h => hbad (Or.inr h))
        have hres : Model.ParentResolved (self.m_bones.map Model.Bone.name) i b1 := by
          refine ⟨fun h => absurd (hp1.symm.trans h) hpne, fun _ => ?_⟩
          rw [hp1]
          rcases Model.getBoneIdx_scan_spec b0.parent self.m_bones 0 with
            ⟨hscan, -⟩ | ⟨p, hq1, hq2, hscan⟩
          · have hneg : Model.getBoneIdx self b0.parent = -1 := hscan
            rw [hneg] at hge
            exact absurd hge (by decide)
          · have hidx : Model.getBoneIdx self b0.parent = (p : Int) := by
              show Model.getBoneIdx.scan _ _ 0 = _
              rw [hscan, Int.zero_add]
            refine ⟨p, ?_, ?_, hq1, hq2⟩
            · rw [hb1, hidx]
            · rw [hidx] at hle
              exact Int.ofNat_le.mp hle
        have hinv1 := hstep b1 hn1 hp1 hres
        by_cases hfirst : self.m_first_nonroot_bone_index = -1
        · obtain ⟨res, m, hrun, hnames, hparents, hlods, hall⟩ :=
            ih (i + 1)
              { m_bones := (self.m_bones.set i b1)
                m_lods := self.m_lods
                m_first_nonroot_bone_index := (i : Int) } (hik1 _) hinv1
          refine ⟨res, m, ?_, hnames.trans hnames1, hparents.trans hparents1, hlods, hall⟩
          simp only [hfirst, if_true]
          exact hrun
        · obtain ⟨res, m, hrun, hnames, hparents, hlods, hall⟩ :=
            ih (i + 1) { self with m_bones := (self.m_bones.set i b1) } (hik1 _) hinv1
          refine ⟨res, m, ?_, hnames.trans hnames1, hparents.trans hparents1, hlods, hall⟩
          simp only [hfirst, if_false]
          exact hrun

/-- Assigning a bone keeps the number of bones. -/
theorem Model.set_bone_length (self m : Model) (i : Int) (b : Model.Bone)
    (h : self.set_bone i b = some m) : m.m_bones.length = self.m_bones.length := by
  unfold Model.set_bone Array_assign at h
  by_cases hc : 0 ≤ i ∧ i < (self.m_bones.length : Int)
  · rw [if_pos hc] at h
    simp only [] at h
    cases h
    exact List.length_set _ _ _
  · rw [if_neg hc] at h
    cases h

/-- The first loop of `parseBones` emplaces one bone per iteration. -/
theorem Model.parseBones.read_length (MAX_PATH_LENGTH : Int) :
    ∀ (k : Nat) (self : Model) (file : IFile) (m : Model) (f : IFile),
      Model.parseBones.read MAX_PATH_LENGTH k self file = some (true, m, f) →
      m.m_bones.length = self.m_bones.length + k := by
  intro k
  induction k with
  | zero =>
    intro self file m f h
    rw [Model.parseBones.read] at h
    cases h
    rfl
  | succ k ih =>
    intro self file m f h
    rw [Model.parseBones.read] at h
    simp only [] at h
    split at h
    · cases h
    · split at h
      · cases h
      · split at h
        · cases h
        · split at h
          · cases h
          · rename_i self1 hset1
            split at h
            · cases h
            · split at h
              · cases h
              · split at h
                · cases h
                · split at h
                  · cases h
                  · split at h
                    · cases h
                    · split at h
                      · cases h
                      · rename_i self2 hset2
                        have h1 := Model.set_bone_length _ _ _ _ hset1
                        have h2 := Model.set_bone_length _ _ _ _ hset2
                        rw [ih self2 _ m f h, h2, h1, List.length_append, List.length_singleton,
                          Nat.add_assoc, Nat.add_comm 1 k]

/-- The index `size() - 1` of the last element. -/
theorem back_index {α : Type} (l : List α) (x : α) :
    (((l ++ [x]).length : Int) - 1) = ((l.length : Nat) : Int) := by
  rw [List.length_append, List.length_singleton]
  push_cast
  ring

/-- The last bone of `m_bones` can be assigned through the index `size() - 1`. -/
theorem Model.set_bone_back (self : Model) (b0 b : Model.Bone) :
    Model.set_bone { self with m_bones := self.m_bones ++ [b0] }
      ((self.m_bones.length : Nat) : Int) b =
      some { self with m_bones := self.m_bones ++ [b] } := by
  rw [Model.set_bone_natCast]
  · simp
  · simp

/-- One iteration of the first loop of `parseBones` on a well-formed stored bone. -/
theorem Model.parseBones.read_record (MAX_PATH_LENGTH : Int) (k : Nat) (self : Model)
    (r : Model.BoneRecord) (tail : IFile) (hr : r.WellFormed MAX_PATH_LENGTH) :
    Model.parseBones.read MAX_PATH_LENGTH (k + 1) self (r.items ++ tail) =
      Model.parseBones.read MAX_PATH_LENGTH k
        { self with m_bones := self.m_bones ++ [r.bone] } tail := by
  obtain ⟨hn, hp, hpos, hrot⟩ := hr
  have hn2 : ¬ ((r.name.length : Int) ≥ MAX_PATH_LENGTH) := not_le.mpr hn
  have hp2 : ¬ ((r.parent.length : Int) ≥ MAX_PATH_LENGTH) := not_le.mpr hp
  have hn3 : (0 : Int) ≤ (r.name.length : Int) ∧ (r.name.length : Int) ≤ MAX_PATH_LENGTH - 1 ∧
      (r.name.length : Int) = (r.name.length : Int) :=
    ⟨Int.ofNat_nonneg _, Int.le_sub_one_of_lt hn, rfl⟩
  have hp3 : (0 : Int) ≤ (r.parent.length : Int) ∧
      (r.parent.length : Int) ≤ MAX_PATH_LENGTH - 1 ∧
      (r.parent.length : Int) = (r.parent.length : Int) :=
    ⟨Int.ofNat_nonneg _, Int.le_sub_one_of_lt hp, rfl⟩
  rw [Model.parseBones.read]
  simp only [Model.BoneRecord.items, List.cons_append, List.nil_append, IFile.read_int,
    IFile.read_chars, IFile.read_floats, hn2, hp2, hn3, hp3, hpos, hrot, if_false, if_true,
    and_self, back_index, Model.set_bone_back]
  rfl

/-- The first loop of `parseBones` on well-formed stored bones: one bone per record is
appended. -/
theorem Model.parseBones.read_records (MAX_PATH_LENGTH : Int) :
    ∀ (records : List Model.BoneRecord) (k : Nat) (self : Model) (tail : IFile),
      (∀ r ∈ records, r.WellFormed MAX_PATH_LENGTH) →
      Model.parseBones.read MAX_PATH_LENGTH (records.length + k) self
          (records.flatMap Model.BoneRecord.items ++ tail) =
        Model.parseBones.read MAX_PATH_LENGTH k
          { self with m_bones := self.m_bones ++ records.map Model.BoneRecord.bone } tail := by
  intro records
  induction records with
  | nil =>
    intro k self tail _
    simp
  | cons r rs ih =>
    intro k self tail hwf
    have hlen : (r :: rs).length + k = (rs.length + k) + 1 := by
      rw [List.length_cons, Nat.add_right_comm]
    rw [hlen, List.flatMap_cons, List.append_assoc,
      Model.parseBones.read_record MAX_PATH_LENGTH _ self r _ (hwf r (List.mem_cons_self r rs)),
      ih k _ tail (fun x hx => hwf x (List.mem_cons_of_mem r hx))]
    simp

/-- The first loop of `parseBones` returns false on a name length of at least
`MAX_PATH_LENGTH`. -/
theorem Model.parseBones.read_name_too_long (MAX_PATH_LENGTH : Int) (k : Nat) (self : Model)
    (len : Int) (rest : IFile) (hlen : len ≥ MAX_PATH_LENGTH) :
    ∃ m, Model.parseBones.read MAX_PATH_LENGTH (k + 1) self (FileItem.int len :: rest) =
      some (false, m, rest) := by
  rw [Model.parseBones.read]
  simp only [IFile.read_int, hlen, if_true]
  exact ⟨_, rfl⟩

/-- The first loop of `parseBones` returns false on a parent name length of at least
`MAX_PATH_LENGTH`. -/
theorem Model.parseBones.read_parent_too_long (MAX_PATH_LENGTH : Int) (k : Nat) (self : Model)
    (name : List Nat) (len : Int) (rest : IFile)
    (hname : (name.length : Int) < MAX_PATH_LENGTH) (hlen : len ≥ MAX_PATH_LENGTH) :
    ∃ m, Model.parseBones.read MAX_PATH_LENGTH (k + 1) self
        (FileItem.int name.length :: FileItem.chars name :: FileItem.int len :: rest) =
      some (false, m, rest) := by
  have hn2 : ¬ ((name.length : Int) ≥ MAX_PATH_LENGTH) := not_le.mpr hname
  have hn3 : (0 : Int) ≤ (name.length : Int) ∧ (name.length : Int) ≤ MAX_PATH_LENGTH - 1 ∧
      (name.length : Int) = (name.length : Int) :=
    ⟨Int.ofNat_nonneg _, Int.le_sub_one_of_lt hname, rfl⟩
  rw [Model.parseBones.read]
  simp only [IFile.read_int, IFile.read_chars, hn2, hn3, hlen, if_false, if_true, and_self,
    back_index, Model.set_bone_back]
  exact ⟨_, rfl⟩

/-- In the list of bone names, an entry is the name of a bone at that index. -/
theorem Model.names_getElem? (bones : List Model.Bone) (p : Nat) (name : List Nat) :
    (bones.map Model.Bone.name)[p]? = some name ↔
      ∃ pb, bones[p]? = some pb ∧ pb.name = name := by
  rw [List.getElem?_map]
  cases bones[p]? with
  | none => simp
  | some x => simp

/-- A bone that meets `ParentResolved` has the parent index the specification asks for, in
terms of the bones. -/
theorem Model.ParentResolved.unfold_bones (bones : List Model.Bone) (i : Nat) (b : Model.Bone)
    (h : Model.ParentResolved (bones.map Model.Bone.name) i b) :
    (b.parent_idx = some (-1) ↔ b.parent = []) ∧
    (b.parent ≠ [] → ∃ p : Nat, b.parent_idx = some (p : Int) ∧ p ≤ i ∧
      (∃ pb, bones[p]? = some pb ∧ pb.name = b.parent) ∧
      ∀ (k : Nat) (kb : Model.Bone), k < p → bones[k]? = some kb → kb.name ≠ b.parent) := by
  obtain ⟨h1, h2⟩ := h
  have h3 : b.parent ≠ [] → ∃ p : Nat, b.parent_idx = some (p : Int) ∧ p ≤ i ∧
      (∃ pb, bones[p]? = some pb ∧ pb.name = b.parent) ∧
      ∀ (k : Nat) (kb : Model.Bone), k < p → bones[k]? = some kb → kb.name ≠ b.parent := by
    intro hne
    obtain ⟨p, hp, hle, hname, hfirst⟩ := h2 hne
    refine ⟨p, hp, hle, (Model.names_getElem? bones p _).mp hname, ?_⟩
    intro k kb hk hkb heq
    exact hfirst k hk ((Model.names_getElem? bones k _).mpr ⟨kb, hkb, heq⟩)
  refine ⟨⟨?_, h1⟩, h3⟩
  intro hidx
  by_contra hne
  obtain ⟨p, hp, -⟩ := h3 hne
  rw [hp] at hidx
  have hcontra : (p : Int) = -1 := Option.some.inj hidx
  have hnn : (0 : Int) ≤ (p : Int) := Int.ofNat_nonneg p
  rw [hcontra] at hnn
  exact absurd hnn (by decide)

/-- On well-formed stored bones `parseBones` runs both loops to their end; when it returns
true every bone meets `ParentResolved`. -/
theorem Model.parseBones_records (MAX_PATH_LENGTH : Int) (self : Model)
    (hempty : self.m_bones = []) (bone_count : Int) (records : List Model.BoneRecord)
    (rest : IFile) (hcount : 0 ≤ bone_count) (hlen : records.length = bone_count.toNat)
    (hwf : ∀ r ∈ records, r.WellFormed MAX_PATH_LENGTH) :
    ∃ (res : Bool) (m : Model),
      Model.parseBones MAX_PATH_LENGTH self
        (FileItem.int bone_count :: (records.flatMap Model.BoneRecord.items ++ rest)) =
        some (res, m, rest) ∧
      m.m_bones.map Model.Bone.name = records.map (fun r => c_str r.name) ∧
      m.m_bones.map Model.Bone.parent = records.map (fun r => c_str r.parent) ∧
      (res = true → ∀ (j : Nat) (b : Model.Bone), m.m_bones[j]? = some b →
        Model.ParentResolved (m.m_bones.map Model.Bone.name) j b) := by
  have hnneg : ¬ bone_count < 0 := not_lt.mpr hcount
  have hread := Model.parseBones.read_records MAX_PATH_LENGTH records 0 self rest hwf
  rw [Nat.add_zero, hlen, Model.parseBones.read, hempty, List.nil_append] at hread
  obtain ⟨res, m, hrun, hnames, hparents, -, hall⟩ :=
    Model.parseBones.resolve_spec bone_count.toNat 0
      { m_bones := records.map Model.BoneRecord.bone
        m_lods := self.m_lods
        m_first_nonroot_bone_index := -1 }
      (by rw [Nat.zero_add, ← hlen]; exact (List.length_map _ _).symm)
      (fun j b hj _ => absurd hj (Nat.not_lt_zero j))
  refine ⟨res, m, ?_, ?_, ?_, hall⟩
  · simp only [Model.parseBones, IFile.read_int, hnneg, if_false, hread]
    simp only [Nat.cast_zero] at hrun
    rw [hrun]
  · rw [hnames]
    simp [Model.BoneRecord.bone, Function.comp_def]
  · rw [hparents]
    simp [Model.BoneRecord.bone, Function.comp_def]

/-- C27 (counterexample): a model that already holds the bone `9` (it was not unloaded)
reads a file with the single bone `3` whose parent is `9`. `parseBones` returns true: the
first loop appends the new bone behind the old one, the second loop runs over the index 0
only, which is the old bone, and the new bone at index 1 is left without any parent
index, although its parent name is not empty and the bone `9` exists at index 0. -/
theorem Model.parseBones_counterexample :
    Model.parseBones 260
        { m_bones := [{ name := [9], parent := [], position := [0, 0, 0],
                        rotation := [0, 0, 0, 1], parent_idx := some (-1) }]
          m_lods := []
          m_first_nonroot_bone_index := -1 }
        (FileItem.int 1 ::
          (Model.BoneRecord.items
            { name := [3], parent := [9], position := [0, 1, 0], rotation := [0, 0, 0, 1] } ++
            [])) =
      some (true,
        { m_bones :=
            [{ name := [9], parent := [], position := [0, 0, 0], rotation := [0, 0, 0, 1],
               parent_idx := some (-1) },
             { name := [3], parent := [9], position := [0, 1, 0], rotation := [0, 0, 0, 1],
               parent_idx := none }]
          m_lods := []
          m_first_nonroot_bone_index := -1 }, []) ∧
    (none : Option Int) ≠ some 0 := by
  constructor
  · decide
  · decide

/-- C27 (amended): on a model whose `m_bones` is empty when `parseBones` is called (as
after construction or `doUnload`), after `parseBones` returned true every bone `i` has
`parent_idx = -1` exactly when its parent name is empty, and otherwise `parent_idx` is the
index of the first bone whose name equals its parent name, with `0 <= parent_idx <= i`.
`parseBones` returns false if the bone count is negative, if the length of a name or of a
parent name is `>= MAX_PATH_LENGTH` (behind well-formed bones), and if some bone names a
parent that no bone up to its own index has as name (the parent is missing or comes
later). -/
theorem Model.parseBones_parent_indices (MAX_PATH_LENGTH : Int) (self : Model)
    (hempty : self.m_bones = []) :
    (∀ (file : IFile) (m : Model) (rest : IFile),
      Model.parseBones MAX_PATH_LENGTH self file = some (true, m, rest) →
      ∀ (i : Nat) (b : Model.Bone), m.m_bones[i]? = some b →
        (b.parent_idx = some (-1) ↔ b.parent = []) ∧
        (b.parent ≠ [] → ∃ p : Nat, b.parent_idx = some (p : Int) ∧ p ≤ i ∧
          (∃ pb, m.m_bones[p]? = some pb ∧ pb.name = b.parent) ∧
          ∀ (k : Nat) (kb : Model.Bone), k < p → m.m_bones[k]? = some kb →
            kb.name ≠ b.parent)) ∧
    (∀ (bone_count : Int) (rest : IFile), bone_count < 0 →
      Model.parseBones MAX_PATH_LENGTH self (FileItem.int bone_count :: rest) =
        some (false, self, rest)) ∧
    (∀ (bone_count : Int) (records : List Model.BoneRecord) (len : Int) (rest : IFile),
      0 ≤ bone_count → records.length < bone_count.toNat →
      (∀ r ∈ records, r.WellFormed MAX_PATH_LENGTH) → len ≥ MAX_PATH_LENGTH →
      ∃ m, Model.parseBones MAX_PATH_LENGTH self
          (FileItem.int bone_count ::
            (records.flatMap Model.BoneRecord.items ++ FileItem.int len :: rest)) =
        some (false, m, rest)) ∧
    (∀ (bone_count : Int) (records : List Model.BoneRecord) (name : List Nat) (len : Int)
      (rest : IFile),
      0 ≤ bone_count → records.length < bone_count.toNat →
      (∀ r ∈ records, r.WellFormed MAX_PATH_LENGTH) →
      (name.length : Int) < MAX_PATH_LENGTH → len ≥ MAX_PATH_LENGTH →
      ∃ m, Model.parseBones MAX_PATH_LENGTH self
          (FileItem.int bone_count ::
            (records.flatMap Model.BoneRecord.items ++
              FileItem.int name.length :: FileItem.chars name :: FileItem.int len :: rest)) =
        some (false, m, rest)) ∧
    (∀ (bone_count : Int) (records : List Model.BoneRecord) (rest : IFile),
      0 ≤ bone_count → records.length = bone_count.toNat →
      (∀ r ∈ records, r.WellFormed MAX_PATH_LENGTH) →
      (∃ (i : Nat) (r : Model.BoneRecord), records[i]? = some r ∧ c_str r.parent ≠ [] ∧
        ∀ (k : Nat) (rk : Model.BoneRecord), k ≤ i → records[k]? = some rk →
          c_str rk.name ≠ c_str r.parent) →
      ∃ m, Model.parseBones MAX_PATH_LENGTH self
          (FileItem.int bone_count :: (records.flatMap Model.BoneRecord.items ++ rest)) =
        some (false, m, rest)) := by
  refine ⟨?_, ?_, ?_, ?_, ?_⟩
  · intro file m rest h i b hb
    apply Model.ParentResolved.unfold_bones
    unfold Model.parseBones at h
    cases hfile : file.read_int with
    | none => rw [hfile] at h; cases h
    | some cf =>
      obtain ⟨bone_count, file1⟩ := cf
      rw [hfile] at h
      simp only [] at h
      by_cases hneg : bone_count < 0
      · rw [if_pos hneg] at h; cases h
      · rw [if_neg hneg] at h
        cases hread : Model.parseBones.read MAX_PATH_LENGTH bone_count.toNat self file1 with
        | none => rw [hread] at h; cases h
        | some rr =>
          obtain ⟨ok, m1, file2⟩ := rr
          rw [hread] at h
          cases ok with
          | false => cases h
          | true =>
            simp only [] at h
            have hlen1 := Model.parseBones.read_length MAX_PATH_LENGTH _ _ _ _ _ hread
            rw [hempty, List.length_nil] at hlen1
            obtain ⟨res, m2, hrun, -, -, -, hall⟩ :=
              Model.parseBones.resolve_spec bone_count.toNat 0
                { m1 with m_first_nonroot_bone_index := -1 } hlen1.symm
                (fun j b hj _ => absurd hj (Nat.not_lt_zero j))
            simp only [Nat.cast_zero] at hrun
            rw [hrun] at h
            simp only [Option.some.injEq, Prod.mk.injEq] at h
            obtain ⟨hres, hm, -⟩ := h
            subst hm
            exact hall hres i b hb
  · intro bone_count rest hneg
    simp [Model.parseBones, IFile.read_int, hneg]
  · intro bone_count records len rest hcount hlt hwf hlen
    have hnneg : ¬ bone_count < 0 := not_lt.mpr hcount
    obtain ⟨k, hk⟩ := Nat.exists_eq_add_of_lt hlt
    obtain ⟨m, hm⟩ := Model.parseBones.read_name_too_long MAX_PATH_LENGTH k
      { self with m_bones := self.m_bones ++ records.map Model.BoneRecord.bone } len rest hlen
    refine ⟨m, ?_⟩
    simp only [Model.parseBones, IFile.read_int, hnneg, if_false]
    rw [hk, Nat.add_assoc, Model.parseBones.read_records MAX_PATH_LENGTH records _ self _ hwf, hm]
  · intro bone_count records name len rest hcount hlt hwf hname hlen
    have hnneg : ¬ bone_count < 0 := not_lt.mpr hcount
    obtain ⟨k, hk⟩ := Nat.exists_eq_add_of_lt hlt
    obtain ⟨m, hm⟩ := Model.parseBones.read_parent_too_long MAX_PATH_LENGTH k
      { self with m_bones := self.m_bones ++ records.map Model.BoneRecord.bone } name len rest
      hname hlen
    refine ⟨m, ?_⟩
    simp only [Model.parseBones, IFile.read_int, hnneg, if_false]
    rw [hk, Nat.add_assoc, Model.parseBones.read_records MAX_PATH_LENGTH records _ self _ hwf, hm]
  · intro bone_count records rest hcount hlen hwf hbad
    obtain ⟨res, m, hrun, hnames, hparents, hall⟩ :=
      Model.parseBones_records MAX_PATH_LENGTH self hempty bone_count records rest hcount hlen hwf
    cases res with
    | false => exact ⟨m, hrun⟩
    | true =>
      exfalso
      obtain ⟨i, r, hr, hpne, hnone⟩ := hbad
      have hpi : (m.m_bones.map Model.Bone.parent)[i]? = some (c_str r.parent) := by
        rw [hparents, List.getElem?_map, hr]
        rfl
      rw [List.getElem?_map] at hpi
      cases hbi : m.m_bones[i]? with
      | none => rw [hbi] at hpi; cases hpi
      | some b =>
        rw [hbi] at hpi
        have hbp : b.parent = c_str r.parent := Option.some.inj hpi
        obtain ⟨-, h2⟩ := hall rfl i b hbi
        obtain ⟨p, -, hle, hname, -⟩ := h2 (by rw [hbp]; exact hpne)
        rw [hnames, List.getElem?_map, hbp] at hname
        cases hrp : records[p]? with
        | none => rw [hrp] at hname; cases hname
        | some rk =>
          rw [hrp] at hname
          exact hnone p rk hle hrp (Option.some.inj hname)

/-- Witness for C27 (amended): a file with the two bones `root` and `arm`, whose parent is `root`:
`parseBones` returns true, `root` has the parent index `-1` and `arm` the parent index
0. -/
theorem Model.parseBones_parent_indices_witness :
    Model.parseBones 260 Model.example_empty
        (FileItem.int 2 :: (Model.example_bones.flatMap Model.BoneRecord.items ++ [])) =
      some (true,
        { m_bones :=
            [{ name := [1, 2], parent := [], position := [0, 0, 0], rotation := [0, 0, 0, 1],
               parent_idx := some (-1) },
             { name := [3], parent := [1, 2], position := [0, 1, 0], rotation := [0, 0, 0, 1],
               parent_idx := some 0 }]
          m_lods := []
          m_first_nonroot_bone_index := 1 }, []) ∧
    ((some (0 : Int) = some (-1) ↔ ([1, 2] : List Nat) = []) ∧
      (([1, 2] : List Nat) ≠ [] → ∃ p : Nat, some (0 : Int) = some (p : Int) ∧ p ≤ 1 ∧
        (∃ pb : Model.Bone,
          ([{ name := [1, 2], parent := [], position := [0, 0, 0], rotation := [0, 0, 0, 1],
              parent_idx := some (-1) },
            { name := [3], parent := [1, 2], position := [0, 1, 0], rotation := [0, 0, 0, 1],
              parent_idx := some 0 }] : List Model.Bone)[p]? = some pb ∧ pb.name = [1, 2]) ∧
        ∀ (k : Nat) (kb : Model.Bone), k < p →
          ([{ name := [1, 2], parent := [], position := [0, 0, 0], rotation := [0, 0, 0, 1],
              parent_idx := some (-1) },
            { name := [3], parent := [1, 2], position := [0, 1, 0], rotation := [0, 0, 0, 1],
              parent_idx := some 0 }] : List Model.Bone)[k]? = some kb → kb.name ≠ [1, 2])) :=
  have hrun : Model.parseBones 260 Model.example_empty
        (FileItem.int 2 :: (Model.example_bones.flatMap Model.BoneRecord.items ++ [])) =
      some (true,
        { m_bones :=
            [{ name := [1, 2], parent := [], position := [0, 0, 0], rotation := [0, 0, 0, 1],
               parent_idx := some (-1) },
             { name := [3], parent := [1, 2], position := [0, 1, 0], rotation := [0, 0, 0, 1],
               parent_idx := some 0 }]
          m_lods := []
          m_first_nonroot_bone_index := 1 }, []) := by decide
  ⟨hrun, (Model.parseBones_parent_indices 260 Model.example_empty rfl).1 _ _ _ hrun 1 _ rfl⟩

end Lumix
